import Mathlib

/-!
# TizenRT wireless network-device manager: `os/net/netmgr/netdev_wifi.c`

A shallow embedding of the event queue, the event handler thread, the command
dispatcher and the scan-list serializer of `netdev_wifi.c`, and of the self test
of the IST415 touch driver (`os/drivers/input/ist415_misc.c`, namespace `Ist415`),
followed by the theorems that settle the specification's claims about them.

Conventions of the embedding

* Pointers are `Option`: `none` is `NULL`.
* Byte memory that the code allocates, copies into and frees is a store of
  blocks (`World.heap`); `kmm_malloc` returns the index of a fresh block.
* 32-bit machine integers are natural numbers holding the 32-bit pattern;
  arithmetic on them is reduced `% 2 ^ 32` and `toInt32` reads a pattern as a
  two's-complement `int32_t`.
* Calls that leave the translation unit (allocator, semaphores, driver slots,
  interface operations, `lwnl_postmsg`) take their result from an explicit
  argument or from the function stored in the device, and are appended to
  `World.trace`.
* A C function is a state transformer returning an `Outcome`: a normal return,
  the `assert(0)` path, undefined behaviour (a `NULL` or out-of-bounds access),
  or a thread suspended in `sem_wait`.
-/

namespace NetdevWifi

/-! ## Machine integers -/

/-- Number of 32-bit patterns. -/
def U32 : Nat := 4294967296

/-- The value of a 32-bit pattern read as `int32_t`. -/
def toInt32 (p : Nat) : Int :=
  if p % U32 < 2147483648 then ((p % U32 : Nat) : Int) else ((p % U32 : Nat) : Int) - 4294967296

/-- The constant `INT32_MAX`. -/
def INT32_MAX : Nat := 2147483647

/-! ## Result codes and request kinds (`tinyara/net/if/wifi.h`, `tinyara/lwnl/lwnl.h`) -/

/-- Result codes of `trwifi_result_e` are C integers. -/
abbrev trwifi_result_e := Int

/-- Modelled from the spec: `tinyara/net/if/wifi.h` is not part of the sources;
"the default failure result" of the dispatcher is the enumerator `TRWIFI_FAIL`. -/
def TRWIFI_FAIL : trwifi_result_e := -1

/-- Modelled from the spec: `tinyara/net/if/wifi.h` is not part of the sources;
the enumerator a driver slot returns when it "reports success". -/
def TRWIFI_SUCCESS : trwifi_result_e := 0

/-- The values of `cmd.type` that `netdev_handle_wifi` and `_trwifi_handle_command`
switch on; every other value of the enumeration is `other n`. -/
inductive lwnl_req_type where
  | LWNL_REQ_WIFI_INIT
  | LWNL_REQ_WIFI_DEINIT
  | LWNL_REQ_WIFI_GETINFO
  | LWNL_REQ_WIFI_SETAUTOCONNECT
  | LWNL_REQ_WIFI_STARTSTA
  | LWNL_REQ_WIFI_CONNECTAP
  | LWNL_REQ_WIFI_DISCONNECTAP
  | LWNL_REQ_WIFI_STARTSOFTAP
  | LWNL_REQ_WIFI_STOPSOFTAP
  | LWNL_REQ_WIFI_SCANAP
  | LWNL_REQ_WIFI_IOCTL
  | LWNL_REQ_WIFI_SCAN_MULTI_APS
  | LWNL_REQ_WIFI_SET_CHANNEL_PLAN
  | LWNL_REQ_WIFI_GET_SIGNAL_QUALITY
  | LWNL_REQ_WIFI_GET_DISCONNECT_REASON
  | LWNL_REQ_WIFI_GET_DRIVER_INFO
  | LWNL_REQ_WIFI_GET_WPA_SUPPLICANT_STATE
  | LWNL_REQ_WIFI_SETBRIDGE
  | other (n : Nat)
  deriving DecidableEq, Repr

/-- The request `lwnl_req`; only its `type` field is read here. -/
structure lwnl_req where
  type : lwnl_req_type
  deriving DecidableEq, Repr

/-- The event kinds of `lwnl_cb_wifi` that `_trwifi_handle_event` tests for; every
other enumerator is `other n`. -/
inductive lwnl_cb_wifi where
  | LWNL_EVT_STA_CONNECTED
  | LWNL_EVT_STA_DISCONNECTED
  | other (n : Nat)
  deriving DecidableEq, Repr

/-! ## Devices -/

/-- The four interface-state operations reached through `ND_NETOPS`. -/
inductive NetOp where
  | ifup
  | ifdown
  | softup
  | softdown
  deriving DecidableEq, Repr

/-- The capability-table slots named by `TRWIFI_CALL` in this file. -/
inductive Slot where
  | init
  | deinit
  | get_info
  | set_autoconnect
  | start_sta
  | connect_ap
  | disconnect_ap
  | start_softap
  | stop_softap
  | scan_ap
  | drv_ioctl
  | scan_multi_aps
  | set_channel_plan
  | get_signal_quality
  | get_deauth_reason
  | get_driver_info
  | get_wpa_supplicant_state
  | set_bridge
  deriving DecidableEq, Repr

/-- The interface-state operations of a device (`dev->ops`), acting on the
interface state `I` of the network stack and returning a C `int`. -/
structure netdev_ops (I : Type) where
  ifup : I → I × Int
  ifdown : I → I × Int
  softup : I → I × Int
  softdown : I → I × Int

/-- The capability table `dev->t_ops.wl`: every slot is a function pointer that
may be `NULL`. A populated slot acts on the driver state `D` and returns a
`trwifi_result_e`; pointer arguments are the pointed-to bytes or `NULL`. -/
structure trwifi_ops (D : Type) where
  init : Option (Unit → D → D × trwifi_result_e)
  deinit : Option (Unit → D → D × trwifi_result_e)
  get_info : Option (Option (List Nat) → D → D × trwifi_result_e)
  set_autoconnect : Option (Nat → D → D × trwifi_result_e)
  start_sta : Option (Unit → D → D × trwifi_result_e)
  connect_ap : Option (Option (List Nat) × Option (List Nat) → D → D × trwifi_result_e)
  disconnect_ap : Option (Option (List Nat) → D → D × trwifi_result_e)
  start_softap : Option (Option (List Nat) → D → D × trwifi_result_e)
  stop_softap : Option (Unit → D → D × trwifi_result_e)
  scan_ap : Option (Option (List Nat) → D → D × trwifi_result_e)
  drv_ioctl : Option (Option (List Nat) → D → D × trwifi_result_e)
  scan_multi_aps : Option (Option (List Nat) → D → D × trwifi_result_e)
  set_channel_plan : Option (Nat → D → D × trwifi_result_e)
  get_signal_quality : Option (Option (List Nat) → D → D × trwifi_result_e)
  get_deauth_reason : Option (Option (List Nat) → D → D × trwifi_result_e)
  get_driver_info : Option (Option (List Nat) → D → D × trwifi_result_e)
  get_wpa_supplicant_state : Option (Option (List Nat) → D → D × trwifi_result_e)
  set_bridge : Option (Nat → D → D × trwifi_result_e)

/-- The device `struct netdev`: an identity, its capability table and its
interface-state operations. -/
structure netdev (D I : Type) where
  ifname : Nat
  wl : trwifi_ops D
  ops : netdev_ops I

/-! ## The world the functions run in -/

/-- Calls that leave `netdev_wifi.c`, in the order they are made. -/
inductive Effect where
  | kmm_zalloc (ok : Bool)
  | kmm_malloc (size : Nat) (res : Option Nat)
  | kmm_free (addr : Nat)
  | kmm_free_evt
  | netop (op : NetOp) (dev : Nat)
  | drv (slot : Slot) (dev : Nat)
  | lwip_set_bridge_mode (v : Nat)
  | lwnl_postmsg (evt : lwnl_cb_wifi) (buf : Option (List Nat)) (buf_len : Nat)
  deriving DecidableEq, Repr

/-- The record `trwifi_evt`. `buf` is the address of the payload block owned by
the record; `buf_len` is the 32-bit pattern of the `int32_t` field. -/
structure trwifi_evt (D I : Type) where
  evt : lwnl_cb_wifi
  dev : Option (netdev D I)
  buf : Option Nat
  buf_len : Nat

/-- The queue `trwifi_evt_queue`: two counting semaphores and the `sq_queue_t`
list of records, head first. -/
structure trwifi_evt_queue (D I : Type) where
  lock : Nat
  signal : Nat
  queue : List (trwifi_evt D I)

/-- Everything the functions of the file read or write. -/
structure World (D I : Type) where
  heap : List (Option (List Nat))
  g_queue : trwifi_evt_queue D I
  drv : D
  ifstate : I
  trace : List Effect

/-- How a call ends. -/
inductive Outcome (σ α : Type) where
  | ret (s : σ) (a : α)
  | fatal (s : σ)
  | fault (s : σ)
  | blocked (s : σ)

/-- Sequencing of two steps: the second runs only after a normal return. -/
def Outcome.andThen {σ α β : Type} (x : Outcome σ α) (f : σ → α → Outcome σ β) : Outcome σ β :=
  match x with
  | .ret s a => f s a
  | .fatal s => .fatal s
  | .fault s => .fault s
  | .blocked s => .blocked s

variable {D I : Type}

/-- Append one call to the trace. -/
def World.log (w : World D I) (e : Effect) : World D I :=
  { w with trace := w.trace ++ [e] }

/-- The bytes of the live block at `a`, if there is one. -/
def World.read (w : World D I) (a : Nat) : Option (List Nat) :=
  w.heap[a]?.join

/-! ## Allocator and `memcpy` -/

/-- The block a successful `kmm_malloc(size)` hands out: `size` bytes whose
initial values are whatever was in memory (`junk`, read as 0 past its end). -/
def fresh_block (size : Nat) (junk : List Nat) : List Nat :=
  (List.range size).map (fun i => junk.getD i 0)

/-- The call `kmm_malloc(size)`. `r = none`: the allocation fails and `NULL` is
returned; `r = some junk`: a fresh block is returned. -/
def kmm_malloc (w : World D I) (size : Nat) (r : Option (List Nat)) : World D I × Option Nat :=
  match r with
  | none => (w.log (.kmm_malloc size none), none)
  | some junk =>
    ({ w with heap := w.heap ++ [some (fresh_block size junk)] }.log
        (.kmm_malloc size (some w.heap.length)), some w.heap.length)

/-- The call `kmm_free(a)` on a payload block. -/
def kmm_free (w : World D I) (a : Nat) : World D I :=
  { w with heap := w.heap.set a none }.log (.kmm_free a)

/-- The call `memcpy(dst + off, src, n)` into the block at `dst`: `none` when it
would read past `src` or write outside a live block. -/
def memcpy (w : World D I) (dst off : Nat) (src : List Nat) (n : Nat) : Option (World D I) :=
  match w.read dst with
  | none => none
  | some blk =>
    if src.length < n ∨ blk.length < off + n then none
    else some { w with heap := w.heap.set dst (some (blk.take off ++ src.take n ++ blk.drop (off + n))) }

/-! ## Scan-list serializer -/

/-- First loop of `trwifi_serialize_scaninfo`: `while (item) { item = item->next; cnt++; }`
on the `int32_t` counter `cnt`. -/
def count_loop : List (List Nat) → Nat → Nat
  | [], cnt => cnt
  | _ :: next, cnt => count_loop next ((cnt + 1) % U32)

/-- Second loop of `trwifi_serialize_scaninfo`:
`while (item) { memcpy(*buffer + (item_size * cnt), &item->ap_info, item_size); item = item->next; cnt++; }`. -/
def copy_loop (buffer item_size : Nat) : List (List Nat) → Nat → World D I → Option (World D I)
  | [], _, w => some w
  | ap_info :: next, cnt, w =>
    match memcpy w buffer ((item_size * cnt) % U32) ap_info item_size with
    | none => none
    | some w1 => copy_loop buffer item_size next ((cnt + 1) % U32) w1

/-- The function `trwifi_serialize_scaninfo(buffer, scan_list)`.
`sz` is `sizeof(trwifi_ap_scan_info_s)`, `buffer` the value of `*buffer` on entry,
`scan_list` the `ap_info` bytes of the nodes in list order (`[]` is `NULL`) and
`alloc` the result of the one `kmm_malloc`. Returns `*buffer` on exit and the
`int` result. `size_t` is 32 bits wide. -/
def trwifi_serialize_scaninfo (sz : Nat) (w : World D I) (buffer : Option Nat)
    (scan_list : List (List Nat)) (alloc : Option (List Nat)) : Outcome (World D I) (Option Nat × Int) :=
  match scan_list with
  | [] => .ret w (buffer, 0)
  | _ :: _ =>
    let cnt := count_loop scan_list 0
    let total := (cnt * sz) % U32
    let item_size := sz % U32
    match kmm_malloc w total alloc with
    | (w1, none) => .ret w1 (none, -1)
    | (w1, some b) =>
      match copy_loop b item_size scan_list 0 w1 with
      | none => .fault w1
      | some w2 => .ret w2 (some b, toInt32 total)

/-! ## Semaphore macros -/

/-- What one call of `sem_wait` does: it takes the semaphore, or fails with
`errno == EINTR`, or fails with another `errno`. -/
inductive SemWait where
  | acquired
  | eintr
  | error (errno : Nat)
  deriving DecidableEq, Repr

/-- The macro `LOCK_EVTQUEUE(g_queue)`. After a failed `sem_wait` with `EINTR` the
`continue` jumps to the test of `do ... while (0)`, which ends the statement. -/
def LOCK_EVTQUEUE (w : World D I) (r : SemWait) : Outcome (World D I) Unit :=
  match r with
  | .acquired =>
    if w.g_queue.lock = 0 then .blocked w
    else .ret { w with g_queue := { w.g_queue with lock := w.g_queue.lock - 1 } } ()
  | .eintr => .ret w ()
  | .error _ => .fatal w

/-- The macro `UNLOCK_EVTQUEUE(g_queue)`; `ok` says whether `sem_post` returned 0. -/
def UNLOCK_EVTQUEUE (w : World D I) (ok : Bool) : Outcome (World D I) Unit :=
  if ok then .ret { w with g_queue := { w.g_queue with lock := w.g_queue.lock + 1 } } ()
  else .fatal w

/-- The macro `WAIT_EVTQUEUE(g_queue)`, of the same shape as `LOCK_EVTQUEUE` on the
wake signal. -/
def WAIT_EVTQUEUE (w : World D I) (r : SemWait) : Outcome (World D I) Unit :=
  match r with
  | .acquired =>
    if w.g_queue.signal = 0 then .blocked w
    else .ret { w with g_queue := { w.g_queue with signal := w.g_queue.signal - 1 } } ()
  | .eintr => .ret w ()
  | .error _ => .fatal w

/-- The macro `SIGNAL_EVTQUEUE(g_queue)`; `ok` says whether `sem_post` returned 0. -/
def SIGNAL_EVTQUEUE (w : World D I) (ok : Bool) : Outcome (World D I) Unit :=
  if ok then .ret { w with g_queue := { w.g_queue with signal := w.g_queue.signal + 1 } } ()
  else .fatal w

/-- The call `sq_addlast(&msg->entry, &g_queue.queue)`. -/
def sq_addlast (msg : trwifi_evt D I) (w : World D I) : World D I :=
  { w with g_queue := { w.g_queue with queue := w.g_queue.queue ++ [msg] } }

/-- The call `sq_remfirst(&g_queue.queue)`: the removed head, `NULL` on an empty queue. -/
def sq_remfirst (w : World D I) : World D I × Option (trwifi_evt D I) :=
  match w.g_queue.queue with
  | [] => (w, none)
  | e :: rest => ({ w with g_queue := { w.g_queue with queue := rest } }, some e)

/-! ## Interface-state reconciliation -/

/-- The member of `dev->ops` that a `NetOp` names. -/
def netdev_ops.run (ops : netdev_ops I) (op : NetOp) : I → I × Int :=
  match op with
  | .ifup => ops.ifup
  | .ifdown => ops.ifdown
  | .softup => ops.softup
  | .softdown => ops.softdown

/-- The call `ND_NETOPS(dev, op(dev))`: the device's operation runs on the interface
state and its `int` result is returned. -/
def ND_NETOPS (w : World D I) (dev : netdev D I) (op : NetOp) : World D I × Int :=
  ({ w with ifstate := (dev.ops.run op w.ifstate).1 }.log (.netop op dev.ifname),
    (dev.ops.run op w.ifstate).2)

/-- The function `_trwifi_handle_event(dev, evt, buffer, buf_len)`. -/
def _trwifi_handle_event (w : World D I) (dev : Option (netdev D I)) (evt : lwnl_cb_wifi)
    (_buffer : Option Nat) (_buf_len : Nat) : World D I × Int :=
  match dev with
  | none => (w, -1)
  | some d =>
    if evt = .LWNL_EVT_STA_CONNECTED then ND_NETOPS w d .softup
    else if evt = .LWNL_EVT_STA_DISCONNECTED then ND_NETOPS w d .softdown
    else (w, 0)

/-- The function `_trwifi_handle_command(dev, cmd)`. -/
def _trwifi_handle_command (w : World D I) (dev : Option (netdev D I)) (cmd : lwnl_req) :
    World D I × Int :=
  match dev with
  | none => (w, -1)
  | some d =>
    match cmd.type with
    | .LWNL_REQ_WIFI_STARTSOFTAP => ND_NETOPS w d .softup
    | .LWNL_REQ_WIFI_STOPSOFTAP => ND_NETOPS w d .softdown
    | .LWNL_REQ_WIFI_INIT => ND_NETOPS w d .ifup
    | .LWNL_REQ_WIFI_DEINIT => ND_NETOPS w d .ifdown
    | _ => (w, 0)

/-! ## Command dispatcher -/

/-- The macro `TRWIFI_CALL(res, dev, method, param)`. Reading `dev->t_ops.wl->method`
through a `NULL` device is undefined; the argument list `param` is evaluated only
when the slot is populated and `param = none` says that evaluating it dereferences
`NULL`. Returns the new value of `res`. -/
def TRWIFI_CALL {α : Type} (w : World D I) (res : trwifi_result_e) (dev : Option (netdev D I))
    (slot : Slot) (method : trwifi_ops D → Option (α → D → D × trwifi_result_e))
    (param : Option α) : Outcome (World D I) trwifi_result_e :=
  match dev with
  | none => .fault w
  | some d =>
    match method d.wl with
    | none => .ret w res
    | some f =>
      match param with
      | none => .fault w
      | some x => .ret ({ w with drv := (f x w.drv).1 }.log (.drv slot d.ifname)) (f x w.drv).2

/-- The expression `*((uint8_t *)data)`. -/
def deref_u8 (data : Option (List Nat)) : Option Nat :=
  match data with
  | some (b :: _) => some b
  | _ => none

/-- The tail of `netdev_handle_wifi`, from `if (res == TRWIFI_SUCCESS)` on. -/
def reconcile (dev : Option (netdev D I)) (cmd : lwnl_req) (w : World D I)
    (res : trwifi_result_e) : Outcome (World D I) Int :=
  if res = TRWIFI_SUCCESS then
    if (_trwifi_handle_command w dev cmd).2 < 0 then .fatal (_trwifi_handle_command w dev cmd).1
    else .ret (_trwifi_handle_command w dev cmd).1 res
  else .ret w res

/-- The function `netdev_handle_wifi(dev, cmd, data, data_len)`. `homelynk` says whether
`CONFIG_ENABLE_HOMELYNK == 1`, which compiles the `LWNL_REQ_WIFI_SETBRIDGE` case in. -/
def netdev_handle_wifi (homelynk : Bool) (w : World D I) (dev : Option (netdev D I))
    (cmd : lwnl_req) (data : Option (List Nat)) (_data_len : Nat) : Outcome (World D I) Int :=
  let res : trwifi_result_e := TRWIFI_FAIL
  (match cmd.type with
    | .LWNL_REQ_WIFI_INIT => TRWIFI_CALL w res dev .init (·.init) (some ())
    | .LWNL_REQ_WIFI_DEINIT => TRWIFI_CALL w res dev .deinit (·.deinit) (some ())
    | .LWNL_REQ_WIFI_GETINFO => TRWIFI_CALL w res dev .get_info (·.get_info) (some data)
    | .LWNL_REQ_WIFI_SETAUTOCONNECT =>
      TRWIFI_CALL w res dev .set_autoconnect (·.set_autoconnect) (deref_u8 data)
    | .LWNL_REQ_WIFI_STARTSTA => TRWIFI_CALL w res dev .start_sta (·.start_sta) (some ())
    | .LWNL_REQ_WIFI_CONNECTAP =>
      TRWIFI_CALL w res dev .connect_ap (·.connect_ap) (some (data, none))
    | .LWNL_REQ_WIFI_DISCONNECTAP =>
      TRWIFI_CALL w res dev .disconnect_ap (·.disconnect_ap) (some none)
    | .LWNL_REQ_WIFI_STARTSOFTAP =>
      TRWIFI_CALL w res dev .start_softap (·.start_softap) (some data)
    | .LWNL_REQ_WIFI_STOPSOFTAP => TRWIFI_CALL w res dev .stop_softap (·.stop_softap) (some ())
    | .LWNL_REQ_WIFI_SCANAP => TRWIFI_CALL w res dev .scan_ap (·.scan_ap) (some data)
    | .LWNL_REQ_WIFI_IOCTL => TRWIFI_CALL w res dev .drv_ioctl (·.drv_ioctl) (some data)
    | .LWNL_REQ_WIFI_SCAN_MULTI_APS =>
      TRWIFI_CALL w res dev .scan_multi_aps (·.scan_multi_aps) (some data)
    | .LWNL_REQ_WIFI_SET_CHANNEL_PLAN =>
      TRWIFI_CALL w res dev .set_channel_plan (·.set_channel_plan) (deref_u8 data)
    | .LWNL_REQ_WIFI_GET_SIGNAL_QUALITY =>
      TRWIFI_CALL w res dev .get_signal_quality (·.get_signal_quality) (some data)
    | .LWNL_REQ_WIFI_GET_DISCONNECT_REASON =>
      TRWIFI_CALL w res dev .get_deauth_reason (·.get_deauth_reason) (some data)
    | .LWNL_REQ_WIFI_GET_DRIVER_INFO =>
      TRWIFI_CALL w res dev .get_driver_info (·.get_driver_info) (some data)
    | .LWNL_REQ_WIFI_GET_WPA_SUPPLICANT_STATE =>
      TRWIFI_CALL w res dev .get_wpa_supplicant_state (·.get_wpa_supplicant_state) (some data)
    | .LWNL_REQ_WIFI_SETBRIDGE =>
      if homelynk then
        match deref_u8 data with
        | none => .fault w
        | some v =>
          TRWIFI_CALL (w.log (.lwip_set_bridge_mode v)) res dev .set_bridge (·.set_bridge) (some v)
      else .ret w res
    | .other _ => .ret w res).andThen (reconcile dev cmd)

/-- The function `netdev_deinit_wifi()`; `wlan0` is what `nm_get_netdev("wlan0")` returns. -/
def netdev_deinit_wifi (w : World D I) (wlan0 : Option (netdev D I)) :
    Outcome (World D I) trwifi_result_e :=
  match wlan0 with
  | none => .ret w TRWIFI_FAIL
  | some dev => TRWIFI_CALL w TRWIFI_FAIL (some dev) .deinit (·.deinit) (some ())

/-! ## Event queue -/

/-- Results of the calls `trwifi_post_event` makes outside the file: `kmm_zalloc` of
the record, `kmm_malloc` of the payload copy, `sem_wait` and `sem_post` on the lock,
`sem_post` on the wake signal. -/
structure PostEnv where
  msg : Bool
  buf : Option (List Nat)
  lock : SemWait
  unlock : Bool
  signal : Bool

/-- The function `trwifi_post_event(dev, evt, buffer, buf_len)`. `buffer` is the address
of the producer's block or `NULL`. -/
def trwifi_post_event (w : World D I) (dev : Option (netdev D I)) (evt : lwnl_cb_wifi)
    (buffer : Option Nat) (buf_len : Nat) (o : PostEnv) : Outcome (World D I) Int :=
  if o.msg = false then .ret (w.log (.kmm_zalloc false)) (-1)
  else
    let w0 := w.log (.kmm_zalloc true)
    -- the record is zero-filled, then `evt` and `dev` are assigned
    let msg : trwifi_evt D I := { evt := evt, dev := dev, buf := none, buf_len := 0 }
    let filled : Outcome (World D I) (Option (trwifi_evt D I)) :=
      match buffer with
      | none => .ret w0 (some msg)
      | some src =>
        match kmm_malloc w0 buf_len o.buf with
        | (w1, none) => .ret w1 none
        | (w1, some b) =>
          match w1.read src with
          | none => .fault w1
          | some bytes =>
            match memcpy w1 b 0 bytes buf_len with
            | none => .fault w1
            | some w2 => .ret w2 (some { msg with buf := some b, buf_len := buf_len % U32 })
    filled.andThen fun w3 m =>
      match m with
      | none => .ret w3 (-1)
      | some msg1 =>
        (LOCK_EVTQUEUE w3 o.lock).andThen fun w4 _ =>
        (UNLOCK_EVTQUEUE (sq_addlast msg1 w4) o.unlock).andThen fun w5 _ =>
        (SIGNAL_EVTQUEUE w5 o.signal).andThen fun w6 _ =>
        .ret w6 0

/-- Results of the calls one pass of the handler loop makes outside the file: `sem_wait`
on the wake signal, `sem_wait` and `sem_post` on the lock, and `lwnl_postmsg`. -/
structure HandlerEnv where
  wait : SemWait
  lock : SemWait
  unlock : Bool
  postmsg : Int

/-- One pass through the body of `while (1)` in `_trwifi_event_handler`. With an empty
queue `sq_remfirst` returns `NULL` and `evt->dev` reads through
`CONTAINER_OF(NULL, ...)`, which is undefined. -/
def _trwifi_event_handler (w : World D I) (o : HandlerEnv) : Outcome (World D I) Unit :=
  (WAIT_EVTQUEUE w o.wait).andThen fun w1 _ =>
  (LOCK_EVTQUEUE w1 o.lock).andThen fun w2 _ =>
  (UNLOCK_EVTQUEUE (sq_remfirst w2).1 o.unlock).andThen fun w3 _ =>
  match (sq_remfirst w2).2 with
  | none => .fault w3
  | some evt =>
    let w4 := (_trwifi_handle_event w3 evt.dev evt.evt evt.buf evt.buf_len).1
    if (_trwifi_handle_event w3 evt.dev evt.evt evt.buf evt.buf_len).2 < 0 then .fatal w4
    else
      let w5 := w4.log (.lwnl_postmsg evt.evt (evt.buf.bind w4.read) evt.buf_len)
      if o.postmsg < 0 then .fatal w5
      else
        let w6 := match evt.buf with
          | some b => kmm_free w5 b
          | none => w5
        .ret (w6.log .kmm_free_evt) ()

/-- Results of the calls of `trwifi_run_handler`: the two `sem_init` and whether
`kernel_thread` returned a thread id. -/
structure RunEnv where
  init_lock : Bool
  init_signal : Bool
  thread : Bool

/-- The function `trwifi_run_handler()`. -/
def trwifi_run_handler (w : World D I) (o : RunEnv) : World D I × Int :=
  if o.init_lock = false then (w, -1)
  else
    let w1 := { w with g_queue := { w.g_queue with lock := 1 } }
    if o.init_signal = false then (w1, -1)
    else
      let w2 := { w1 with g_queue := { w1.g_queue with signal := 0 } }
      if o.thread = false then (w2, -2) else (w2, 0)

/-- The state at boot: `g_queue` is a zero-filled static object, nothing is allocated
and nothing has been called. -/
def World.boot (d : D) (i : I) : World D I :=
  { heap := [], g_queue := { lock := 0, signal := 0, queue := [] }, drv := d, ifstate := i,
    trace := [] }

/-! ## Vocabulary of the specification

The definitions below are not translations of C code. They name what the claims
talk about (the slot that serves a command, the interface operation that follows
it, a run of posts followed by handler passes) so that the theorems can compare
the functions above with them. -/

/-- The end state of a call, however it ended. -/
def Outcome.state {σ α : Type} : Outcome σ α → σ
  | .ret s _ => s
  | .fatal s => s
  | .fault s => s
  | .blocked s => s

/-- The value a call returned, if it returned. -/
def Outcome.result {σ α : Type} : Outcome σ α → Option α
  | .ret _ a => some a
  | _ => none

/-- Command table of the specification (§4.3): the capability-table slot that
serves each command kind. The bridge toggle exists only in a build with
`CONFIG_ENABLE_HOMELYNK`. -/
def cmd_slot (homelynk : Bool) : lwnl_req_type → Option Slot
  | .LWNL_REQ_WIFI_INIT => some .init
  | .LWNL_REQ_WIFI_DEINIT => some .deinit
  | .LWNL_REQ_WIFI_GETINFO => some .get_info
  | .LWNL_REQ_WIFI_SETAUTOCONNECT => some .set_autoconnect
  | .LWNL_REQ_WIFI_STARTSTA => some .start_sta
  | .LWNL_REQ_WIFI_CONNECTAP => some .connect_ap
  | .LWNL_REQ_WIFI_DISCONNECTAP => some .disconnect_ap
  | .LWNL_REQ_WIFI_STARTSOFTAP => some .start_softap
  | .LWNL_REQ_WIFI_STOPSOFTAP => some .stop_softap
  | .LWNL_REQ_WIFI_SCANAP => some .scan_ap
  | .LWNL_REQ_WIFI_IOCTL => some .drv_ioctl
  | .LWNL_REQ_WIFI_SCAN_MULTI_APS => some .scan_multi_aps
  | .LWNL_REQ_WIFI_SET_CHANNEL_PLAN => some .set_channel_plan
  | .LWNL_REQ_WIFI_GET_SIGNAL_QUALITY => some .get_signal_quality
  | .LWNL_REQ_WIFI_GET_DISCONNECT_REASON => some .get_deauth_reason
  | .LWNL_REQ_WIFI_GET_DRIVER_INFO => some .get_driver_info
  | .LWNL_REQ_WIFI_GET_WPA_SUPPLICANT_STATE => some .get_wpa_supplicant_state
  | .LWNL_REQ_WIFI_SETBRIDGE => if homelynk then some .set_bridge else none
  | .other _ => none

/-- Whether a slot of the capability table is populated (not `NULL`). -/
def slot_populated (wl : trwifi_ops D) : Slot → Bool
  | .init => wl.init.isSome
  | .deinit => wl.deinit.isSome
  | .get_info => wl.get_info.isSome
  | .set_autoconnect => wl.set_autoconnect.isSome
  | .start_sta => wl.start_sta.isSome
  | .connect_ap => wl.connect_ap.isSome
  | .disconnect_ap => wl.disconnect_ap.isSome
  | .start_softap => wl.start_softap.isSome
  | .stop_softap => wl.stop_softap.isSome
  | .scan_ap => wl.scan_ap.isSome
  | .drv_ioctl => wl.drv_ioctl.isSome
  | .scan_multi_aps => wl.scan_multi_aps.isSome
  | .set_channel_plan => wl.set_channel_plan.isSome
  | .get_signal_quality => wl.get_signal_quality.isSome
  | .get_deauth_reason => wl.get_deauth_reason.isSome
  | .get_driver_info => wl.get_driver_info.isSome
  | .get_wpa_supplicant_state => wl.get_wpa_supplicant_state.isSome
  | .set_bridge => wl.set_bridge.isSome

/-- A populated slot applied to the payload of a request: the driver function that
runs when the slot is called with `data`. `none` when the slot is empty, or when it
takes the payload's first byte and `data` has none to read. -/
def slot_invoke (wl : trwifi_ops D) (s : Slot) (data : Option (List Nat)) :
    Option (D → D × trwifi_result_e) :=
  match s with
  | .init => wl.init.map (· ())
  | .deinit => wl.deinit.map (· ())
  | .get_info => wl.get_info.map (· data)
  | .set_autoconnect => wl.set_autoconnect.bind fun f => (deref_u8 data).map f
  | .start_sta => wl.start_sta.map (· ())
  | .connect_ap => wl.connect_ap.map (· (data, none))
  | .disconnect_ap => wl.disconnect_ap.map (· none)
  | .start_softap => wl.start_softap.map (· data)
  | .stop_softap => wl.stop_softap.map (· ())
  | .scan_ap => wl.scan_ap.map (· data)
  | .drv_ioctl => wl.drv_ioctl.map (· data)
  | .scan_multi_aps => wl.scan_multi_aps.map (· data)
  | .set_channel_plan => wl.set_channel_plan.bind fun f => (deref_u8 data).map f
  | .get_signal_quality => wl.get_signal_quality.map (· data)
  | .get_deauth_reason => wl.get_deauth_reason.map (· data)
  | .get_driver_info => wl.get_driver_info.map (· data)
  | .get_wpa_supplicant_state => wl.get_wpa_supplicant_state.map (· data)
  | .set_bridge => wl.set_bridge.bind fun f => (deref_u8 data).map f

/-- Reconciliation table of the specification (§4.3): the interface-state operation
that follows a successful command, if the command kind has one. -/
def reconcile_op : lwnl_req_type → Option NetOp
  | .LWNL_REQ_WIFI_INIT => some .ifup
  | .LWNL_REQ_WIFI_DEINIT => some .ifdown
  | .LWNL_REQ_WIFI_STARTSOFTAP => some .softup
  | .LWNL_REQ_WIFI_STOPSOFTAP => some .softdown
  | _ => none

/-- Calls other than driver slots and interface operations that a request makes
before its slot is reached: the bridge toggle first hands its byte to lwIP. -/
def before_slot (ty : lwnl_req_type) (data : Option (List Nat)) : List Effect :=
  match ty, deref_u8 data with
  | .LWNL_REQ_WIFI_SETBRIDGE, some v => [.lwip_set_bridge_mode v]
  | _, _ => []

/-- The driver-slot calls of a trace. -/
def drv_calls (t : List Effect) : List (Slot × Nat) :=
  t.filterMap fun e => match e with
    | .drv s d => some (s, d)
    | _ => none

/-- The interface-state operations of a trace. -/
def netop_calls (t : List Effect) : List (NetOp × Nat) :=
  t.filterMap fun e => match e with
    | .netop op d => some (op, d)
    | _ => none

/-- The `lwnl_postmsg` calls of a trace: event kind, payload bytes (`none` for a
`NULL` payload) and length. -/
def delivered (t : List Effect) : List (lwnl_cb_wifi × Option (List Nat) × Nat) :=
  t.filterMap fun e => match e with
    | .lwnl_postmsg evt buf len => some (evt, buf, len)
    | _ => none

/-- One call of `trwifi_post_event`: its arguments and the results of the calls it
makes outside the file. -/
structure PostCall (D I : Type) where
  dev : Option (netdev D I)
  evt : lwnl_cb_wifi
  buffer : Option Nat
  buf_len : Nat
  env : PostEnv

/-- A sequence of `trwifi_post_event` calls, one after the other; the results are
returned in call order. -/
def post_all (w : World D I) : List (PostCall D I) → Outcome (World D I) (List Int)
  | [] => .ret w []
  | c :: cs =>
    (trwifi_post_event w c.dev c.evt c.buffer c.buf_len c.env).andThen fun w1 r =>
    (post_all w1 cs).andThen fun w2 rs => .ret w2 (r :: rs)

/-- The loop `while (1)` of `_trwifi_event_handler`, run for as many passes as there
are entries in the list. -/
def handler_loop (w : World D I) : List HandlerEnv → Outcome (World D I) Unit
  | [] => .ret w ()
  | o :: os => (_trwifi_event_handler w o).andThen fun w1 _ => handler_loop w1 os

/-- Whether a post gets both of its allocations: the record, and the payload copy
when a payload is supplied. -/
def PostCall.allocated (c : PostCall D I) : Bool :=
  c.env.msg && (c.buffer.isNone || c.env.buf.isSome)

/-- The event as the producer posted it: kind, payload bytes at the time of the call
(`none` for a `NULL` buffer) and the length passed. -/
def PostCall.posted (w : World D I) (c : PostCall D I) : lwnl_cb_wifi × Option (List Nat) × Nat :=
  (c.evt, c.buffer.bind fun a => (w.read a).map (·.take c.buf_len), c.buf_len)

/-- The event as the queue record carries it: like `posted`, but the length of an
event posted without a payload is 0. -/
def PostCall.carried (w : World D I) (c : PostCall D I) : lwnl_cb_wifi × Option (List Nat) × Nat :=
  (c.evt, c.buffer.bind fun a => (w.read a).map (·.take c.buf_len),
    match c.buffer with
    | some _ => c.buf_len
    | none => 0)

/-- The primitives called by a post do not fail: `sem_wait` takes the semaphore or is
interrupted, both `sem_post` return 0. -/
def PostEnv.sound (o : PostEnv) : Prop :=
  (o.lock = .acquired ∨ o.lock = .eintr) ∧ o.unlock = true ∧ o.signal = true

/-- The primitives called by a handler pass do not fail and `lwnl_postmsg` succeeds. -/
def HandlerEnv.sound (o : HandlerEnv) : Prop :=
  (o.wait = .acquired ∨ o.wait = .eintr) ∧ (o.lock = .acquired ∨ o.lock = .eintr)
    ∧ o.unlock = true ∧ 0 ≤ o.postmsg

/-- A producer's change of its own buffer: the block at `a` gets new contents. -/
def World.poke (w : World D I) (a : Nat) (bytes : List Nat) : World D I :=
  { w with heap := w.heap.set a (some bytes) }

/-- What the handler will hand to `lwnl_postmsg` for the records now in the queue, head
first: kind, bytes of the record's payload block and length field. -/
def pending (w : World D I) : List (lwnl_cb_wifi × Option (List Nat) × Nat) :=
  w.g_queue.queue.map fun r => (r.evt, r.buf.bind w.read, r.buf_len)

/-- The payload blocks the queued records point to. -/
def owned (w : World D I) : List Nat :=
  w.g_queue.queue.filterMap (·.buf)

/-- The queue is usable: the lock is free, the wake signal covers the queued records,
and the records point to distinct blocks of the store. -/
def QueueInv (w : World D I) : Prop :=
  0 < w.g_queue.lock ∧ w.g_queue.queue.length ≤ w.g_queue.signal
    ∧ (owned w).Nodup ∧ ∀ a ∈ owned w, a < w.heap.length

/-- The same outcome with the end state changed by `g`. -/
def Outcome.mapState {σ α : Type} (g : σ → σ) : Outcome σ α → Outcome σ α
  | .ret s a => .ret (g s) a
  | .fatal s => .fatal (g s)
  | .fault s => .fault (g s)
  | .blocked s => .blocked (g s)

/-- Effect table of the specification (§4.2): the interface-state operation an event
kind stands for: STA-connected brings the interface up, STA-disconnected brings it
down, no other kind has one. -/
def event_op : lwnl_cb_wifi → Option NetOp
  | .LWNL_EVT_STA_CONNECTED => some .softup
  | .LWNL_EVT_STA_DISCONNECTED => some .softdown
  | .other _ => none

/-- The interface operations and `lwnl_postmsg` calls of a trace, in order. -/
def steps_of (t : List Effect) : List Effect :=
  t.filter fun e => match e with
    | .netop _ _ => true
    | .lwnl_postmsg _ _ _ => true
    | _ => false

/-- The calls of a trace that release memory. -/
def frees_of (t : List Effect) : List Effect :=
  t.filter fun e => match e with
    | .kmm_free _ => true
    | .kmm_free_evt => true
    | _ => false

/-- What handling one posted event consists of: its interface operation on its
device, if its kind has one, and then its `lwnl_postmsg` call. -/
def PostCall.handled (w : World D I) (c : PostCall D I) : List Effect :=
  (match c.dev, event_op c.evt with
    | some d, some op => [.netop op d.ifname]
    | _, _ => [])
  ++ [.lwnl_postmsg (c.carried w).1 (c.carried w).2.1 (c.carried w).2.2]

/-- The interface state after the operation of one posted event. -/
def PostCall.effect (c : PostCall D I) (i : I) : I :=
  match c.dev, event_op c.evt with
  | some d, some op => (d.ops.run op i).1
  | _, _ => i

/-- The wait the specification describes (§4.1): a `sem_wait` that fails with `EINTR`
is made again, with the next answer of the semaphore, until it takes the semaphore or
fails for another reason. `count` is the semaphore's count; the result is the count
after the wait, `none` on the fatal path or when the answers run out. -/
def wait_retrying (count : Nat) : List SemWait → Option Nat
  | [] => none
  | .acquired :: _ => if count = 0 then none else some (count - 1)
  | .eintr :: rest => wait_retrying count rest
  | .error _ :: _ => none

/-! ## A concrete device for worked instances -/

/-- A capability table with every slot empty. -/
def no_ops : trwifi_ops Nat :=
  { init := none, deinit := none, get_info := none, set_autoconnect := none, start_sta := none,
    connect_ap := none, disconnect_ap := none, start_softap := none, stop_softap := none,
    scan_ap := none, drv_ioctl := none, scan_multi_aps := none, set_channel_plan := none,
    get_signal_quality := none, get_deauth_reason := none, get_driver_info := none,
    get_wpa_supplicant_state := none, set_bridge := none }

/-- Interface operations on a one-bit interface state (`true` is up) that always
succeed. -/
def updown_ops : netdev_ops Bool :=
  { ifup := fun _ => (true, 0), ifdown := fun _ => (false, 0),
    softup := fun _ => (true, 0), softdown := fun _ => (false, 0) }

/-- A device whose driver counts its calls: soft-AP start succeeds, connect fails with
code 3, every other slot is empty. -/
def wlan_demo : netdev Nat Bool :=
  { ifname := 0,
    wl := { no_ops with
            start_softap := some fun _ n => (n + 1, TRWIFI_SUCCESS),
            connect_ap := some fun _ n => (n + 1, 3) },
    ops := updown_ops }

/-- The state after a successful `trwifi_run_handler` at boot, with two producer
buffers in memory. -/
def demo_world : World Nat Bool :=
  { heap := [some [10, 11, 12, 13], some [20, 21]],
    g_queue := { lock := 1, signal := 0, queue := [] }, drv := 0, ifstate := false, trace := [] }

/-- Results of a post whose allocations and semaphore calls all succeed. -/
def post_ok : PostEnv :=
  { msg := true, buf := some [], lock := .acquired, unlock := true, signal := true }

/-- Results of a post whose payload allocation fails. -/
def post_nomem : PostEnv :=
  { msg := true, buf := none, lock := .acquired, unlock := true, signal := true }

/-- Results of a handler pass in which every call succeeds. -/
def pass_ok : HandlerEnv :=
  { wait := .acquired, lock := .acquired, unlock := true, postmsg := 0 }

/-- A device whose `init` slot succeeds while every interface operation fails with -1. -/
def wlan_stuck : netdev Nat Bool :=
  { ifname := 1,
    wl := { no_ops with init := some fun _ n => (n + 1, TRWIFI_SUCCESS) },
    ops := { ifup := fun i => (i, -1), ifdown := fun i => (i, -1),
             softup := fun i => (i, -1), softdown := fun i => (i, -1) } }

/-- What handling one queued record consists of: the interface operation of its kind
on its device, if there is one, and then its `lwnl_postmsg` call with the bytes of its
payload block. -/
def trwifi_evt.steps (w : World D I) (r : trwifi_evt D I) : List Effect :=
  (match r.dev, event_op r.evt with
    | some d, some op => [.netop op d.ifname]
    | _, _ => [])
  ++ [.lwnl_postmsg r.evt (r.buf.bind w.read) r.buf_len]

/-- The interface state after the operation of one queued record. -/
def trwifi_evt.effect (r : trwifi_evt D I) (i : I) : I :=
  match r.dev, event_op r.evt with
  | some d, some op => (d.ops.run op i).1
  | _, _ => i

/-- Results of a successful `trwifi_run_handler`. -/
def run_ok : RunEnv :=
  { init_lock := true, init_signal := true, thread := true }

/-- The interface operation of one posted event and the device it is made on, if the
event has one. -/
def PostCall.netop (c : PostCall D I) : Option (NetOp × Nat) :=
  match c.dev, event_op c.evt with
  | some d, some op => some (op, d.ifname)
  | _, _ => none

/-- Scenario A of the specification: STA-connected, STA-disconnected, STA-connected
posted by one producer on one device, without payload. -/
def scenario_a : List (PostCall Nat Bool) :=
  [⟨some wlan_demo, .LWNL_EVT_STA_CONNECTED, none, 0, post_ok⟩,
   ⟨some wlan_demo, .LWNL_EVT_STA_DISCONNECTED, none, 0, post_ok⟩,
   ⟨some wlan_demo, .LWNL_EVT_STA_CONNECTED, none, 0, post_ok⟩]

/-- One step of a run of the event queue: a call of `trwifi_post_event` or one pass
of the loop in `_trwifi_event_handler`. -/
inductive Step (D I : Type) where
  | post (c : PostCall D I)
  | pass (o : HandlerEnv)

/-- Runs the steps in order from `w`. Next to the state it keeps the list `h` of the
records that calls of `trwifi_post_event` have put in the queue so far. The run ends
with `none` at a step that does not return. -/
def run_steps (w : World D I) (h : List (trwifi_evt D I)) :
    List (Step D I) → Option (World D I × List (trwifi_evt D I))
  | [] => some (w, h)
  | .post c :: rest =>
    match trwifi_post_event w c.dev c.evt c.buffer c.buf_len c.env with
    | .ret w1 _ => run_steps w1 (h ++ w1.g_queue.queue.drop w.g_queue.queue.length) rest
    | _ => none
  | .pass o :: rest =>
    match _trwifi_event_handler w o with
    | .ret w1 _ => run_steps w1 h rest
    | _ => none

/-- Whether in every handler pass among the steps the `sem_wait` of `WAIT_EVTQUEUE`
takes a wake token. -/
def waits_acquired : List (Step D I) → Bool
  | [] => true
  | .post _ :: rest => waits_acquired rest
  | .pass o :: rest =>
    match o.wait with
    | .acquired => waits_acquired rest
    | _ => false

end NetdevWifi

/-! # The IST415 touch driver: `ist415_run_selftest`

Model of `ist415_run_selftest` of `os/drivers/input/ist415_misc.c`. The function
starts a self test of the touch controller, polls the two fields `cmcs` and `cmcs_msg`
of the device, which the interrupt path of the driver fills in while the function
sleeps, and then reads the test data. Debug prints are left out. -/

namespace Ist415

/-- Constants of `tinyara/input/ist415.h` and `errno.h` that the function uses. The
headers are not among the sources, so the values are left open. -/
structure Consts where
  IST415_WAIT_TIME : Nat
  SELFTEST_PASS : Nat
  SELFTEST_FAIL : Nat
  CMCS_FLAG_CM : Nat
  CMCS_FLAG_JITTER : Nat
  CM_MSG_VALID : Nat
  JITTER_MSG_VALID : Nat
  EPERM : Int

/-- The calls `ist415_run_selftest` makes outside itself: `ist415_enable`,
`ist415_disable`, `ist415_i2c_write` of the command `HCOM_RUN_SELFTEST` with the flag,
`msleep`, and `ist415_i2c_read` of `HCOM_GET_SELFTEST_DATA` into `buf16`. -/
inductive Call where
  | enable
  | disable
  | write_selftest (flag : Nat)
  | msleep (ms : Nat)
  | read_selftest_data (size : Nat)
  deriving DecidableEq, Repr

/-- The fields of `struct ist415_dev_s` that the function reads or writes. -/
structure ist415_dev_s where
  event_mode : Bool
  cmcs : Nat
  cmcs_msg : Nat
  cm_result : Nat
  jitter_result : Nat
  mtl_node_len : Nat
  deriving DecidableEq, Repr

/-- The device and the list of calls made so far, oldest first. -/
structure State where
  dev : ist415_dev_s
  calls : List Call
  deriving DecidableEq, Repr

/-- Results of the calls: the status of `ist415_i2c_write`, the values of `cmcs` and
`cmcs_msg` that the function finds after its `k`-th `msleep` (counted from 0), and the
status of `ist415_i2c_read`. -/
structure SelftestEnv where
  write : Int
  seen : Nat → Nat × Nat
  read : Int

/-- The loop `while (wait-- > 0)` of `ist415_run_selftest`. The first argument is the
value of `wait` when the loop test is made, the second the number of passes made
before. The result holds the value of `wait` after the loop: the test that fails at
`wait == 0` still decrements, and a `break` leaves `wait` as the test decremented it. -/
def poll_loop (K : Consts) (flag : Nat) (seen : Nat → Nat × Nat) :
    Nat → Nat → State → Int × State
  | 0, _, s => (-1, s)
  | n + 1, k, s =>
    let s1 : State :=
      { dev := { s.dev with cmcs := (seen k).1, cmcs_msg := (seen k).2 },
        calls := s.calls ++ [.msleep 100] }
    if s1.dev.cmcs = K.SELFTEST_PASS ∨ s1.dev.cmcs = K.SELFTEST_FAIL then
      if flag = K.CMCS_FLAG_CM then
        if s1.dev.cmcs_msg = K.CM_MSG_VALID then
          ((n : Int), { s1 with dev := { s1.dev with
            cm_result := if s1.dev.cmcs = K.SELFTEST_PASS then 0 else 1 } })
        else poll_loop K flag seen n (k + 1) s1
      else if flag = K.CMCS_FLAG_JITTER then
        if s1.dev.cmcs_msg = K.JITTER_MSG_VALID then
          ((n : Int), { s1 with dev := { s1.dev with
            jitter_result := if s1.dev.cmcs = K.SELFTEST_PASS then 0 else 1 } })
        else poll_loop K flag seen n (k + 1) s1
      else poll_loop K flag seen n (k + 1) s1
    else poll_loop K flag seen n (k + 1) s1

/-- The function `ist415_run_selftest(dev, flag, buf16)`: the state it leaves and the
value it returns. The size passed to the read is `mtl_node_len * sizeof(int16_t)`. -/
def ist415_run_selftest (K : Consts) (s : State) (flag : Nat) (env : SelftestEnv) :
    State × Int :=
  let size := s.dev.mtl_node_len * 2
  let s1 : State :=
    { dev := { s.dev with event_mode := false, cmcs := 0, cmcs_msg := 0 },
      calls := s.calls ++ [.enable, .write_selftest flag] }
  if env.write ≠ 0 then (s1, env.write)
  else
    let r := poll_loop K flag env.seen K.IST415_WAIT_TIME 0 s1
    if r.1 = 0 then ({ r.2 with calls := r.2.calls ++ [.disable] }, -K.EPERM)
    else ({ r.2 with calls := r.2.calls ++ [.read_selftest_data size, .disable] }, env.read)

/-! ## Vocabulary of the specification -/

/-- Whether a pair of `cmcs` and `cmcs_msg` is a pass or fail result with the valid
message for the requested flag. -/
def valid_result (K : Consts) (flag : Nat) (c : Nat × Nat) : Bool :=
  (decide (c.1 = K.SELFTEST_PASS) || decide (c.1 = K.SELFTEST_FAIL))
    && (if flag = K.CMCS_FLAG_CM then decide (c.2 = K.CM_MSG_VALID)
        else if flag = K.CMCS_FLAG_JITTER then decide (c.2 = K.JITTER_MSG_VALID)
        else false)

/-- The first poll among the polls `k`, ..., `k + n - 1` that observes a valid result. -/
def first_valid (K : Consts) (flag : Nat) (seen : Nat → Nat × Nat) : Nat → Nat → Option Nat
  | 0, _ => none
  | n + 1, k => if valid_result K flag (seen k) then some k else first_valid K flag seen n (k + 1)

/-- The number of polls made when the first valid result is observed at `j`, or never. -/
def polls (W : Nat) : Option Nat → Nat
  | some j => j + 1
  | none => W

/-! ## A concrete controller for worked instances -/

/-- A choice of the constants with three polls. -/
def demo_consts : Consts :=
  { IST415_WAIT_TIME := 3, SELFTEST_PASS := 16, SELFTEST_FAIL := 32, CMCS_FLAG_CM := 1,
    CMCS_FLAG_JITTER := 2, CM_MSG_VALID := 7, JITTER_MSG_VALID := 9, EPERM := 1 }

/-- A device with 4 mutual nodes before any call. -/
def demo_state : State :=
  { dev := { event_mode := true, cmcs := 0, cmcs_msg := 0, cm_result := 5, jitter_result := 5,
             mtl_node_len := 4 },
    calls := [] }

/-- The controller never answers; the write and the read succeed. -/
def env_silent : SelftestEnv :=
  { write := 0, seen := fun _ => (0, 0), read := 0 }

/-- The controller reports a pass with the valid CM message at poll `j` and nothing
before; the write and the read succeed. -/
def env_pass_at (j : Nat) : SelftestEnv :=
  { write := 0, seen := fun k => if k = j then (16, 7) else (0, 0), read := 0 }

end Ist415

namespace NetdevWifi

variable {D I : Type}

/-! ## Facts about the store -/

theorem toInt32_of_le {n : Nat} (h : n ≤ INT32_MAX) : toInt32 n = (n : Int) := by
  have h1 : n % U32 = n := Nat.mod_eq_of_lt (by unfold INT32_MAX at h; unfold U32; omega)
  unfold toInt32
  rw [h1, if_pos (by unfold INT32_MAX at h; omega)]

theorem length_fresh_block (size : Nat) (junk : List Nat) :
    (fresh_block size junk).length = size := by
  simp [fresh_block]

theorem count_loop_eq (l : List (List Nat)) (k : Nat) :
    count_loop l (k % U32) = (k + l.length) % U32 := by
  induction l generalizing k with
  | nil => simp [count_loop]
  | cons r l ih =>
    rw [count_loop, Nat.mod_add_mod, ih (k + 1), List.length_cons]
    congr 1
    omega

theorem copy_loop_eq (b sz : Nat) (l : List (List Nat)) (hrec : ∀ r ∈ l, r.length = sz)
    (k : Nat) (pre rest : List Nat) (w : World D I)
    (hb : w.heap[b]? = some (some (pre ++ rest)))
    (hpre : pre.length = k * sz) (hrest : l.length * sz ≤ rest.length)
    (hsz : l ≠ [] → sz < U32) (hfit : l ≠ [] → k * sz + l.length * sz ≤ U32) :
    copy_loop b (sz % U32) l (k % U32) w
      = some { w with
          heap := w.heap.set b (some (pre ++ l.flatten ++ rest.drop (l.length * sz))) } := by
  induction l generalizing k pre rest w with
  | nil =>
    have hlt : b < w.heap.length := by
      by_contra hge
      rw [List.getElem?_eq_none (by omega)] at hb
      cases hb
    have hset : w.heap.set b (some (pre ++ rest)) = w.heap := by
      apply List.ext_getElem? ; intro i
      rw [List.getElem?_set]
      by_cases hi : b = i
      · subst hi; simp [hlt, hb]
      · simp [hi]
    simp [copy_loop, hset]
  | cons r l ih =>
    have hszlt : sz < U32 := hsz (by simp)
    have hfit1 : k * sz + (l.length + 1) * sz ≤ U32 := by simpa using hfit (by simp)
    have hr : r.length = sz := hrec r (by simp)
    have hrest1 : sz + l.length * sz ≤ rest.length := by
      have := hrest
      simp only [List.length_cons] at this
      nlinarith
    have hoff : (sz % U32 * (k % U32)) % U32 = k * sz := by
      rw [← Nat.mul_mod, Nat.mul_comm]
      by_cases h0 : sz = 0
      · subst h0; simp
      · apply Nat.mod_eq_of_lt
        have : 0 < sz := Nat.pos_of_ne_zero h0
        nlinarith
    have hcnt : (k % U32 + 1) % U32 = (k + 1) % U32 := Nat.mod_add_mod _ _ _
    have hmem : memcpy w b (k * sz) r sz
        = some { w with heap := w.heap.set b (some ((pre ++ r) ++ rest.drop sz)) } := by
      unfold memcpy World.read
      rw [hb]
      simp only [Option.join, Option.some_bind, id_eq]
      rw [if_neg (by simp only [List.length_append]; omega)]
      congr 3
      rw [← hpre, List.take_left, List.take_of_length_le (by omega)]
      simp [List.drop_append]
    have key := ih (fun x hx => hrec x (by simp [hx])) (k + 1) (pre ++ r) (rest.drop sz)
      { w with heap := w.heap.set b (some ((pre ++ r) ++ rest.drop sz)) }
      (by
        have hlt : b < w.heap.length := by
          by_contra hge
          rw [List.getElem?_eq_none (by omega)] at hb
          cases hb
        simp [List.getElem?_set, hlt])
      (by simp [hpre, hr]; ring)
      (by simp only [List.length_drop]; omega)
      (fun _ => hszlt)
      (fun _ => by nlinarith)
    rw [Nat.mod_eq_of_lt hszlt] at hoff key ⊢
    rw [copy_loop, hoff, hmem]
    show copy_loop b sz l ((k % U32 + 1) % U32) _ = _
    rw [hcnt, key]
    have harith : sz + l.length * sz = (l.length + 1) * sz := by ring
    simp only [List.set_set, List.flatten_cons, List.drop_drop, List.length_cons,
      List.append_assoc, harith]

theorem flatten_length_const (sz : Nat) (l : List (List Nat)) (hrec : ∀ r ∈ l, r.length = sz) :
    l.flatten.length = l.length * sz := by
  induction l with
  | nil => simp
  | cons r l ih =>
    have hr : r.length = sz := hrec r (by simp)
    have := ih (fun x hx => hrec x (by simp [hx]))
    simp only [List.flatten_cons, List.length_append, List.length_cons, hr, this]
    ring

theorem flatten_slot (sz : Nat) (l : List (List Nat)) (hrec : ∀ r ∈ l, r.length = sz)
    (k : Nat) (hk : k < l.length) : (l.flatten.drop (k * sz)).take sz = l[k] := by
  induction l generalizing k with
  | nil => simp at hk
  | cons r l ih =>
    have hr : r.length = sz := hrec r (by simp)
    cases k with
    | zero => simp [← hr]
    | succ k =>
      have hk1 : k < l.length := by simpa using hk
      have := ih (fun x hx => hrec x (by simp [hx])) k hk1
      have harith : (k + 1) * sz = r.length + k * sz := by rw [hr]; ring
      simp only [List.flatten_cons, List.getElem_cons_succ, harith, ← List.drop_drop,
        List.drop_left, this]

theorem serialize_run (sz : Nat) (w : World D I) (buffer : Option Nat)
    (scan_list : List (List Nat)) (junk : List Nat)
    (hrec : ∀ r ∈ scan_list, r.length = sz)
    (hM : 1 ≤ scan_list.length)
    (hmax : scan_list.length * sz ≤ INT32_MAX) :
    trwifi_serialize_scaninfo sz w buffer scan_list (some junk)
      = .ret { w with
                heap := w.heap ++ [some scan_list.flatten],
                trace := w.trace ++ [.kmm_malloc (scan_list.length * sz) (some w.heap.length)] }
          (some w.heap.length, ((scan_list.length * sz : Nat) : Int)) := by
  have hmax1 : scan_list.length * sz < 2147483648 := by unfold INT32_MAX at hmax; omega
  have hsz : sz < U32 := by unfold U32; nlinarith
  have hcnt : count_loop scan_list 0 = scan_list.length % U32 := by
    have := count_loop_eq scan_list 0
    simpa using this
  have htot : (scan_list.length % U32 * sz) % U32 = scan_list.length * sz := by
    rw [Nat.mod_mul_mod]
    exact Nat.mod_eq_of_lt (by unfold U32; omega)
  cases hl : scan_list with
  | nil => simp [hl] at hM
  | cons r l =>
    rw [← hl]
    have hstep : trwifi_serialize_scaninfo sz w buffer scan_list (some junk)
        = match copy_loop w.heap.length (sz % U32) scan_list 0
                  ({ w with heap := w.heap ++ [some (fresh_block (scan_list.length * sz) junk)] }.log
                    (.kmm_malloc (scan_list.length * sz) (some w.heap.length))) with
          | none => .fault ({ w with
              heap := w.heap ++ [some (fresh_block (scan_list.length * sz) junk)] }.log
                    (.kmm_malloc (scan_list.length * sz) (some w.heap.length)))
          | some w2 => .ret w2 (some w.heap.length, toInt32 (scan_list.length * sz)) := by
      rw [hl]
      simp only [trwifi_serialize_scaninfo, kmm_malloc]
      rw [← hl, hcnt, htot]
    rw [hstep]
    have key := copy_loop_eq w.heap.length sz scan_list hrec 0 [] (fresh_block (scan_list.length * sz) junk)
      ({ w with heap := w.heap ++ [some (fresh_block (scan_list.length * sz) junk)] }.log
        (.kmm_malloc (scan_list.length * sz) (some w.heap.length)))
      (by simp [World.log])
      (by simp)
      (by rw [length_fresh_block])
      (fun _ => hsz)
      (fun _ => by unfold U32; omega)
    rw [Nat.zero_mod] at key
    rw [key, toInt32_of_le hmax]
    simp [World.log, List.drop_eq_nil_of_le, length_fresh_block]

/-! ## Facts about the dispatcher -/

theorem handle_wifi_invoked (homelynk : Bool) (w : World D I) (d : netdev D I) (cmd : lwnl_req)
    (data : Option (List Nat)) (len : Nat) (s : Slot) (f : D → D × trwifi_result_e)
    (hslot : cmd_slot homelynk cmd.type = some s) (hf : slot_invoke d.wl s data = some f) :
    netdev_handle_wifi homelynk w (some d) cmd data len
      = reconcile (some d) cmd
          { w with
            drv := (f w.drv).1,
            trace := w.trace ++ before_slot cmd.type data ++ [.drv s d.ifname] }
          (f w.drv).2 := by
  obtain ⟨ty⟩ := cmd
  cases ty <;> simp only [cmd_slot, Option.some.injEq, reduceCtorEq, ite_eq_left_iff] at hslot
  case LWNL_REQ_WIFI_SETAUTOCONNECT =>
    subst hslot
    simp only [slot_invoke, Option.bind_eq_some, Option.map_eq_some'] at hf
    obtain ⟨g, hg, v, hv, rfl⟩ := hf
    simp [netdev_handle_wifi, TRWIFI_CALL, hg, hv, World.log, before_slot, Outcome.andThen]
  case LWNL_REQ_WIFI_SET_CHANNEL_PLAN =>
    subst hslot
    simp only [slot_invoke, Option.bind_eq_some, Option.map_eq_some'] at hf
    obtain ⟨g, hg, v, hv, rfl⟩ := hf
    simp [netdev_handle_wifi, TRWIFI_CALL, hg, hv, World.log, before_slot, Outcome.andThen]
  case LWNL_REQ_WIFI_SETBRIDGE =>
    cases homelynk <;> simp only [Bool.false_eq_true, ↓reduceIte, reduceCtorEq,
      Option.some.injEq] at hslot
    subst hslot
    simp only [slot_invoke, Option.bind_eq_some, Option.map_eq_some'] at hf
    obtain ⟨g, hg, v, hv, rfl⟩ := hf
    simp [netdev_handle_wifi, TRWIFI_CALL, hg, hv, World.log, before_slot, Outcome.andThen]
  all_goals
    subst hslot
    simp only [slot_invoke, Option.map_eq_some'] at hf
    obtain ⟨g, hg, rfl⟩ := hf
    simp [netdev_handle_wifi, TRWIFI_CALL, hg, World.log, before_slot, Outcome.andThen]

theorem handle_command_eq (w : World D I) (d : netdev D I) (cmd : lwnl_req) :
    _trwifi_handle_command w (some d) cmd
      = match reconcile_op cmd.type with
        | some op => ND_NETOPS w d op
        | none => (w, 0) := by
  obtain ⟨ty⟩ := cmd
  cases ty <;> rfl

theorem handle_wifi_empty (homelynk : Bool) (w : World D I) (d : netdev D I) (cmd : lwnl_req)
    (data : Option (List Nat)) (len : Nat) (s : Slot)
    (hslot : cmd_slot homelynk cmd.type = some s) (hempty : slot_populated d.wl s = false)
    (hdata : cmd.type = .LWNL_REQ_WIFI_SETBRIDGE → ∃ v, deref_u8 data = some v) :
    netdev_handle_wifi homelynk w (some d) cmd data len
      = .ret { w with trace := w.trace ++ before_slot cmd.type data } TRWIFI_FAIL := by
  obtain ⟨ty⟩ := cmd
  cases ty <;> simp only [cmd_slot, Option.some.injEq, reduceCtorEq, ite_eq_left_iff] at hslot
  case LWNL_REQ_WIFI_SETBRIDGE =>
    cases homelynk <;> simp only [Bool.false_eq_true, ↓reduceIte, reduceCtorEq,
      Option.some.injEq] at hslot
    subst hslot
    obtain ⟨v, hv⟩ := hdata rfl
    simp only [slot_populated] at hempty
    rw [← Bool.not_eq_true, Option.not_isSome_iff_eq_none] at hempty
    simp [netdev_handle_wifi, TRWIFI_CALL, hempty, hv, World.log, before_slot, Outcome.andThen,
      reconcile, TRWIFI_FAIL, TRWIFI_SUCCESS]
  all_goals
    subst hslot
    simp only [slot_populated] at hempty
    rw [← Bool.not_eq_true, Option.not_isSome_iff_eq_none] at hempty
    simp [netdev_handle_wifi, TRWIFI_CALL, hempty, World.log, before_slot, Outcome.andThen,
      reconcile, TRWIFI_FAIL, TRWIFI_SUCCESS]

/-! ## Facts about the event queue -/

theorem read_append_of_some (w : World D I) (a : Nat) (bytes : List Nat)
    (h : w.read a = some bytes) (ext : List (Option (List Nat))) :
    ({ w with heap := w.heap ++ ext } : World D I).read a = some bytes := by
  unfold World.read at h ⊢
  have hlt : a < w.heap.length := by
    by_contra hge
    rw [List.getElem?_eq_none (by omega)] at h
    cases h
  simp only [List.getElem?_append_left hlt]
  exact h

theorem read_lt_of_some (w : World D I) (a : Nat) (bytes : List Nat)
    (h : w.read a = some bytes) : a < w.heap.length := by
  unfold World.read at h
  by_contra hge
  rw [List.getElem?_eq_none (by omega)] at h
  cases h

theorem memcpy_fresh (w : World D I) (h : List (Option (List Nat))) (fresh bytes : List Nat)
    (n : Nat) (hw : w.heap = h ++ [some fresh]) (hlen : fresh.length = n)
    (hn : n ≤ bytes.length) :
    memcpy w h.length 0 bytes n = some { w with heap := h ++ [some (bytes.take n)] } := by
  unfold memcpy World.read
  rw [hw]
  simp only [List.getElem?_concat_length, Option.join, Option.some_bind, id_eq]
  rw [if_neg (by omega)]
  simp [List.drop_eq_nil_of_le (le_of_eq hlen), List.set_append_right]

theorem post_event_refused (w : World D I) (dev : Option (netdev D I)) (evt : lwnl_cb_wifi)
    (buffer : Option Nat) (buf_len : Nat) (o : PostEnv)
    (h : o.msg = false ∨ (buffer.isSome = true ∧ o.buf = none)) :
    ∃ t, trwifi_post_event w dev evt buffer buf_len o
        = .ret { w with trace := w.trace ++ t } (-1)
      ∧ delivered t = [] ∧ netop_calls t = [] ∧ drv_calls t = [] := by
  by_cases hmsg : o.msg = false
  · exact ⟨[.kmm_zalloc false], by simp [trwifi_post_event, hmsg, World.log], rfl, rfl, rfl⟩
  · rcases h with h | ⟨hb, hbuf⟩
    · exact absurd h hmsg
    · obtain ⟨src, rfl⟩ := Option.isSome_iff_exists.mp hb
      refine ⟨[.kmm_zalloc true, .kmm_malloc buf_len none], ?_, rfl, rfl, rfl⟩
      simp [trwifi_post_event, hmsg, hbuf, kmm_malloc, World.log, Outcome.andThen]

theorem post_event_null (w : World D I) (dev : Option (netdev D I)) (evt : lwnl_cb_wifi)
    (buf_len : Nat) (o : PostEnv) (hmsg : o.msg = true) (hs : o.sound)
    (hlock : 0 < w.g_queue.lock) :
    ∃ k, 0 < k ∧ trwifi_post_event w dev evt none buf_len o
      = .ret { w with
                g_queue := { lock := k, signal := w.g_queue.signal + 1,
                             queue := w.g_queue.queue
                               ++ [{ evt := evt, dev := dev, buf := none, buf_len := 0 }] },
                trace := w.trace ++ [.kmm_zalloc true] } 0 := by
  obtain ⟨hl, hu, hsig⟩ := hs
  rcases hl with hl | hl
  · refine ⟨w.g_queue.lock - 1 + 1, by omega, ?_⟩
    simp [trwifi_post_event, hmsg, hl, hu, hsig, World.log, Outcome.andThen, LOCK_EVTQUEUE,
      UNLOCK_EVTQUEUE, SIGNAL_EVTQUEUE, sq_addlast, Nat.ne_of_gt hlock]
  · refine ⟨w.g_queue.lock + 1, by omega, ?_⟩
    simp [trwifi_post_event, hmsg, hl, hu, hsig, World.log, Outcome.andThen, LOCK_EVTQUEUE,
      UNLOCK_EVTQUEUE, SIGNAL_EVTQUEUE, sq_addlast]

theorem post_event_copy (w : World D I) (dev : Option (netdev D I)) (evt : lwnl_cb_wifi)
    (src buf_len : Nat) (o : PostEnv) (junk bytes : List Nat)
    (hmsg : o.msg = true) (hbuf : o.buf = some junk) (hs : o.sound)
    (hlock : 0 < w.g_queue.lock)
    (hsrc : w.read src = some bytes) (hlen : buf_len ≤ bytes.length) :
    ∃ k, 0 < k ∧ trwifi_post_event w dev evt (some src) buf_len o
      = .ret { w with
                heap := w.heap ++ [some (bytes.take buf_len)],
                g_queue := { lock := k, signal := w.g_queue.signal + 1,
                             queue := w.g_queue.queue
                               ++ [{ evt := evt, dev := dev, buf := some w.heap.length,
                                     buf_len := buf_len % U32 }] },
                trace := w.trace
                  ++ [.kmm_zalloc true, .kmm_malloc buf_len (some w.heap.length)] } 0 := by
  obtain ⟨hl, hu, hsig⟩ := hs
  have hread : ({ w with heap := w.heap ++ [some (fresh_block buf_len junk)],
                         trace := w.trace
                           ++ [.kmm_zalloc true, .kmm_malloc buf_len (some w.heap.length)] }
        : World D I).read src
      = some bytes := by
    have := read_append_of_some w src bytes hsrc [some (fresh_block buf_len junk)]
    simpa [World.read] using this
  have hcpy := memcpy_fresh
    ({ w with heap := w.heap ++ [some (fresh_block buf_len junk)],
              trace := w.trace
                ++ [.kmm_zalloc true, .kmm_malloc buf_len (some w.heap.length)] } : World D I)
    w.heap (fresh_block buf_len junk) bytes buf_len rfl (length_fresh_block _ _) hlen
  rcases hl with hl | hl
  · refine ⟨w.g_queue.lock - 1 + 1, by omega, ?_⟩
    simp [trwifi_post_event, hmsg, hbuf, kmm_malloc, hl, hu, hsig, World.log, Outcome.andThen,
      LOCK_EVTQUEUE, UNLOCK_EVTQUEUE, SIGNAL_EVTQUEUE, sq_addlast, Nat.ne_of_gt hlock, hread,
      hcpy]
  · refine ⟨w.g_queue.lock + 1, by omega, ?_⟩
    simp [trwifi_post_event, hmsg, hbuf, kmm_malloc, hl, hu, hsig, World.log, Outcome.andThen,
      LOCK_EVTQUEUE, UNLOCK_EVTQUEUE, SIGNAL_EVTQUEUE, sq_addlast, hread, hcpy]

theorem delivered_append (t u : List Effect) : delivered (t ++ u) = delivered t ++ delivered u := by
  simp [delivered, List.filterMap_append]

theorem handle_event_frame (w : World D I) (dev : Option (netdev D I)) (evt : lwnl_cb_wifi)
    (b : Option Nat) (l : Nat) :
    ∃ i t, (_trwifi_handle_event w dev evt b l).1 = { w with ifstate := i, trace := w.trace ++ t }
      ∧ delivered t = [] := by
  unfold _trwifi_handle_event
  cases dev with
  | none => exact ⟨w.ifstate, [], by simp, rfl⟩
  | some d =>
    by_cases h1 : evt = .LWNL_EVT_STA_CONNECTED
    · exact ⟨(d.ops.run .softup w.ifstate).1, [.netop .softup d.ifname],
        by simp [h1, ND_NETOPS, World.log], rfl⟩
    · by_cases h2 : evt = .LWNL_EVT_STA_DISCONNECTED
      · exact ⟨(d.ops.run .softdown w.ifstate).1, [.netop .softdown d.ifname],
          by simp [h2, ND_NETOPS, World.log], rfl⟩
      · exact ⟨w.ifstate, [], by simp [h1, h2], rfl⟩

theorem handler_pass (w : World D I) (o : HandlerEnv) (r : trwifi_evt D I)
    (rest : List (trwifi_evt D I)) (hq : w.g_queue.queue = r :: rest) (hs : o.sound)
    (hsig : 0 < w.g_queue.signal) (hlock : 0 < w.g_queue.lock)
    (hev : ∀ w0 : World D I, 0 ≤ (_trwifi_handle_event w0 r.dev r.evt r.buf r.buf_len).2) :
    ∃ w1, _trwifi_event_handler w o = .ret w1 ()
      ∧ w1.heap = (match r.buf with
                   | some b => w.heap.set b none
                   | none => w.heap)
      ∧ w1.g_queue.queue = rest
      ∧ 0 < w1.g_queue.lock
      ∧ w.g_queue.signal ≤ w1.g_queue.signal + 1
      ∧ w1.drv = w.drv
      ∧ delivered w1.trace = delivered w.trace ++ [(r.evt, r.buf.bind w.read, r.buf_len)] := by
  obtain ⟨hw, hl, hu, hp⟩ := hs
  have hsig0 : w.g_queue.signal ≠ 0 := Nat.ne_of_gt hsig
  have hlock0 : w.g_queue.lock ≠ 0 := Nat.ne_of_gt hlock
  have hpost : ¬ o.postmsg < 0 := not_lt.mpr hp
  have hevn : ∀ w0 : World D I, ¬ (_trwifi_handle_event w0 r.dev r.evt r.buf r.buf_len).2 < 0 :=
    fun w0 => not_lt.mpr (hev w0)
  have key : ∀ W : World D I,
      ((match r.buf with
        | some b => kmm_free ((_trwifi_handle_event W r.dev r.evt r.buf r.buf_len).1.log
            (.lwnl_postmsg r.evt
              (r.buf.bind (_trwifi_handle_event W r.dev r.evt r.buf r.buf_len).1.read)
              r.buf_len)) b
        | none => (_trwifi_handle_event W r.dev r.evt r.buf r.buf_len).1.log
            (.lwnl_postmsg r.evt
              (r.buf.bind (_trwifi_handle_event W r.dev r.evt r.buf r.buf_len).1.read)
              r.buf_len)).log .kmm_free_evt)
        = { W with
            heap := (match r.buf with
                     | some b => W.heap.set b none
                     | none => W.heap),
            ifstate := (_trwifi_handle_event W r.dev r.evt r.buf r.buf_len).1.ifstate,
            trace := (_trwifi_handle_event W r.dev r.evt r.buf r.buf_len).1.trace
              ++ [.lwnl_postmsg r.evt (r.buf.bind W.read) r.buf_len]
              ++ (match r.buf with
                  | some b => [.kmm_free b]
                  | none => [])
              ++ [.kmm_free_evt] } := by
    intro W
    obtain ⟨i, t, hframe, -⟩ := handle_event_frame W r.dev r.evt r.buf r.buf_len
    rw [hframe]
    cases r.buf <;> simp [World.log, kmm_free, World.read]
  have kdel : ∀ W : World D I,
      delivered ((_trwifi_handle_event W r.dev r.evt r.buf r.buf_len).1.trace
              ++ [.lwnl_postmsg r.evt (r.buf.bind W.read) r.buf_len]
              ++ (match r.buf with
                  | some b => [.kmm_free b]
                  | none => [])
              ++ [.kmm_free_evt])
        = delivered W.trace ++ [(r.evt, r.buf.bind W.read, r.buf_len)] := by
    intro W
    obtain ⟨i, t, hframe, hdel⟩ := handle_event_frame W r.dev r.evt r.buf r.buf_len
    rw [hframe]
    cases r.buf <;> simp [delivered_append, hdel] <;> simp [delivered]
  rcases hw with hw | hw <;> rcases hl with hl | hl
  all_goals
    simp only [_trwifi_event_handler, WAIT_EVTQUEUE, LOCK_EVTQUEUE, UNLOCK_EVTQUEUE, sq_remfirst,
      hq, Outcome.andThen, hw, hl, hu, hsig0, hlock0, if_false, if_true, hpost, hevn]
    refine ⟨_, rfl, ?_⟩
    rw [key]
    refine ⟨rfl, rfl, ?_, ?_, rfl, ?_⟩
    · dsimp only
      omega
    · dsimp only
      omega
    · exact kdel _

theorem handler_loop_delivers (envs : List HandlerEnv) (w : World D I) (hinv : QueueInv w)
    (hlen : envs.length ≤ w.g_queue.queue.length) (hs : ∀ o ∈ envs, o.sound)
    (hev : ∀ r ∈ w.g_queue.queue, ∀ w0 : World D I,
      0 ≤ (_trwifi_handle_event w0 r.dev r.evt r.buf r.buf_len).2) :
    ∃ w1, handler_loop w envs = .ret w1 ()
      ∧ delivered w1.trace = delivered w.trace ++ (pending w).take envs.length
      ∧ w1.g_queue.queue = w.g_queue.queue.drop envs.length := by
  induction envs generalizing w with
  | nil => exact ⟨w, rfl, by simp, by simp⟩
  | cons o os ih =>
    obtain ⟨hlock, hsig, hnd, hbd⟩ := hinv
    cases hq : w.g_queue.queue with
    | nil => simp [hq] at hlen
    | cons r rest =>
      have hsig1 : 0 < w.g_queue.signal := by rw [hq] at hsig; simp at hsig; omega
      obtain ⟨w1, hrun, hheap, hqueue, hlock1, hsignal, -, hdel⟩ :=
        handler_pass w o r rest hq (hs o (by simp)) hsig1 hlock
          (hev r (by rw [hq]; simp))
      have hown : owned w = (match r.buf with
                             | some b => [b]
                             | none => []) ++ owned w1 := by
        unfold owned
        rw [hq, hqueue, List.filterMap_cons]
        cases hb : r.buf <;> simp
      have hlen1 : w1.heap.length = w.heap.length := by
        rw [hheap]; cases r.buf <;> simp
      have hpend : pending w = (r.evt, r.buf.bind w.read, r.buf_len) :: pending w1 := by
        unfold pending
        rw [hq, hqueue, List.map_cons]
        congr 1
        apply List.map_congr_left
        intro r1 hr1
        cases hb1 : r1.buf with
        | none => rfl
        | some a =>
          have ha : a ∈ owned w1 := by
            unfold owned
            rw [hqueue]
            exact List.mem_filterMap.mpr ⟨r1, hr1, hb1⟩
          cases hb : r.buf with
          | none =>
            rw [hb] at hheap
            simp [World.read, hheap]
          | some b =>
            rw [hb] at hheap hown
            have hne : b ≠ a := by
              rw [hown] at hnd
              intro h
              subst h
              simp at hnd
              exact hnd.1 ha
            simp only [Option.some_bind, World.read, hheap]
            simp [List.getElem?_set, hne]
      have hinv1 : QueueInv w1 := by
        refine ⟨hlock1, ?_, ?_, ?_⟩
        · rw [hqueue]; rw [hq] at hsig; simp at hsig; omega
        · rw [hown] at hnd
          exact (List.nodup_append.mp hnd).2.1
        · intro a ha
          rw [hlen1]
          exact hbd a (by rw [hown]; exact List.mem_append_right _ ha)
      obtain ⟨w2, hrun2, hdel2, hq2⟩ := ih w1 hinv1
        (by rw [hqueue]; rw [hq] at hlen; simpa using hlen)
        (fun o1 ho1 => hs o1 (by simp [ho1]))
        (fun r1 hr1 => hev r1 (by rw [hq]; rw [hqueue] at hr1; simp [hr1]))
      refine ⟨w2, ?_, ?_, ?_⟩
      · simp [handler_loop, hrun, Outcome.andThen, hrun2]
      · rw [hdel2, hdel, hpend]
        simp
      · rw [hq2, hqueue]
        simp

theorem post_step (w : World D I) (c : PostCall D I) (hinv : QueueInv w)
    (hs : c.allocated = true → c.env.sound) (hL : c.buf_len < U32)
    (hsrc : c.allocated = true → ∀ a, c.buffer = some a →
      ∃ bytes, w.read a = some bytes ∧ c.buf_len ≤ bytes.length) :
    ∃ w1 ext, trwifi_post_event w c.dev c.evt c.buffer c.buf_len c.env
          = .ret w1 (if c.allocated then 0 else -1)
      ∧ QueueInv w1
      ∧ w1.heap = w.heap ++ ext
      ∧ pending w1 = pending w ++ (if c.allocated then [c.carried w] else [])
      ∧ w1.g_queue.queue.map (fun r => (r.dev, r.evt))
          = w.g_queue.queue.map (fun r => (r.dev, r.evt))
            ++ (if c.allocated then [(c.dev, c.evt)] else [])
      ∧ delivered w1.trace = delivered w.trace := by
  obtain ⟨hlock, hsig, hnd, hbd⟩ := hinv
  by_cases halloc : c.allocated = true
  · simp only [halloc, if_true]
    have hmsg : c.env.msg = true := by
      simp only [PostCall.allocated, Bool.and_eq_true] at halloc
      exact halloc.1
    cases hb : c.buffer with
    | none =>
      obtain ⟨k, hk, hrun⟩ := post_event_null w c.dev c.evt c.buf_len c.env hmsg (hs halloc) hlock
      refine ⟨_, [], hrun, ⟨hk, ?_, ?_, ?_⟩, by simp, ?_, by simp, ?_⟩
      · simp; omega
      · simpa [owned, List.filterMap_append] using hnd
      · intro a ha
        simp only [owned, List.filterMap_append] at ha
        exact hbd a (by simpa [owned] using ha)
      · simp [pending, PostCall.carried, hb, World.read]
      · simp [delivered_append, delivered]
    | some src =>
      have hjunk : ∃ junk, c.env.buf = some junk := by
        simp only [PostCall.allocated, Bool.and_eq_true, hb, Option.isNone_some,
          Bool.false_or] at halloc
        exact Option.isSome_iff_exists.mp halloc.2
      obtain ⟨junk, hjunk⟩ := hjunk
      obtain ⟨bytes, hread, hlen⟩ := hsrc halloc src hb
      obtain ⟨k, hk, hrun⟩ := post_event_copy w c.dev c.evt src c.buf_len c.env junk bytes hmsg
        hjunk (hs halloc) hlock hread hlen
      have hsrclt := read_lt_of_some w src bytes hread
      refine ⟨_, [some (bytes.take c.buf_len)], hrun, ⟨hk, ?_, ?_, ?_⟩, rfl, ?_, by simp, ?_⟩
      · simp; omega
      · simp only [owned, List.filterMap_append, List.filterMap_cons, List.filterMap_nil]
        rw [List.nodup_append]
        refine ⟨hnd, by simp, ?_⟩
        intro a ha1 ha2
        have := hbd a ha1
        simp at ha2
        omega
      · intro a ha
        simp only [owned, List.filterMap_append, List.filterMap_cons, List.filterMap_nil,
          List.mem_append, List.mem_singleton] at ha
        simp only [List.length_append, List.length_singleton]
        rcases ha with ha | ha
        · have := hbd a ha; omega
        · omega
      · have hold : ∀ r ∈ w.g_queue.queue, ∀ a, r.buf = some a → a < w.heap.length :=
          fun r hr a ha => hbd a (List.mem_filterMap.mpr ⟨r, hr, ha⟩)
        simp only [pending, List.map_append, List.map_cons, List.map_nil, PostCall.carried, hb,
          Option.some_bind, hread, Option.map_some', Nat.mod_eq_of_lt hL]
        congr 1
        · apply List.map_congr_left
          intro r hr
          cases hrb : r.buf with
          | none => rfl
          | some a =>
            have := hold r hr a hrb
            simp [World.read, List.getElem?_append_left this]
        · simp [World.read]
      · simp [delivered_append, delivered]
  · have hfalse : c.allocated = false := by simpa using halloc
    simp only [hfalse, Bool.false_eq_true, if_false]
    have hcase : c.env.msg = false ∨ (c.buffer.isSome = true ∧ c.env.buf = none) := by
      simp only [PostCall.allocated, Bool.and_eq_false_iff, Bool.or_eq_false_iff] at hfalse
      rcases hfalse with h | ⟨h1, h2⟩
      · exact Or.inl h
      · refine Or.inr ⟨?_, ?_⟩
        · cases hbf : c.buffer <;> simp [hbf] at h1 ⊢
        · cases hbf : c.env.buf <;> simp [hbf] at h2 ⊢
    obtain ⟨t, hrun, hdel, -, -⟩ := post_event_refused w c.dev c.evt c.buffer c.buf_len c.env hcase
    refine ⟨_, [], hrun, ⟨hlock, hsig, hnd, hbd⟩, by simp, ?_, by simp, ?_⟩
    · simp [pending, World.read]
    · simp [delivered_append, hdel]

theorem carried_of_heap_append (w w1 : World D I) (ext : List (Option (List Nat)))
    (hheap : w1.heap = w.heap ++ ext) (c : PostCall D I)
    (hsrc : ∀ a, c.buffer = some a → ∃ bytes, w.read a = some bytes ∧ c.buf_len ≤ bytes.length) :
    c.carried w1 = c.carried w := by
  unfold PostCall.carried
  cases hb : c.buffer with
  | none => rfl
  | some a =>
    obtain ⟨bytes, hread, -⟩ := hsrc a hb
    have h1 := read_append_of_some w a bytes hread ext
    have h2 : w1.read a = some bytes := by
      simpa [World.read, hheap] using h1
    simp [h2, hread]

theorem post_all_enqueues (calls : List (PostCall D I)) (w : World D I) (hinv : QueueInv w)
    (hs : ∀ c ∈ calls, c.allocated = true → c.env.sound)
    (hL : ∀ c ∈ calls, c.buf_len < U32)
    (hsrc : ∀ c ∈ calls, c.allocated = true → ∀ a, c.buffer = some a →
      ∃ bytes, w.read a = some bytes ∧ c.buf_len ≤ bytes.length) :
    ∃ w1, post_all w calls = .ret w1 (calls.map fun c => if c.allocated then 0 else -1)
      ∧ QueueInv w1
      ∧ pending w1 = pending w ++ (calls.filter (·.allocated)).map (PostCall.carried w)
      ∧ w1.g_queue.queue.map (fun r => (r.dev, r.evt))
          = w.g_queue.queue.map (fun r => (r.dev, r.evt))
            ++ (calls.filter (·.allocated)).map (fun c => (c.dev, c.evt))
      ∧ delivered w1.trace = delivered w.trace := by
  induction calls generalizing w with
  | nil => exact ⟨w, rfl, hinv, by simp, by simp, rfl⟩
  | cons c cs ih =>
    obtain ⟨w1, ext, hrun, hinv1, hheap, hpend, hmap, hdel⟩ :=
      post_step w c hinv (hs c (by simp)) (hL c (by simp)) (hsrc c (by simp))
    have hsrc1 : ∀ c1 ∈ cs, c1.allocated = true → ∀ a, c1.buffer = some a →
        ∃ bytes, w1.read a = some bytes ∧ c1.buf_len ≤ bytes.length := by
      intro c1 hc1 ha1 a hb
      obtain ⟨bytes, hread, hlen⟩ := hsrc c1 (by simp [hc1]) ha1 a hb
      refine ⟨bytes, ?_, hlen⟩
      have := read_append_of_some w a bytes hread ext
      simpa [World.read, hheap] using this
    obtain ⟨w2, hrun2, hinv2, hpend2, hmap2, hdel2⟩ :=
      ih w1 hinv1 (fun c1 hc1 => hs c1 (by simp [hc1])) (fun c1 hc1 => hL c1 (by simp [hc1])) hsrc1
    have hcar : (cs.filter (·.allocated)).map (PostCall.carried w1)
        = (cs.filter (·.allocated)).map (PostCall.carried w) := by
      apply List.map_congr_left
      intro c1 hc1
      obtain ⟨hmem, hal⟩ := List.mem_filter.mp hc1
      exact carried_of_heap_append w w1 ext hheap c1 (hsrc c1 (by simp [hmem]) hal)
    refine ⟨w2, ?_, hinv2, ?_, ?_, ?_⟩
    · simp [post_all, hrun, Outcome.andThen, hrun2]
    · rw [hpend2, hpend, hcar]
      by_cases hal : c.allocated = true <;> simp [hal, List.filter_cons]
    · rw [hmap2, hmap]
      by_cases hal : c.allocated = true <;> simp [hal, List.filter_cons]
    · rw [hdel2, hdel]

theorem handle_event_args (w : World D I) (dev : Option (netdev D I)) (evt : lwnl_cb_wifi)
    (b1 b2 : Option Nat) (l1 l2 : Nat) :
    _trwifi_handle_event w dev evt b1 l1 = _trwifi_handle_event w dev evt b2 l2 := rfl

theorem queueInv_of_empty (w : World D I) (hempty : w.g_queue.queue = [])
    (hlock : 0 < w.g_queue.lock) : QueueInv w := by
  refine ⟨hlock, by simp [hempty], by simp [owned, hempty], ?_⟩
  intro a ha
  simp [owned, hempty] at ha

/-! ## Scan-list serializer: claims C1 to C3 -/

/-- C1: for a scan list of M >= 1 nodes whose records are `sz = sizeof(trwifi_ap_scan_info_s)`
bytes each, with `M * sz <= INT32_MAX` and a successful allocation,
`trwifi_serialize_scaninfo` returns exactly `M * sz`, sets `*buffer` to a fresh block
whose bytes are the records concatenated in list order and changes nothing else but the
allocator's log; the block is `M * sz` bytes long (no header, no padding) and node `k`
occupies bytes `[k * sz, (k + 1) * sz)`. -/
theorem serialize_scaninfo_concat (sz : Nat) (w : World D I) (buffer : Option Nat)
    (scan_list : List (List Nat)) (junk : List Nat)
    (hrec : ∀ r ∈ scan_list, r.length = sz)
    (hM : 1 ≤ scan_list.length)
    (hmax : scan_list.length * sz ≤ INT32_MAX) :
    trwifi_serialize_scaninfo sz w buffer scan_list (some junk)
        = .ret { w with
                  heap := w.heap ++ [some scan_list.flatten],
                  trace := w.trace ++ [.kmm_malloc (scan_list.length * sz) (some w.heap.length)] }
            (some w.heap.length, ((scan_list.length * sz : Nat) : Int))
      ∧ scan_list.flatten.length = scan_list.length * sz
      ∧ ∀ (k : Nat) (hk : k < scan_list.length),
          (scan_list.flatten.drop (k * sz)).take sz = scan_list[k] :=
  ⟨serialize_run sz w buffer scan_list junk hrec hM hmax,
    flatten_length_const sz scan_list hrec, flatten_slot sz scan_list hrec⟩

/-- Worked instance of C1: three nodes of 40-byte records give 120 bytes, the three
records in order, in block 2 of a store that held two blocks. -/
theorem serialize_scaninfo_concat_witness :
    (trwifi_serialize_scaninfo 40 demo_world none
        [List.replicate 40 1, List.replicate 40 2, List.replicate 40 3] (some [])).result
      = some (some 2, 120)
    ∧ (trwifi_serialize_scaninfo 40 demo_world none
        [List.replicate 40 1, List.replicate 40 2, List.replicate 40 3] (some [])).state.read 2
      = some (List.replicate 40 1 ++ List.replicate 40 2 ++ List.replicate 40 3) := by
  have h := (serialize_scaninfo_concat 40 demo_world none
    [List.replicate 40 1, List.replicate 40 2, List.replicate 40 3] []
    (by decide) (by decide) (by decide)).1
  rw [h]
  exact ⟨rfl, by decide⟩

/-- C2: with a null scan list `trwifi_serialize_scaninfo` returns 0 and leaves the whole
state as it was: no allocation is made (the store and the log of allocator calls are
unchanged, whatever the allocator would have answered) and `*buffer` keeps its value.
The result 0 is not the error result -1 of a failed allocation. -/
theorem serialize_scaninfo_null (sz : Nat) (w : World D I) (buffer : Option Nat)
    (alloc : Option (List Nat)) :
    trwifi_serialize_scaninfo sz w buffer [] alloc = .ret w (buffer, 0)
      ∧ (trwifi_serialize_scaninfo sz w buffer [] alloc).result ≠ some (buffer, -1) := by
  constructor
  · rfl
  · simp [trwifi_serialize_scaninfo, Outcome.result]

/-- C3: for every non-empty scan list a failed allocation makes
`trwifi_serialize_scaninfo` return -1 (with `*buffer` set to `NULL`); the empty list
returns 0, and every successful call on a non-empty list of `sz`-byte records with
`M * sz <= INT32_MAX` returns a strictly positive count, so -1 is returned by a failed
allocation only. The record size `sz = sizeof(trwifi_ap_scan_info_s)` is positive. -/
theorem serialize_scaninfo_alloc_failure (sz : Nat) (hsz : 0 < sz) (w : World D I)
    (buffer : Option Nat) (scan_list : List (List Nat)) (hne : scan_list ≠ []) :
    (trwifi_serialize_scaninfo sz w buffer scan_list none).result = some (none, -1)
      ∧ (∀ (w0 : World D I) (b0 : Option Nat) (a0 : Option (List Nat)),
          (trwifi_serialize_scaninfo sz w0 b0 [] a0).result = some (b0, 0))
      ∧ (-1 : Int) ≠ 0
      ∧ ∀ (w0 : World D I) (b0 : Option Nat) (l : List (List Nat)) (junk : List Nat),
          l ≠ [] → (∀ r ∈ l, r.length = sz) → l.length * sz ≤ INT32_MAX →
          ∃ b n, (trwifi_serialize_scaninfo sz w0 b0 l (some junk)).result = some (some b, n)
            ∧ 0 < n ∧ n ≠ -1 := by
  refine ⟨?_, fun _ _ _ => rfl, by decide, ?_⟩
  · cases scan_list with
    | nil => exact absurd rfl hne
    | cons r l => simp [trwifi_serialize_scaninfo, kmm_malloc, Outcome.result]
  · intro w0 b0 l junk hl hrec hmax
    have hM : 1 ≤ l.length := List.length_pos.mpr hl
    refine ⟨w0.heap.length, ((l.length * sz : Nat) : Int), ?_, ?_, ?_⟩
    · rw [serialize_run sz w0 b0 l junk hrec hM hmax]
      rfl
    · have : 0 < l.length * sz := Nat.mul_pos hM hsz
      exact_mod_cast this
    · have : (0 : Int) ≤ ((l.length * sz : Nat) : Int) := Int.natCast_nonneg _
      omega

/-- Worked instance of C3: on a one-node list of 2-byte records the failed allocation
returns -1 and the successful one returns 2. -/
theorem serialize_scaninfo_alloc_failure_witness :
    (trwifi_serialize_scaninfo 2 demo_world (some 0) [[7, 8]] none).result = some (none, -1)
      ∧ (trwifi_serialize_scaninfo 2 demo_world (some 0) [[7, 8]] (some [])).result
          = some (some 2, 2) :=
  ⟨(serialize_scaninfo_alloc_failure 2 (by decide) demo_world (some 0) [[7, 8]] (by decide)).1,
    rfl⟩

/-! ## Event queue: claims C4 to C7 -/

/-- C4, amended: starting from an empty queue with a free lock, for every sequence of
`trwifi_post_event` calls followed by as many handler passes as there were successful
posts, where the semaphore calls do not fail, `lwnl_postmsg` does not fail and
`_trwifi_handle_event` does not fail on a posted device and kind (the device is not
`NULL` and the interface operation the kind triggers returns 0 or more): every post
returns (0 exactly when its allocations succeed, -1 otherwise), every pass completes, and
the `lwnl_postmsg` calls made are exactly the successful posts in post order, one call
each. A call carries the kind, a copy of the payload and its length for a post with a
payload, and the kind, a null payload and length 0 for a post with a null buffer,
whatever length was passed. The queue is empty again afterwards. -/
theorem fifo_exactly_once (w : World D I) (calls : List (PostCall D I))
    (envs : List HandlerEnv)
    (hempty : w.g_queue.queue = []) (hlock : 0 < w.g_queue.lock)
    (hs : ∀ c ∈ calls, c.allocated = true → c.env.sound)
    (hL : ∀ c ∈ calls, c.buf_len < U32)
    (hsrc : ∀ c ∈ calls, c.allocated = true → ∀ a, c.buffer = some a →
      ∃ bytes, w.read a = some bytes ∧ c.buf_len ≤ bytes.length)
    (hev : ∀ c ∈ calls, c.allocated = true → ∀ w0 : World D I,
      0 ≤ (_trwifi_handle_event w0 c.dev c.evt c.buffer c.buf_len).2)
    (hn : envs.length = (calls.filter (·.allocated)).length)
    (he : ∀ o ∈ envs, o.sound) :
    ∃ w1 w2, post_all w calls = .ret w1 (calls.map fun c => if c.allocated then 0 else -1)
      ∧ handler_loop w1 envs = .ret w2 ()
      ∧ delivered w2.trace
          = delivered w.trace ++ (calls.filter (·.allocated)).map (PostCall.carried w)
      ∧ w2.g_queue.queue = [] := by
  obtain ⟨w1, hrun, hinv1, hpend, hmap, hdel⟩ :=
    post_all_enqueues calls w (queueInv_of_empty w hempty hlock) hs hL hsrc
  have hqlen : w1.g_queue.queue.length = envs.length := by
    have := congrArg List.length hmap
    simp only [List.length_map, List.length_append, hempty, List.length_nil, zero_add] at this
    omega
  have hev1 : ∀ r ∈ w1.g_queue.queue, ∀ w0 : World D I,
      0 ≤ (_trwifi_handle_event w0 r.dev r.evt r.buf r.buf_len).2 := by
    intro r hr w0
    have hmem : (r.dev, r.evt) ∈ w1.g_queue.queue.map (fun r => (r.dev, r.evt)) :=
      List.mem_map.mpr ⟨r, hr, rfl⟩
    rw [hmap, hempty] at hmem
    simp only [List.map_nil, List.nil_append, List.mem_map, List.mem_filter] at hmem
    obtain ⟨c, ⟨hc, hal⟩, heq⟩ := hmem
    have h1 : c.dev = r.dev := congrArg Prod.fst heq
    have h2 : c.evt = r.evt := congrArg Prod.snd heq
    have := hev c hc hal w0
    rw [h1, h2] at this
    rw [handle_event_args w0 r.dev r.evt r.buf c.buffer r.buf_len c.buf_len]
    exact this
  obtain ⟨w2, hrun2, hdel2, hq2⟩ :=
    handler_loop_delivers envs w1 hinv1 (le_of_eq hqlen.symm) he hev1
  refine ⟨w1, w2, hrun, hrun2, ?_, ?_⟩
  · have hplen : (pending w1).length = envs.length := by
      simp [pending, hqlen]
    rw [hdel2, hdel, ← hplen, List.take_length, hpend]
    simp [pending, hempty]
  · rw [hq2, ← hqlen]
    simp

/-- Worked instance of the amended C4: a post with a 4-byte payload, a post that gets no
memory and a post with a null buffer and length 9, then two handler passes: two
deliveries, in post order, the second with length 0. -/
theorem fifo_exactly_once_witness :
    ∃ w1 w2,
      post_all demo_world
          [⟨some wlan_demo, .LWNL_EVT_STA_CONNECTED, some 0, 4, post_ok⟩,
           ⟨some wlan_demo, .other 1, some 1, 2, post_nomem⟩,
           ⟨some wlan_demo, .LWNL_EVT_STA_DISCONNECTED, none, 9, post_ok⟩]
        = .ret w1 [0, -1, 0]
      ∧ handler_loop w1 [pass_ok, pass_ok] = .ret w2 ()
      ∧ delivered w2.trace
          = [(.LWNL_EVT_STA_CONNECTED, some [10, 11, 12, 13], 4),
             (.LWNL_EVT_STA_DISCONNECTED, none, 0)]
      ∧ w2.g_queue.queue = [] :=
  fifo_exactly_once demo_world
    [⟨some wlan_demo, .LWNL_EVT_STA_CONNECTED, some 0, 4, post_ok⟩,
     ⟨some wlan_demo, .other 1, some 1, 2, post_nomem⟩,
     ⟨some wlan_demo, .LWNL_EVT_STA_DISCONNECTED, none, 9, post_ok⟩]
    [pass_ok, pass_ok] rfl (by decide)
    (by
      intro c hc _
      simp only [List.mem_cons, List.mem_singleton, List.not_mem_nil, or_false] at hc
      rcases hc with rfl | rfl | rfl <;> simp [PostEnv.sound, post_ok, post_nomem])
    (by
      intro c hc
      simp only [List.mem_cons, List.mem_singleton, List.not_mem_nil, or_false] at hc
      rcases hc with rfl | rfl | rfl <;> simp [U32])
    (by
      intro c hc _ a ha
      simp only [List.mem_cons, List.mem_singleton, List.not_mem_nil, or_false] at hc
      rcases hc with rfl | rfl | rfl
      · cases ha; exact ⟨[10, 11, 12, 13], rfl, by decide⟩
      · cases ha; exact ⟨[20, 21], rfl, by decide⟩
      · cases ha)
    (by
      intro c hc _ w0
      simp only [List.mem_cons, List.mem_singleton, List.not_mem_nil, or_false] at hc
      rcases hc with rfl | rfl | rfl <;>
        simp [_trwifi_handle_event, ND_NETOPS, netdev_ops.run, wlan_demo, updown_ops])
    rfl
    (by
      intro o ho
      simp only [List.mem_cons, List.mem_singleton, List.not_mem_nil, or_false] at ho
      rcases ho with rfl | rfl <;> simp [HandlerEnv.sound, pass_ok])

/-- C4 as stated fails on the length of a post without payload: one event posted with a
null buffer and length 7 is forwarded once, in order, but `lwnl_postmsg` receives
length 0, so the call differs from the posted (kind, payload, length). -/
theorem fifo_posted_length_counterexample :
    ∃ w1 w2,
      post_all demo_world [⟨some wlan_demo, .other 5, none, 7, post_ok⟩] = .ret w1 [0]
      ∧ handler_loop w1 [pass_ok] = .ret w2 ()
      ∧ delivered w2.trace = [(.other 5, none, 0)]
      ∧ [(⟨some wlan_demo, .other 5, none, 7, post_ok⟩ : PostCall Nat Bool)].map
          (PostCall.posted demo_world) = [(.other 5, none, 7)]
      ∧ delivered w2.trace
          ≠ [(⟨some wlan_demo, .other 5, none, 7, post_ok⟩ : PostCall Nat Bool)].map
              (PostCall.posted demo_world) :=
  ⟨_, _, rfl, rfl, rfl, rfl, by decide⟩

/-- C5: when the record and the payload copy are both allocated (and the semaphore calls
do not fail, the lock being free), `trwifi_post_event` returns 0, keeps every record
already queued in place and in order, appends exactly one record at the tail, carrying
`evt`, `dev`, a fresh block holding the first `buf_len` bytes of the producer's buffer
and `buf_len`, leaves every block that existed before as it was, and raises the wake
signal by exactly one. -/
theorem post_event_appends (w : World D I) (dev : Option (netdev D I)) (evt : lwnl_cb_wifi)
    (src buf_len : Nat) (o : PostEnv) (junk bytes : List Nat)
    (hmsg : o.msg = true) (hbuf : o.buf = some junk) (hs : o.sound)
    (hlock : 0 < w.g_queue.lock) (hL : buf_len < U32)
    (hsrc : w.read src = some bytes) (hlen : buf_len ≤ bytes.length) :
    ∃ w1, trwifi_post_event w dev evt (some src) buf_len o = .ret w1 0
      ∧ w1.g_queue.queue = w.g_queue.queue
          ++ [{ evt := evt, dev := dev, buf := some w.heap.length, buf_len := buf_len }]
      ∧ w1.read w.heap.length = some (bytes.take buf_len)
      ∧ (∀ a, a < w.heap.length → w1.read a = w.read a)
      ∧ w1.g_queue.signal = w.g_queue.signal + 1 := by
  obtain ⟨k, -, hrun⟩ :=
    post_event_copy w dev evt src buf_len o junk bytes hmsg hbuf hs hlock hsrc hlen
  refine ⟨_, hrun, ?_, ?_, ?_, rfl⟩
  · simp [Nat.mod_eq_of_lt hL]
  · simp [World.read]
  · intro a ha
    simp [World.read, List.getElem?_append_left ha]

/-- Worked instance of C5: posting the 4-byte block 0 into the empty queue of
`demo_world` returns 0, queues one record whose block 2 holds the four bytes, and the
wake signal goes from 0 to 1. -/
theorem post_event_appends_witness :
    ∃ w1, trwifi_post_event demo_world (some wlan_demo) .LWNL_EVT_STA_CONNECTED (some 0) 4
          post_ok = .ret w1 0
      ∧ w1.g_queue.queue = demo_world.g_queue.queue
          ++ [{ evt := .LWNL_EVT_STA_CONNECTED, dev := some wlan_demo, buf := some 2,
                buf_len := 4 }]
      ∧ w1.read 2 = some [10, 11, 12, 13]
      ∧ (∀ a, a < 2 → w1.read a = demo_world.read a)
      ∧ w1.g_queue.signal = 1 :=
  post_event_appends demo_world (some wlan_demo) .LWNL_EVT_STA_CONNECTED 0 4 post_ok []
    [10, 11, 12, 13] rfl rfl (by simp [PostEnv.sound, post_ok]) (by decide) (by decide) rfl
    (by decide)

/-- C6: if allocating the event record fails, or a payload is supplied and allocating its
copy fails, `trwifi_post_event` returns -1 and changes nothing but the log of allocator
calls: the queue (records, lock and wake signal), the store, the driver and interface
state are exactly what they were, and nothing is forwarded. -/
theorem post_event_alloc_failure (w : World D I) (dev : Option (netdev D I))
    (evt : lwnl_cb_wifi) (buffer : Option Nat) (buf_len : Nat) (o : PostEnv)
    (h : o.msg = false ∨ (buffer.isSome = true ∧ o.buf = none)) :
    ∃ t, trwifi_post_event w dev evt buffer buf_len o
          = .ret { w with trace := w.trace ++ t } (-1)
      ∧ (trwifi_post_event w dev evt buffer buf_len o).state.g_queue = w.g_queue
      ∧ delivered t = [] ∧ netop_calls t = [] ∧ drv_calls t = [] := by
  obtain ⟨t, hrun, h1, h2, h3⟩ := post_event_refused w dev evt buffer buf_len o h
  exact ⟨t, hrun, by rw [hrun]; rfl, h1, h2, h3⟩

/-- Worked instance of C6: a post whose payload allocation fails returns -1 and leaves
the queue of `demo_world` as it was. -/
theorem post_event_alloc_failure_witness :
    (trwifi_post_event demo_world (some wlan_demo) (.other 1) (some 1) 2 post_nomem).result
        = some (-1)
      ∧ (trwifi_post_event demo_world (some wlan_demo) (.other 1) (some 1) 2
          post_nomem).state.g_queue.queue.length = 0
      ∧ (trwifi_post_event demo_world (some wlan_demo) (.other 1) (some 1) 2
          post_nomem).state.g_queue.signal = 0 := by
  obtain ⟨t, hrun, hq, -⟩ := post_event_alloc_failure demo_world (some wlan_demo) (.other 1)
    (some 1) 2 post_nomem (Or.inr ⟨rfl, rfl⟩)
  rw [hq]
  exact ⟨by rw [hrun]; rfl, rfl, rfl⟩

/-- C7: a successful post with a non-null buffer of length `buf_len` queues a record that
owns a block `q` different from the producer's block, holding the `buf_len` bytes the
producer's buffer had at the time of the call, with `buf_len` in its length field.
Whatever the producer writes into its buffer afterwards (`poke`), block `q` keeps those
bytes, and when the handler has worked through the queue the call of `lwnl_postmsg` for
this event carries exactly them. -/
theorem post_event_copy_semantics (w : World D I) (dev : Option (netdev D I))
    (evt : lwnl_cb_wifi) (src buf_len : Nat) (o : PostEnv) (junk bytes changed : List Nat)
    (envs : List HandlerEnv)
    (hmsg : o.msg = true) (hbuf : o.buf = some junk) (hs : o.sound)
    (hinv : QueueInv w) (hL : buf_len < U32)
    (hsrc : w.read src = some bytes) (hlen : buf_len ≤ bytes.length)
    (hq : ∀ r ∈ w.g_queue.queue, ∀ w0 : World D I,
      0 ≤ (_trwifi_handle_event w0 r.dev r.evt r.buf r.buf_len).2)
    (hnew : ∀ w0 : World D I, 0 ≤ (_trwifi_handle_event w0 dev evt (some src) buf_len).2)
    (hn : envs.length = w.g_queue.queue.length + 1)
    (he : ∀ o ∈ envs, o.sound) :
    ∃ w1 q w2, trwifi_post_event w dev evt (some src) buf_len o = .ret w1 0
      ∧ w1.g_queue.queue = w.g_queue.queue
          ++ [{ evt := evt, dev := dev, buf := some q, buf_len := buf_len }]
      ∧ q ≠ src
      ∧ w1.read q = some (bytes.take buf_len)
      ∧ (w1.poke src changed).read q = some (bytes.take buf_len)
      ∧ handler_loop (w1.poke src changed) envs = .ret w2 ()
      ∧ (delivered w2.trace).getLast? = some (evt, some (bytes.take buf_len), buf_len) := by
  obtain ⟨hlock, hsig, hnd, hbd⟩ := hinv
  obtain ⟨k, hk, hrun⟩ :=
    post_event_copy w dev evt src buf_len o junk bytes hmsg hbuf hs hlock hsrc hlen
  have hsrclt : src < w.heap.length := read_lt_of_some w src bytes hsrc
  have hne : w.heap.length ≠ src := by omega
  rw [Nat.mod_eq_of_lt hL] at hrun
  obtain ⟨W1, hW1⟩ : ∃ W1 : World D I, W1 = { w with
      heap := w.heap ++ [some (bytes.take buf_len)],
      g_queue := { lock := k, signal := w.g_queue.signal + 1,
                   queue := w.g_queue.queue
                     ++ [{ evt := evt, dev := dev, buf := some w.heap.length,
                           buf_len := buf_len }] },
      trace := w.trace
        ++ [.kmm_zalloc true, .kmm_malloc buf_len (some w.heap.length)] } := ⟨_, rfl⟩
  rw [← hW1] at hrun
  have hheap : W1.heap = w.heap ++ [some (bytes.take buf_len)] := by rw [hW1]
  have hqueue : W1.g_queue.queue = w.g_queue.queue
      ++ [{ evt := evt, dev := dev, buf := some w.heap.length, buf_len := buf_len }] := by
    rw [hW1]
  have hlockW : W1.g_queue.lock = k := by rw [hW1]
  have hsigW : W1.g_queue.signal = w.g_queue.signal + 1 := by rw [hW1]
  have hpoke : (W1.poke src changed).heap
      = w.heap.set src (some changed) ++ [some (List.take buf_len bytes)] := by
    simp only [World.poke, hheap]
    rw [List.set_append, if_pos hsrclt]
  have hpq : (W1.poke src changed).g_queue = W1.g_queue := rfl
  have hreadp : (W1.poke src changed).read w.heap.length = some (bytes.take buf_len) := by
    have : w.heap.length = (w.heap.set src (some changed)).length := by simp
    unfold World.read
    rw [hpoke, this, List.getElem?_concat_length]
    rfl
  -- the queue after the post and the producer's change is still usable
  have hinvp : QueueInv (W1.poke src changed) := by
    refine ⟨by rw [hpq, hlockW]; exact hk, ?_, ?_, ?_⟩
    · rw [hpq, hqueue, hsigW]; simp; omega
    · simp only [owned, hpq, hqueue, List.filterMap_append, List.filterMap_cons,
        List.filterMap_nil]
      rw [List.nodup_append]
      refine ⟨hnd, by simp, ?_⟩
      intro a ha1 ha2
      have := hbd a ha1
      simp at ha2
      omega
    · intro a ha
      simp only [owned, hpq, hqueue, List.filterMap_append, List.filterMap_cons,
        List.filterMap_nil, List.mem_append, List.mem_singleton] at ha
      rw [hpoke]
      simp only [List.length_set, List.length_append, List.length_singleton]
      rcases ha with ha | ha
      · have := hbd a ha; omega
      · omega
  obtain ⟨w2, hrun2, hdel2, -⟩ := handler_loop_delivers envs (W1.poke src changed) hinvp
    (by rw [hpq, hqueue]; simp [hn])
    he
    (by
      intro r hr w0
      rw [hpq, hqueue] at hr
      simp only [List.mem_append, List.mem_singleton] at hr
      rcases hr with hr | rfl
      · exact hq r hr w0
      · exact hnew w0)
  refine ⟨W1, w.heap.length, w2, hrun, hqueue, hne, ?_, hreadp, hrun2, ?_⟩
  · simp [World.read, hheap]
  · rw [hdel2]
    have hlenp : envs.length = (pending (W1.poke src changed)).length := by
      simp [pending, hpq, hqueue, hn]
    rw [hlenp, List.take_length]
    simp only [pending, hpq, hqueue, List.map_append, List.map_cons, List.map_nil,
      Option.some_bind, hreadp]
    rw [← List.append_assoc, List.getLast?_concat]

/-- Worked instance of C7: block 0 is posted with length 4, the producer then overwrites
block 0 with zeros, and the handler pass still forwards the four original bytes. -/
theorem post_event_copy_semantics_witness :
    ∃ w1 q w2,
      trwifi_post_event demo_world (some wlan_demo) .LWNL_EVT_STA_CONNECTED (some 0) 4 post_ok
        = .ret w1 0
      ∧ w1.g_queue.queue = demo_world.g_queue.queue
          ++ [{ evt := .LWNL_EVT_STA_CONNECTED, dev := some wlan_demo, buf := some q,
                buf_len := 4 }]
      ∧ q ≠ 0
      ∧ w1.read q = some [10, 11, 12, 13]
      ∧ (w1.poke 0 [0, 0, 0, 0]).read q = some [10, 11, 12, 13]
      ∧ handler_loop (w1.poke 0 [0, 0, 0, 0]) [pass_ok] = .ret w2 ()
      ∧ (delivered w2.trace).getLast?
          = some (.LWNL_EVT_STA_CONNECTED, some [10, 11, 12, 13], 4) :=
  post_event_copy_semantics demo_world (some wlan_demo) .LWNL_EVT_STA_CONNECTED 0 4 post_ok []
    [10, 11, 12, 13] [0, 0, 0, 0] [pass_ok] rfl rfl (by simp [PostEnv.sound, post_ok])
    (queueInv_of_empty demo_world rfl (by decide)) (by decide) rfl (by decide)
    (by intro r hr; simp [demo_world] at hr)
    (by intro w0; simp [_trwifi_handle_event, ND_NETOPS, netdev_ops.run, wlan_demo, updown_ops])
    rfl
    (by intro o ho; simp at ho; subst ho; simp [HandlerEnv.sound, pass_ok])

/-! ## Command dispatcher: claims C8 to C10 -/

/-- C8: when the slot that serves the command is populated, is called and returns
`TRWIFI_SUCCESS`, `netdev_handle_wifi` then performs exactly one interface-state
operation for INIT (ifup), DEINIT (ifdown), STARTSOFTAP (softup) and STOPSOFTAP
(softdown), logged right after the slot call and applied once to the interface state,
and none for every other command kind; when that operation does not fail (or there is
none) the call returns `TRWIFI_SUCCESS`. -/
theorem handle_wifi_reconciles (homelynk : Bool) (w : World D I) (d : netdev D I)
    (cmd : lwnl_req) (data : Option (List Nat)) (len : Nat) (s : Slot)
    (f : D → D × trwifi_result_e)
    (hslot : cmd_slot homelynk cmd.type = some s) (hf : slot_invoke d.wl s data = some f)
    (hres : (f w.drv).2 = TRWIFI_SUCCESS) :
    (∀ op, reconcile_op cmd.type = some op ↔
        (cmd.type = .LWNL_REQ_WIFI_INIT ∧ op = .ifup)
        ∨ (cmd.type = .LWNL_REQ_WIFI_DEINIT ∧ op = .ifdown)
        ∨ (cmd.type = .LWNL_REQ_WIFI_STARTSOFTAP ∧ op = .softup)
        ∨ (cmd.type = .LWNL_REQ_WIFI_STOPSOFTAP ∧ op = .softdown))
    ∧ match reconcile_op cmd.type with
      | some op =>
        (netdev_handle_wifi homelynk w (some d) cmd data len).state
            = { w with
                drv := (f w.drv).1,
                ifstate := (d.ops.run op w.ifstate).1,
                trace := w.trace ++ before_slot cmd.type data
                  ++ [.drv s d.ifname, .netop op d.ifname] }
          ∧ (0 ≤ (d.ops.run op w.ifstate).2 →
              (netdev_handle_wifi homelynk w (some d) cmd data len).result
                = some TRWIFI_SUCCESS)
      | none =>
        netdev_handle_wifi homelynk w (some d) cmd data len
          = .ret { w with
                    drv := (f w.drv).1,
                    trace := w.trace ++ before_slot cmd.type data ++ [.drv s d.ifname] }
              TRWIFI_SUCCESS := by
  constructor
  · intro op
    obtain ⟨ty⟩ := cmd
    cases ty <;> cases op <;> simp [reconcile_op]
  · rw [handle_wifi_invoked homelynk w d cmd data len s f hslot hf, hres]
    simp only [reconcile, if_true, handle_command_eq]
    cases hop : reconcile_op cmd.type with
    | none => simp
    | some op =>
      simp only [ND_NETOPS, World.log]
      by_cases hneg : (d.ops.run op w.ifstate).2 < 0
      · simp [hneg, Outcome.state, Outcome.result, Int.not_le.mpr hneg]
      · simp [hneg, Outcome.state, Outcome.result]

/-- Worked instance of C8: START_SOFTAP on a device whose slot succeeds brings the
interface up, calls the slot once, then softup once, and reports success. -/
theorem handle_wifi_reconciles_witness :
    (netdev_handle_wifi false demo_world (some wlan_demo) ⟨.LWNL_REQ_WIFI_STARTSOFTAP⟩
        none 0).state.ifstate = true
      ∧ (netdev_handle_wifi false demo_world (some wlan_demo) ⟨.LWNL_REQ_WIFI_STARTSOFTAP⟩
          none 0).state.trace = [.drv .start_softap 0, .netop .softup 0]
      ∧ (netdev_handle_wifi false demo_world (some wlan_demo) ⟨.LWNL_REQ_WIFI_STARTSOFTAP⟩
          none 0).result = some TRWIFI_SUCCESS := by
  have h := (handle_wifi_reconciles false demo_world wlan_demo ⟨.LWNL_REQ_WIFI_STARTSOFTAP⟩
    none 0 .start_softap (fun n => (n + 1, TRWIFI_SUCCESS)) rfl rfl rfl).2
  exact ⟨congrArg World.ifstate h.1, congrArg World.trace h.1, h.2 (by decide)⟩

/-- C9: when the slot that serves the command is populated, is called and returns a
code other than `TRWIFI_SUCCESS`, `netdev_handle_wifi` returns exactly that code; the
only change is the driver's own state and the log of the slot call: no interface-state
operation is logged and the interface state is what it was. -/
theorem handle_wifi_driver_failure (homelynk : Bool) (w : World D I) (d : netdev D I)
    (cmd : lwnl_req) (data : Option (List Nat)) (len : Nat) (s : Slot)
    (f : D → D × trwifi_result_e)
    (hslot : cmd_slot homelynk cmd.type = some s) (hf : slot_invoke d.wl s data = some f)
    (hres : (f w.drv).2 ≠ TRWIFI_SUCCESS) :
    netdev_handle_wifi homelynk w (some d) cmd data len
        = .ret { w with
                  drv := (f w.drv).1,
                  trace := w.trace ++ before_slot cmd.type data ++ [.drv s d.ifname] }
            (f w.drv).2
      ∧ (netdev_handle_wifi homelynk w (some d) cmd data len).state.ifstate = w.ifstate
      ∧ netop_calls (netdev_handle_wifi homelynk w (some d) cmd data len).state.trace
          = netop_calls w.trace := by
  rw [handle_wifi_invoked homelynk w d cmd data len s f hslot hf]
  simp only [reconcile, if_neg hres, Outcome.state, true_and]
  obtain ⟨ty⟩ := cmd
  cases hd : deref_u8 data <;> cases ty <;> simp [netop_calls, before_slot, hd]

/-- Worked instance of C9: CONNECTAP on a device whose slot returns 3 returns 3, leaves
the interface down and performs no interface-state operation. -/
theorem handle_wifi_driver_failure_witness :
    (netdev_handle_wifi false demo_world (some wlan_demo) ⟨.LWNL_REQ_WIFI_CONNECTAP⟩
        (some [1]) 1).result = some 3
      ∧ (netdev_handle_wifi false demo_world (some wlan_demo) ⟨.LWNL_REQ_WIFI_CONNECTAP⟩
          (some [1]) 1).state.ifstate = false
      ∧ netop_calls (netdev_handle_wifi false demo_world (some wlan_demo)
          ⟨.LWNL_REQ_WIFI_CONNECTAP⟩ (some [1]) 1).state.trace = [] := by
  have h := handle_wifi_driver_failure false demo_world wlan_demo ⟨.LWNL_REQ_WIFI_CONNECTAP⟩
    (some [1]) 1 .connect_ap (fun n => (n + 1, 3)) rfl rfl (by decide)
  exact ⟨congrArg Outcome.result h.1, h.2.1, h.2.2⟩

/-- C10: for a command kind that has a slot in the capability table, when the device
leaves that slot empty `netdev_handle_wifi` returns `TRWIFI_FAIL` without calling any
driver function and without any interface-state operation; driver state, interface
state, store and queue are untouched. A populated slot that itself returns `TRWIFI_FAIL`
yields the same result code. (The bridge toggle of a `CONFIG_ENABLE_HOMELYNK` build reads
the payload byte before its slot is tested, so that byte must be readable.) -/
theorem handle_wifi_empty_slot (homelynk : Bool) (w : World D I) (d : netdev D I)
    (cmd : lwnl_req) (data : Option (List Nat)) (len : Nat) (s : Slot)
    (hslot : cmd_slot homelynk cmd.type = some s) (hempty : slot_populated d.wl s = false)
    (hdata : cmd.type = .LWNL_REQ_WIFI_SETBRIDGE → ∃ v, deref_u8 data = some v) :
    netdev_handle_wifi homelynk w (some d) cmd data len
        = .ret { w with trace := w.trace ++ before_slot cmd.type data } TRWIFI_FAIL
      ∧ drv_calls (w.trace ++ before_slot cmd.type data) = drv_calls w.trace
      ∧ netop_calls (w.trace ++ before_slot cmd.type data) = netop_calls w.trace
      ∧ ∀ (d2 : netdev D I) (f : D → D × trwifi_result_e),
          slot_invoke d2.wl s data = some f → (f w.drv).2 = TRWIFI_FAIL →
          (netdev_handle_wifi homelynk w (some d2) cmd data len).result = some TRWIFI_FAIL := by
  refine ⟨handle_wifi_empty homelynk w d cmd data len s hslot hempty hdata, ?_, ?_, ?_⟩
  · obtain ⟨ty⟩ := cmd
    cases hd : deref_u8 data <;> cases ty <;> simp [drv_calls, before_slot, hd]
  · obtain ⟨ty⟩ := cmd
    cases hd : deref_u8 data <;> cases ty <;> simp [netop_calls, before_slot, hd]
  · intro d2 f hf hfail
    rw [handle_wifi_invoked homelynk w d2 cmd data len s f hslot hf, hfail]
    simp [reconcile, TRWIFI_FAIL, TRWIFI_SUCCESS, Outcome.result]

/-- Worked instance of C10: SCANAP on a device without a scan slot returns
`TRWIFI_FAIL` and leaves the state as it was. -/
theorem handle_wifi_empty_slot_witness :
    netdev_handle_wifi false demo_world (some wlan_demo) ⟨.LWNL_REQ_WIFI_SCANAP⟩ none 0
      = .ret { demo_world with trace := demo_world.trace ++ [] } TRWIFI_FAIL :=
  (handle_wifi_empty_slot false demo_world wlan_demo ⟨.LWNL_REQ_WIFI_SCANAP⟩ none 0 .scan_ap
    rfl rfl (by intro h; cases h)).1

/-! ## More facts about the dispatcher -/

theorem drv_calls_append (t u : List Effect) :
    drv_calls (t ++ u) = drv_calls t ++ drv_calls u := by
  simp [drv_calls, List.filterMap_append]

theorem netop_calls_append (t u : List Effect) :
    netop_calls (t ++ u) = netop_calls t ++ netop_calls u := by
  simp [netop_calls, List.filterMap_append]

theorem drv_calls_before_slot (ty : lwnl_req_type) (data : Option (List Nat)) :
    drv_calls (before_slot ty data) = [] := by
  cases hd : deref_u8 data <;> cases ty <;> simp [drv_calls, before_slot, hd]

theorem netop_calls_before_slot (ty : lwnl_req_type) (data : Option (List Nat)) :
    netop_calls (before_slot ty data) = [] := by
  cases hd : deref_u8 data <;> cases ty <;> simp [netop_calls, before_slot, hd]

theorem handle_command_frame (w : World D I) (dev : Option (netdev D I)) (cmd : lwnl_req) :
    ∃ i t, (_trwifi_handle_command w dev cmd).1 = { w with ifstate := i, trace := w.trace ++ t }
      ∧ drv_calls t = [] := by
  cases dev with
  | none => exact ⟨w.ifstate, [], by simp [_trwifi_handle_command], rfl⟩
  | some d =>
    rw [handle_command_eq]
    cases hop : reconcile_op cmd.type with
    | none => exact ⟨w.ifstate, [], by simp, rfl⟩
    | some op =>
      exact ⟨(d.ops.run op w.ifstate).1, [.netop op d.ifname], by simp [ND_NETOPS, World.log], rfl⟩

theorem reconcile_drv_calls (dev : Option (netdev D I)) (cmd : lwnl_req) (w : World D I)
    (res : trwifi_result_e) :
    drv_calls (reconcile dev cmd w res).state.trace = drv_calls w.trace := by
  obtain ⟨i, t, hframe, ht⟩ := handle_command_frame w dev cmd
  unfold reconcile
  by_cases h1 : res = TRWIFI_SUCCESS
  · by_cases h2 : (_trwifi_handle_command w dev cmd).2 < 0
    · simp [h1, h2, Outcome.state, hframe, drv_calls_append, ht]
    · simp [h1, h2, Outcome.state, hframe, drv_calls_append, ht]
  · simp [h1, Outcome.state]

theorem call_then_reconcile_drv {α : Type} (w : World D I) (res : trwifi_result_e)
    (dev : Option (netdev D I)) (slot : Slot)
    (method : trwifi_ops D → Option (α → D → D × trwifi_result_e)) (param : Option α)
    (cmd : lwnl_req) :
    ∃ l, drv_calls ((TRWIFI_CALL w res dev slot method param).andThen
            (reconcile dev cmd)).state.trace = drv_calls w.trace ++ l
      ∧ (l = [] ∨ ∃ d, dev = some d ∧ l = [(slot, d.ifname)]) := by
  cases dev with
  | none => exact ⟨[], by simp [TRWIFI_CALL, Outcome.andThen, Outcome.state], Or.inl rfl⟩
  | some d =>
    cases hm : method d.wl with
    | none =>
      refine ⟨[], ?_, Or.inl rfl⟩
      simp only [TRWIFI_CALL, hm, Outcome.andThen, reconcile_drv_calls, List.append_nil]
    | some f =>
      cases param with
      | none =>
        exact ⟨[], by simp [TRWIFI_CALL, hm, Outcome.andThen, Outcome.state], Or.inl rfl⟩
      | some x =>
        refine ⟨[(slot, d.ifname)], ?_, Or.inr ⟨d, rfl, rfl⟩⟩
        simp only [TRWIFI_CALL, hm, Outcome.andThen, reconcile_drv_calls, World.log,
          drv_calls_append]
        rfl

theorem handle_wifi_at_most_one (homelynk : Bool) (w : World D I) (dev : Option (netdev D I))
    (cmd : lwnl_req) (data : Option (List Nat)) (len : Nat) :
    ∃ l, drv_calls (netdev_handle_wifi homelynk w dev cmd data len).state.trace
          = drv_calls w.trace ++ l
      ∧ (l = [] ∨ ∃ d s, dev = some d ∧ cmd_slot homelynk cmd.type = some s
            ∧ l = [(s, d.ifname)]) := by
  obtain ⟨ty⟩ := cmd
  have lift : ∀ (s : Slot) (x : Outcome (World D I) Int),
      cmd_slot homelynk ty = some s →
      (∃ l, drv_calls x.state.trace = drv_calls w.trace ++ l
        ∧ (l = [] ∨ ∃ d, dev = some d ∧ l = [(s, d.ifname)])) →
      ∃ l, drv_calls x.state.trace = drv_calls w.trace ++ l
        ∧ (l = [] ∨ ∃ d s, dev = some d ∧ cmd_slot homelynk ty = some s
            ∧ l = [(s, d.ifname)]) := by
    intro s x hs ⟨l, h1, h2⟩
    refine ⟨l, h1, ?_⟩
    rcases h2 with h2 | ⟨d, hd, hl⟩
    · exact Or.inl h2
    · exact Or.inr ⟨d, s, hd, hs, hl⟩
  cases ty
  case other n =>
    exact ⟨[], by simp [netdev_handle_wifi, Outcome.andThen, reconcile, TRWIFI_FAIL,
      TRWIFI_SUCCESS, Outcome.state], Or.inl rfl⟩
  case LWNL_REQ_WIFI_SETBRIDGE =>
    cases homelynk with
    | false =>
      exact ⟨[], by simp [netdev_handle_wifi, Outcome.andThen, reconcile, TRWIFI_FAIL,
        TRWIFI_SUCCESS, Outcome.state], Or.inl rfl⟩
    | true =>
      cases hd : deref_u8 data with
      | none =>
        exact ⟨[], by simp [netdev_handle_wifi, hd, Outcome.andThen, Outcome.state], Or.inl rfl⟩
      | some v =>
        apply lift .set_bridge _ rfl
        have := call_then_reconcile_drv (w.log (.lwip_set_bridge_mode v)) TRWIFI_FAIL dev
          .set_bridge (·.set_bridge) (some v) ⟨.LWNL_REQ_WIFI_SETBRIDGE⟩
        simpa [netdev_handle_wifi, hd, World.log, drv_calls_append, drv_calls] using this
  all_goals
    apply lift _ _ rfl
    exact call_then_reconcile_drv w TRWIFI_FAIL dev _ _ _ _

theorem andThen_mapState {σ α β : Type} (g : σ → σ) (x : Outcome σ α) (f : σ → α → Outcome σ β)
    (hf : ∀ s a, f (g s) a = (f s a).mapState g) :
    (x.mapState g).andThen f = (x.andThen f).mapState g := by
  cases x <;> simp [Outcome.mapState, Outcome.andThen, hf]

theorem call_queue_frame {α : Type} (q : trwifi_evt_queue D I) (w : World D I)
    (res : trwifi_result_e) (dev : Option (netdev D I)) (slot : Slot)
    (method : trwifi_ops D → Option (α → D → D × trwifi_result_e)) (param : Option α) :
    TRWIFI_CALL { w with g_queue := q } res dev slot method param
      = (TRWIFI_CALL w res dev slot method param).mapState fun s => { s with g_queue := q } := by
  cases dev with
  | none => rfl
  | some d =>
    cases hm : method d.wl with
    | none => simp [TRWIFI_CALL, hm, Outcome.mapState]
    | some f => cases param <;> simp [TRWIFI_CALL, hm, Outcome.mapState, World.log]

theorem handle_command_queue_frame (q : trwifi_evt_queue D I) (w : World D I)
    (dev : Option (netdev D I)) (cmd : lwnl_req) :
    _trwifi_handle_command { w with g_queue := q } dev cmd
      = ({ (_trwifi_handle_command w dev cmd).1 with g_queue := q },
          (_trwifi_handle_command w dev cmd).2) := by
  cases dev with
  | none => rfl
  | some d =>
    rw [handle_command_eq, handle_command_eq]
    cases reconcile_op cmd.type <;> rfl

theorem reconcile_queue_frame (q : trwifi_evt_queue D I) (dev : Option (netdev D I))
    (cmd : lwnl_req) (w : World D I) (res : trwifi_result_e) :
    reconcile dev cmd { w with g_queue := q } res
      = (reconcile dev cmd w res).mapState fun s => { s with g_queue := q } := by
  unfold reconcile
  rw [handle_command_queue_frame]
  by_cases h1 : res = TRWIFI_SUCCESS
  · by_cases h2 : (_trwifi_handle_command w dev cmd).2 < 0 <;> simp [h1, h2, Outcome.mapState]
  · simp [h1, Outcome.mapState]

theorem handle_wifi_queue_frame (homelynk : Bool) (q : trwifi_evt_queue D I) (w : World D I)
    (dev : Option (netdev D I)) (cmd : lwnl_req) (data : Option (List Nat)) (len : Nat) :
    netdev_handle_wifi homelynk { w with g_queue := q } dev cmd data len
      = (netdev_handle_wifi homelynk w dev cmd data len).mapState
          fun s => { s with g_queue := q } := by
  obtain ⟨ty⟩ := cmd
  have hrec := fun (s : World D I) (a : trwifi_result_e) =>
    reconcile_queue_frame q dev ⟨ty⟩ s a
  cases ty
  case other n =>
    simp only [netdev_handle_wifi]
    exact andThen_mapState (fun s => { s with g_queue := q }) (.ret w TRWIFI_FAIL) _ hrec
  case LWNL_REQ_WIFI_SETBRIDGE =>
    simp only [netdev_handle_wifi]
    cases homelynk with
    | false =>
      exact andThen_mapState (fun s => { s with g_queue := q }) (.ret w TRWIFI_FAIL) _ hrec
    | true =>
      cases hd : deref_u8 data with
      | none => rfl
      | some v =>
        simp only [if_true]
        have := call_queue_frame q (w.log (.lwip_set_bridge_mode v)) TRWIFI_FAIL dev
          .set_bridge (·.set_bridge) (some v)
        simp only [World.log] at this ⊢
        rw [this]
        exact andThen_mapState _ _ _ hrec
  all_goals
    simp only [netdev_handle_wifi]
    rw [call_queue_frame]
    exact andThen_mapState _ _ _ hrec

theorem handle_wifi_keeps_queue (homelynk : Bool) (w : World D I) (dev : Option (netdev D I))
    (cmd : lwnl_req) (data : Option (List Nat)) (len : Nat) :
    (netdev_handle_wifi homelynk w dev cmd data len).state.g_queue = w.g_queue := by
  have h := handle_wifi_queue_frame homelynk w.g_queue w dev cmd data len
  have hw : ({ w with g_queue := w.g_queue } : World D I) = w := rfl
  rw [hw] at h
  have : (netdev_handle_wifi homelynk w dev cmd data len).state.g_queue
      = ((netdev_handle_wifi homelynk w dev cmd data len).mapState
          fun s => { s with g_queue := w.g_queue }).state.g_queue := by
    rw [← h]
  rw [this]
  cases netdev_handle_wifi homelynk w dev cmd data len <;> rfl

theorem reconcile_not_blocked (dev : Option (netdev D I)) (cmd : lwnl_req) (w : World D I)
    (res : trwifi_result_e) (s : World D I) : reconcile dev cmd w res ≠ .blocked s := by
  unfold reconcile
  by_cases h1 : res = TRWIFI_SUCCESS
  · by_cases h2 : (_trwifi_handle_command w dev cmd).2 < 0 <;> simp [h1, h2]
  · simp [h1]

theorem call_then_reconcile_not_blocked {α : Type} (w : World D I) (res : trwifi_result_e)
    (dev : Option (netdev D I)) (slot : Slot)
    (method : trwifi_ops D → Option (α → D → D × trwifi_result_e)) (param : Option α)
    (cmd : lwnl_req) (s : World D I) :
    (TRWIFI_CALL w res dev slot method param).andThen (reconcile dev cmd) ≠ .blocked s := by
  cases dev with
  | none => simp [TRWIFI_CALL, Outcome.andThen]
  | some d =>
    cases hm : method d.wl with
    | none => simpa [TRWIFI_CALL, hm, Outcome.andThen] using reconcile_not_blocked _ _ _ _ s
    | some f =>
      cases param with
      | none => simp [TRWIFI_CALL, hm, Outcome.andThen]
      | some x => simpa [TRWIFI_CALL, hm, Outcome.andThen] using reconcile_not_blocked _ _ _ _ s

theorem handle_wifi_not_blocked (homelynk : Bool) (w : World D I) (dev : Option (netdev D I))
    (cmd : lwnl_req) (data : Option (List Nat)) (len : Nat) (s : World D I) :
    netdev_handle_wifi homelynk w dev cmd data len ≠ .blocked s := by
  obtain ⟨ty⟩ := cmd
  cases ty
  case other n =>
    simpa [netdev_handle_wifi, Outcome.andThen] using reconcile_not_blocked _ _ _ _ s
  case LWNL_REQ_WIFI_SETBRIDGE =>
    cases homelynk with
    | false => simpa [netdev_handle_wifi, Outcome.andThen] using reconcile_not_blocked _ _ _ _ s
    | true =>
      cases hd : deref_u8 data with
      | none => simp [netdev_handle_wifi, hd, Outcome.andThen]
      | some v =>
        simp only [netdev_handle_wifi, hd, if_true]
        exact call_then_reconcile_not_blocked _ _ _ _ _ _ _ s
  all_goals
    simp only [netdev_handle_wifi]
    exact call_then_reconcile_not_blocked _ _ _ _ _ _ _ s

/-! ## Command dispatcher: claims C11, C12, C15 and C16 -/

/-- C11: a call of `netdev_handle_wifi` logs at most one driver-slot call; a slot that
is called is the one the command table gives for `cmd.type`, whatever the payload, the
state or the rest of the device; it is called whenever it is populated and its argument
can be read; the table maps INIT to init, DEINIT to deinit, GETINFO to get_info,
SETAUTOCONNECT to set_autoconnect, STARTSTA to start_sta, CONNECTAP to connect_ap,
DISCONNECTAP to disconnect_ap, STARTSOFTAP to start_softap, STOPSOFTAP to stop_softap,
SCANAP to scan_ap, IOCTL to drv_ioctl, SCAN_MULTI_APS to scan_multi_aps,
SET_CHANNEL_PLAN to set_channel_plan, GET_SIGNAL_QUALITY to get_signal_quality,
GET_DISCONNECT_REASON to get_deauth_reason, GET_DRIVER_INFO to get_driver_info and
GET_WPA_SUPPLICANT_STATE to get_wpa_supplicant_state; and no two command kinds share a
slot. -/
theorem handle_wifi_slot_mapping (homelynk : Bool) (w : World D I)
    (dev : Option (netdev D I)) (cmd : lwnl_req) (data : Option (List Nat)) (len : Nat) :
    (∃ l, drv_calls (netdev_handle_wifi homelynk w dev cmd data len).state.trace
            = drv_calls w.trace ++ l
        ∧ (l = [] ∨ ∃ d s, dev = some d ∧ cmd_slot homelynk cmd.type = some s
              ∧ l = [(s, d.ifname)]))
    ∧ (∀ d s f, dev = some d → cmd_slot homelynk cmd.type = some s →
        slot_invoke d.wl s data = some f →
        drv_calls (netdev_handle_wifi homelynk w dev cmd data len).state.trace
          = drv_calls w.trace ++ [(s, d.ifname)])
    ∧ (cmd_slot homelynk .LWNL_REQ_WIFI_INIT = some .init
        ∧ cmd_slot homelynk .LWNL_REQ_WIFI_DEINIT = some .deinit
        ∧ cmd_slot homelynk .LWNL_REQ_WIFI_GETINFO = some .get_info
        ∧ cmd_slot homelynk .LWNL_REQ_WIFI_SETAUTOCONNECT = some .set_autoconnect
        ∧ cmd_slot homelynk .LWNL_REQ_WIFI_STARTSTA = some .start_sta
        ∧ cmd_slot homelynk .LWNL_REQ_WIFI_CONNECTAP = some .connect_ap
        ∧ cmd_slot homelynk .LWNL_REQ_WIFI_DISCONNECTAP = some .disconnect_ap
        ∧ cmd_slot homelynk .LWNL_REQ_WIFI_STARTSOFTAP = some .start_softap
        ∧ cmd_slot homelynk .LWNL_REQ_WIFI_STOPSOFTAP = some .stop_softap
        ∧ cmd_slot homelynk .LWNL_REQ_WIFI_SCANAP = some .scan_ap
        ∧ cmd_slot homelynk .LWNL_REQ_WIFI_IOCTL = some .drv_ioctl
        ∧ cmd_slot homelynk .LWNL_REQ_WIFI_SCAN_MULTI_APS = some .scan_multi_aps
        ∧ cmd_slot homelynk .LWNL_REQ_WIFI_SET_CHANNEL_PLAN = some .set_channel_plan
        ∧ cmd_slot homelynk .LWNL_REQ_WIFI_GET_SIGNAL_QUALITY = some .get_signal_quality
        ∧ cmd_slot homelynk .LWNL_REQ_WIFI_GET_DISCONNECT_REASON = some .get_deauth_reason
        ∧ cmd_slot homelynk .LWNL_REQ_WIFI_GET_DRIVER_INFO = some .get_driver_info
        ∧ cmd_slot homelynk .LWNL_REQ_WIFI_GET_WPA_SUPPLICANT_STATE
            = some .get_wpa_supplicant_state)
    ∧ ∀ (t1 t2 : lwnl_req_type) (s : Slot),
        cmd_slot homelynk t1 = some s → cmd_slot homelynk t2 = some s → t1 = t2 := by
  refine ⟨handle_wifi_at_most_one homelynk w dev cmd data len, ?_, ?_, ?_⟩
  · intro d s f hd hs hf
    subst hd
    rw [handle_wifi_invoked homelynk w d cmd data len s f hs hf, reconcile_drv_calls]
    simp only [drv_calls_append, drv_calls_before_slot, List.append_nil]
    rfl
  · exact ⟨rfl, rfl, rfl, rfl, rfl, rfl, rfl, rfl, rfl, rfl, rfl, rfl, rfl, rfl, rfl, rfl, rfl⟩
  · intro t1 t2 s h1 h2
    cases t1 <;> cases homelynk <;> simp [cmd_slot] at h1 <;> subst h1 <;>
      cases t2 <;> simp [cmd_slot] at h2 <;> rfl

/-- C12: when the slot of the command returns `TRWIFI_SUCCESS` and the interface-state
operation that follows returns a negative value, `netdev_handle_wifi` ends on the
`assert(0)` path and returns no result code. In the state at the assert the interface
operation has been made once (it is the last call logged, and the only one added), the
driver's state is what the slot left and the only driver call added is that slot: no
second slot is called to undo it. -/
theorem handle_wifi_reconcile_fatal (homelynk : Bool) (w : World D I) (d : netdev D I)
    (cmd : lwnl_req) (data : Option (List Nat)) (len : Nat) (s : Slot)
    (f : D → D × trwifi_result_e) (op : NetOp)
    (hslot : cmd_slot homelynk cmd.type = some s) (hf : slot_invoke d.wl s data = some f)
    (hres : (f w.drv).2 = TRWIFI_SUCCESS) (hop : reconcile_op cmd.type = some op)
    (hneg : (d.ops.run op w.ifstate).2 < 0) :
    netdev_handle_wifi homelynk w (some d) cmd data len
        = .fatal { w with
                    drv := (f w.drv).1,
                    ifstate := (d.ops.run op w.ifstate).1,
                    trace := w.trace ++ before_slot cmd.type data
                      ++ [.drv s d.ifname, .netop op d.ifname] }
      ∧ (netdev_handle_wifi homelynk w (some d) cmd data len).result = none
      ∧ netop_calls (netdev_handle_wifi homelynk w (some d) cmd data len).state.trace
          = netop_calls w.trace ++ [(op, d.ifname)]
      ∧ drv_calls (netdev_handle_wifi homelynk w (some d) cmd data len).state.trace
          = drv_calls w.trace ++ [(s, d.ifname)] := by
  have hrun : netdev_handle_wifi homelynk w (some d) cmd data len
      = .fatal { w with
                  drv := (f w.drv).1,
                  ifstate := (d.ops.run op w.ifstate).1,
                  trace := w.trace ++ before_slot cmd.type data
                    ++ [.drv s d.ifname, .netop op d.ifname] } := by
    rw [handle_wifi_invoked homelynk w d cmd data len s f hslot hf, hres]
    simp only [reconcile, if_true, handle_command_eq, hop, ND_NETOPS, World.log]
    simp [hneg]
  refine ⟨hrun, by rw [hrun]; rfl, ?_, ?_⟩
  · rw [hrun]
    simp only [Outcome.state, netop_calls_append, netop_calls_before_slot, List.append_nil]
    rfl
  · rw [hrun]
    simp only [Outcome.state, drv_calls_append, drv_calls_before_slot, List.append_nil]
    rfl

/-- Worked instance of C12: INIT on a device whose `init` slot succeeds and whose `ifup`
returns -1 ends on the assert path after one slot call and one `ifup`. -/
theorem handle_wifi_reconcile_fatal_witness :
    (netdev_handle_wifi false demo_world (some wlan_stuck) ⟨.LWNL_REQ_WIFI_INIT⟩ none 0).result
        = none
      ∧ (netdev_handle_wifi false demo_world (some wlan_stuck) ⟨.LWNL_REQ_WIFI_INIT⟩
          none 0).state.trace = [.drv .init 1, .netop .ifup 1]
      ∧ (netdev_handle_wifi false demo_world (some wlan_stuck) ⟨.LWNL_REQ_WIFI_INIT⟩
          none 0).state.drv = 1 := by
  have h := (handle_wifi_reconcile_fatal false demo_world wlan_stuck ⟨.LWNL_REQ_WIFI_INIT⟩
    none 0 .init (fun n => (n + 1, TRWIFI_SUCCESS)) .ifup rfl rfl rfl rfl (by decide)).1
  rw [h]
  exact ⟨rfl, rfl, rfl⟩

/-- C15, the code at a null device: for every command kind that has a slot,
`netdev_handle_wifi(NULL, ...)` reads `dev->t_ops.wl` through the null pointer in
`TRWIFI_CALL` and returns no result code (no slot and no interface operation is
called); only the kinds outside the table return `TRWIFI_FAIL`. The sibling functions
`netdev_deinit_wifi` and `_trwifi_handle_command` do test the device and return a
failure code. -/
theorem handle_wifi_null_device (homelynk : Bool) (w : World D I) (ty : lwnl_req_type)
    (data : Option (List Nat)) (len : Nat) :
    (match cmd_slot homelynk ty with
      | some _ =>
        (netdev_handle_wifi homelynk w none ⟨ty⟩ data len).result = none
          ∧ (∃ s, netdev_handle_wifi homelynk w none ⟨ty⟩ data len = .fault s)
      | none => netdev_handle_wifi homelynk w none ⟨ty⟩ data len = .ret w TRWIFI_FAIL)
    ∧ netdev_handle_wifi homelynk w none ⟨.LWNL_REQ_WIFI_INIT⟩ data len = .fault w
    ∧ netdev_deinit_wifi w none = .ret w TRWIFI_FAIL
    ∧ _trwifi_handle_command w none ⟨ty⟩ = (w, -1) := by
  refine ⟨?_, rfl, rfl, rfl⟩
  cases ty
  case other n => rfl
  case LWNL_REQ_WIFI_SETBRIDGE =>
    cases homelynk with
    | false => rfl
    | true =>
      cases hd : deref_u8 data with
      | none =>
        exact ⟨by simp [netdev_handle_wifi, hd, Outcome.andThen, Outcome.result],
          w, by simp [netdev_handle_wifi, hd, Outcome.andThen]⟩
      | some v =>
        exact ⟨by simp [netdev_handle_wifi, hd, TRWIFI_CALL, Outcome.andThen, Outcome.result],
          w.log (.lwip_set_bridge_mode v),
          by simp [netdev_handle_wifi, hd, TRWIFI_CALL, Outcome.andThen]⟩
  all_goals exact ⟨rfl, w, rfl⟩

/-- C16: `netdev_handle_wifi` neither reads nor writes `g_queue`. Run with any other
queue `q` (records, lock and wake signal) in place of the current one, it ends the same
way, with the same result code, the same driver state, interface state and log of
calls; the queue it leaves is the queue it found; and it never suspends in a
`sem_wait`, however many records are queued. -/
theorem handle_wifi_queue_independent (homelynk : Bool) (w : World D I)
    (dev : Option (netdev D I)) (cmd : lwnl_req) (data : Option (List Nat)) (len : Nat)
    (q : trwifi_evt_queue D I) :
    netdev_handle_wifi homelynk { w with g_queue := q } dev cmd data len
        = (netdev_handle_wifi homelynk w dev cmd data len).mapState
            (fun s => { s with g_queue := q })
      ∧ (netdev_handle_wifi homelynk { w with g_queue := q } dev cmd data len).result
          = (netdev_handle_wifi homelynk w dev cmd data len).result
      ∧ (netdev_handle_wifi homelynk { w with g_queue := q } dev cmd data len).state.drv
          = (netdev_handle_wifi homelynk w dev cmd data len).state.drv
      ∧ (netdev_handle_wifi homelynk { w with g_queue := q } dev cmd data len).state.ifstate
          = (netdev_handle_wifi homelynk w dev cmd data len).state.ifstate
      ∧ (netdev_handle_wifi homelynk { w with g_queue := q } dev cmd data len).state.trace
          = (netdev_handle_wifi homelynk w dev cmd data len).state.trace
      ∧ (netdev_handle_wifi homelynk { w with g_queue := q } dev cmd data len).state.g_queue = q
      ∧ (netdev_handle_wifi homelynk w dev cmd data len).state.g_queue = w.g_queue
      ∧ ∀ s, netdev_handle_wifi homelynk w dev cmd data len ≠ .blocked s := by
  have h := handle_wifi_queue_frame homelynk q w dev cmd data len
  refine ⟨h, ?_, ?_, ?_, ?_, ?_, handle_wifi_keeps_queue homelynk w dev cmd data len,
    handle_wifi_not_blocked homelynk w dev cmd data len⟩
  all_goals
    rw [h]
    cases netdev_handle_wifi homelynk w dev cmd data len <;> rfl

/-! ## Event handler: claims C14, C17, C18 and C19 -/

/-- C19: for a non-null device `_trwifi_handle_event` makes exactly one interface call,
`softup`, for `LWNL_EVT_STA_CONNECTED` and returns its result, exactly one, `softdown`,
for `LWNL_EVT_STA_DISCONNECTED` and returns its result, and for every other kind leaves
the state as it is and returns 0; the payload pointer and the length do not enter into
the outcome. -/
theorem handle_event_by_kind (w : World D I) (d : netdev D I) (evt : lwnl_cb_wifi)
    (buffer : Option Nat) (buf_len : Nat) :
    _trwifi_handle_event w (some d) .LWNL_EVT_STA_CONNECTED buffer buf_len
        = ({ w with
              ifstate := (d.ops.softup w.ifstate).1,
              trace := w.trace ++ [.netop .softup d.ifname] }, (d.ops.softup w.ifstate).2)
      ∧ _trwifi_handle_event w (some d) .LWNL_EVT_STA_DISCONNECTED buffer buf_len
        = ({ w with
              ifstate := (d.ops.softdown w.ifstate).1,
              trace := w.trace ++ [.netop .softdown d.ifname] }, (d.ops.softdown w.ifstate).2)
      ∧ (∀ n, _trwifi_handle_event w (some d) (.other n) buffer buf_len = (w, 0))
      ∧ ∀ (b2 : Option Nat) (l2 : Nat),
          _trwifi_handle_event w (some d) evt b2 l2
            = _trwifi_handle_event w (some d) evt buffer buf_len :=
  ⟨rfl, rfl, fun _ => rfl, fun _ _ => rfl⟩

/-- C18, the code at an interrupted wait: when `sem_wait` fails with `EINTR`,
`LOCK_EVTQUEUE` and `WAIT_EVTQUEUE` make no second `sem_wait`: control passes the macro
at once with the semaphore's count unchanged, that is without the semaphore. The wait of
the specification, given the answers `EINTR` and then success, takes the semaphore. A
post whose lock wait is interrupted therefore appends its record without holding the
lock and leaves the lock's count at 2. -/
theorem interrupted_wait_not_retried (w : World D I) (count : Nat) (rest : List SemWait) :
    LOCK_EVTQUEUE w .eintr = .ret w ()
      ∧ WAIT_EVTQUEUE w .eintr = .ret w ()
      ∧ wait_retrying (count + 1) (.eintr :: .acquired :: rest) = some count
      ∧ (trwifi_post_event demo_world (some wlan_demo) .LWNL_EVT_STA_CONNECTED none 0
          { post_ok with lock := .eintr }).state.g_queue.lock = 2 :=
  ⟨rfl, rfl, rfl, rfl⟩

/-- C14, the code at a null device: `trwifi_post_event(NULL, ...)` returns 0, appends a
record whose device is `NULL` and raises the wake signal; the handler pass that takes
this record gets -1 from `_trwifi_handle_event` and ends on the `assert(0)` path without
forwarding the event. -/
theorem post_event_null_device :
    ∃ w1 w2,
      trwifi_post_event demo_world none .LWNL_EVT_STA_CONNECTED none 0 post_ok = .ret w1 0
      ∧ w1.g_queue.queue.map (fun r => r.dev.isSome) = [false]
      ∧ w1.g_queue.signal = demo_world.g_queue.signal + 1
      ∧ _trwifi_event_handler w1 pass_ok = .fatal w2
      ∧ delivered w2.trace = [] :=
  ⟨_, _, rfl, rfl, rfl, rfl, rfl⟩

/-- C17, the code at an interrupted wait on the wake signal: after `trwifi_run_handler`
and one successful post the wake signal is 1 with one record queued; a handler pass
whose `sem_wait` on the signal fails with `EINTR` completes, removes the record and
leaves the wake signal at 1 with no record queued. The same pass with a `sem_wait`
that takes the token leaves the wake signal at 0. -/
theorem queue_count_broken_by_eintr :
    ∃ w1 w2 w3,
      (trwifi_run_handler (World.boot 0 false) run_ok).1.g_queue.lock = 1
      ∧ (trwifi_run_handler (World.boot 0 false) run_ok).1.g_queue.signal = 0
      ∧ trwifi_post_event (trwifi_run_handler (World.boot 0 false) run_ok).1 (some wlan_demo)
          .LWNL_EVT_STA_CONNECTED none 0 post_ok = .ret w1 0
      ∧ w1.g_queue.signal = 1 ∧ w1.g_queue.queue.length = 1
      ∧ _trwifi_event_handler w1 { pass_ok with wait := .eintr } = .ret w2 ()
      ∧ w2.g_queue.signal = 1 ∧ w2.g_queue.queue.length = 0
      ∧ _trwifi_event_handler w1 pass_ok = .ret w3 ()
      ∧ w3.g_queue.signal = 0 ∧ w3.g_queue.queue.length = 0 :=
  ⟨_, _, _, rfl, rfl, rfl, rfl, rfl, rfl, rfl, rfl, rfl, rfl, rfl⟩

/-! ## More facts about the handler -/

theorem handle_event_eq (w : World D I) (d : netdev D I) (evt : lwnl_cb_wifi)
    (b : Option Nat) (l : Nat) :
    _trwifi_handle_event w (some d) evt b l
      = match event_op evt with
        | some op => ND_NETOPS w d op
        | none => (w, 0) := by
  cases evt <;> rfl

theorem handle_event_queue_frame (q : trwifi_evt_queue D I) (w : World D I)
    (dev : Option (netdev D I)) (evt : lwnl_cb_wifi) (b : Option Nat) (l : Nat) :
    _trwifi_handle_event { w with g_queue := q } dev evt b l
      = ({ (_trwifi_handle_event w dev evt b l).1 with g_queue := q },
          (_trwifi_handle_event w dev evt b l).2) := by
  cases dev with
  | none => rfl
  | some d =>
    rw [handle_event_eq, handle_event_eq]
    cases event_op evt <;> rfl

theorem handle_event_keeps (w : World D I) (dev : Option (netdev D I)) (evt : lwnl_cb_wifi)
    (b : Option Nat) (l : Nat) :
    (_trwifi_handle_event w dev evt b l).1.heap = w.heap
      ∧ (_trwifi_handle_event w dev evt b l).1.drv = w.drv
      ∧ (_trwifi_handle_event w dev evt b l).1.g_queue = w.g_queue := by
  cases dev with
  | none => exact ⟨rfl, rfl, rfl⟩
  | some d =>
    rw [handle_event_eq]
    cases event_op evt <;> exact ⟨rfl, rfl, rfl⟩

theorem handler_unfold (w : World D I) (o : HandlerEnv) (r : trwifi_evt D I)
    (rest : List (trwifi_evt D I)) (hq : w.g_queue.queue = r :: rest)
    (hw : o.wait = .acquired ∨ o.wait = .eintr) (hl : o.lock = .acquired ∨ o.lock = .eintr)
    (hu : o.unlock = true) (hsig : 0 < w.g_queue.signal) (hlock : 0 < w.g_queue.lock) :
    ∃ q1 : trwifi_evt_queue D I, q1.queue = rest ∧ 0 < q1.lock
      ∧ w.g_queue.signal ≤ q1.signal + 1
      ∧ _trwifi_event_handler w o
        = if (_trwifi_handle_event w r.dev r.evt r.buf r.buf_len).2 < 0 then
            .fatal { (_trwifi_handle_event w r.dev r.evt r.buf r.buf_len).1 with g_queue := q1 }
          else if o.postmsg < 0 then
            .fatal { (_trwifi_handle_event w r.dev r.evt r.buf r.buf_len).1 with
                      g_queue := q1,
                      trace := (_trwifi_handle_event w r.dev r.evt r.buf r.buf_len).1.trace
                        ++ [.lwnl_postmsg r.evt (r.buf.bind w.read) r.buf_len] }
          else
            .ret { (_trwifi_handle_event w r.dev r.evt r.buf r.buf_len).1 with
                    heap := (match r.buf with
                             | some b => w.heap.set b none
                             | none => w.heap),
                    g_queue := q1,
                    trace := (_trwifi_handle_event w r.dev r.evt r.buf r.buf_len).1.trace
                      ++ [.lwnl_postmsg r.evt (r.buf.bind w.read) r.buf_len]
                      ++ (match r.buf with
                          | some b => [.kmm_free b]
                          | none => [])
                      ++ [.kmm_free_evt] } () := by
  have hsig0 : w.g_queue.signal ≠ 0 := Nat.ne_of_gt hsig
  have hlock0 : w.g_queue.lock ≠ 0 := Nat.ne_of_gt hlock
  obtain ⟨hh, hd, hg⟩ := handle_event_keeps w r.dev r.evt r.buf r.buf_len
  have tail : ∀ q1 : trwifi_evt_queue D I,
      (if (_trwifi_handle_event { w with g_queue := q1 } r.dev r.evt r.buf r.buf_len).2 < 0 then
          (.fatal (_trwifi_handle_event { w with g_queue := q1 } r.dev r.evt r.buf r.buf_len).1
            : Outcome (World D I) Unit)
        else if o.postmsg < 0 then
          .fatal ((_trwifi_handle_event { w with g_queue := q1 } r.dev r.evt r.buf r.buf_len).1.log
            (.lwnl_postmsg r.evt
              (r.buf.bind
                (_trwifi_handle_event { w with g_queue := q1 } r.dev r.evt r.buf r.buf_len).1.read)
              r.buf_len))
        else
          .ret ((match r.buf with
            | some b =>
              kmm_free
                ((_trwifi_handle_event { w with g_queue := q1 } r.dev r.evt r.buf
                    r.buf_len).1.log
                  (.lwnl_postmsg r.evt
                    (r.buf.bind
                      (_trwifi_handle_event { w with g_queue := q1 } r.dev r.evt r.buf
                        r.buf_len).1.read)
                    r.buf_len)) b
            | none =>
              (_trwifi_handle_event { w with g_queue := q1 } r.dev r.evt r.buf r.buf_len).1.log
                (.lwnl_postmsg r.evt
                  (r.buf.bind
                    (_trwifi_handle_event { w with g_queue := q1 } r.dev r.evt r.buf
                      r.buf_len).1.read)
                  r.buf_len)).log .kmm_free_evt) ())
        = if (_trwifi_handle_event w r.dev r.evt r.buf r.buf_len).2 < 0 then
            .fatal { (_trwifi_handle_event w r.dev r.evt r.buf r.buf_len).1 with g_queue := q1 }
          else if o.postmsg < 0 then
            .fatal { (_trwifi_handle_event w r.dev r.evt r.buf r.buf_len).1 with
                      g_queue := q1,
                      trace := (_trwifi_handle_event w r.dev r.evt r.buf r.buf_len).1.trace
                        ++ [.lwnl_postmsg r.evt (r.buf.bind w.read) r.buf_len] }
          else
            .ret { (_trwifi_handle_event w r.dev r.evt r.buf r.buf_len).1 with
                    heap := (match r.buf with
                             | some b => w.heap.set b none
                             | none => w.heap),
                    g_queue := q1,
                    trace := (_trwifi_handle_event w r.dev r.evt r.buf r.buf_len).1.trace
                      ++ [.lwnl_postmsg r.evt (r.buf.bind w.read) r.buf_len]
                      ++ (match r.buf with
                          | some b => [.kmm_free b]
                          | none => [])
                      ++ [.kmm_free_evt] } () := by
    intro q1
    rw [handle_event_queue_frame]
    have hread : ({ (_trwifi_handle_event w r.dev r.evt r.buf r.buf_len).1 with
        g_queue := q1 } : World D I).read = w.read := by
      funext a
      simp [World.read, hh]
    simp only [hread]
    generalize _trwifi_handle_event w r.dev r.evt r.buf r.buf_len = E at hh
    cases r.buf <;> simp [World.log, kmm_free, hh]
  rcases hw with hw | hw <;> rcases hl with hl | hl
  · refine ⟨⟨w.g_queue.lock - 1 + 1, w.g_queue.signal - 1, rest⟩, rfl, by simp, by simp; omega,
      ?_⟩
    rw [← tail]
    simp only [_trwifi_event_handler, WAIT_EVTQUEUE, LOCK_EVTQUEUE, UNLOCK_EVTQUEUE, sq_remfirst,
      hq, Outcome.andThen, hw, hl, hu, hsig0, hlock0, if_false, if_true]
  · refine ⟨⟨w.g_queue.lock + 1, w.g_queue.signal - 1, rest⟩, rfl, by simp, by simp; omega, ?_⟩
    rw [← tail]
    simp only [_trwifi_event_handler, WAIT_EVTQUEUE, LOCK_EVTQUEUE, UNLOCK_EVTQUEUE, sq_remfirst,
      hq, Outcome.andThen, hw, hl, hu, hsig0, hlock0, if_false, if_true]
  · refine ⟨⟨w.g_queue.lock - 1 + 1, w.g_queue.signal, rest⟩, rfl, by simp, by simp, ?_⟩
    rw [← tail]
    simp only [_trwifi_event_handler, WAIT_EVTQUEUE, LOCK_EVTQUEUE, UNLOCK_EVTQUEUE, sq_remfirst,
      hq, Outcome.andThen, hw, hl, hu, hsig0, hlock0, if_false, if_true]
  · refine ⟨⟨w.g_queue.lock + 1, w.g_queue.signal, rest⟩, rfl, by simp, by simp, ?_⟩
    rw [← tail]
    simp only [_trwifi_event_handler, WAIT_EVTQUEUE, LOCK_EVTQUEUE, UNLOCK_EVTQUEUE, sq_remfirst,
      hq, Outcome.andThen, hw, hl, hu, hsig0, hlock0, if_false, if_true]

theorem frees_of_append (t u : List Effect) : frees_of (t ++ u) = frees_of t ++ frees_of u := by
  simp [frees_of, List.filter_append]

theorem steps_of_append (t u : List Effect) : steps_of (t ++ u) = steps_of t ++ steps_of u := by
  simp [steps_of, List.filter_append]

theorem handle_event_trace (w : World D I) (dev : Option (netdev D I)) (evt : lwnl_cb_wifi)
    (b : Option Nat) (l : Nat) :
    ∃ t, (_trwifi_handle_event w dev evt b l).1.trace = w.trace ++ t
      ∧ frees_of t = [] ∧ delivered t = [] ∧ (netop_calls t).length ≤ 1 := by
  cases dev with
  | none => exact ⟨[], by simp [_trwifi_handle_event], rfl, rfl, by simp [netop_calls]⟩
  | some d =>
    rw [handle_event_eq]
    cases event_op evt with
    | none => exact ⟨[], by simp, rfl, rfl, by simp [netop_calls]⟩
    | some op =>
      exact ⟨[.netop op d.ifname], by simp [ND_NETOPS, World.log], rfl, rfl,
        by simp [netop_calls]⟩

/-! ## Event handler: claim C13 -/

/-- C13, amended: when a handler pass has taken a record off the queue and
`_trwifi_handle_event` returns a negative value or `lwnl_postmsg` returns a negative
value, the pass ends on the `assert(0)` path. In the state at the assert the record is
off the queue and is not put back, its interface operation has been made at most once
and its `lwnl_postmsg` call at most once (not at all when `_trwifi_handle_event`
failed), and nothing has been released: the store is what it was and no `kmm_free` call
has been made, because both `kmm_free` calls come after the asserts. -/
theorem handler_failure_fatal (w : World D I) (o : HandlerEnv) (r : trwifi_evt D I)
    (rest : List (trwifi_evt D I)) (hq : w.g_queue.queue = r :: rest)
    (hw : o.wait = .acquired ∨ o.wait = .eintr) (hl : o.lock = .acquired ∨ o.lock = .eintr)
    (hu : o.unlock = true) (hsig : 0 < w.g_queue.signal) (hlock : 0 < w.g_queue.lock)
    (hfail : (_trwifi_handle_event w r.dev r.evt r.buf r.buf_len).2 < 0 ∨ o.postmsg < 0) :
    ∃ w1, _trwifi_event_handler w o = .fatal w1
      ∧ w1.g_queue.queue = rest
      ∧ w1.heap = w.heap
      ∧ frees_of w1.trace = frees_of w.trace
      ∧ (netop_calls w1.trace).length ≤ (netop_calls w.trace).length + 1
      ∧ (delivered w1.trace).length ≤ (delivered w.trace).length + 1
      ∧ ((_trwifi_handle_event w r.dev r.evt r.buf r.buf_len).2 < 0 →
          delivered w1.trace = delivered w.trace) := by
  obtain ⟨q1, hq1, -, -, hrun⟩ := handler_unfold w o r rest hq hw hl hu hsig hlock
  obtain ⟨hh, -, -⟩ := handle_event_keeps w r.dev r.evt r.buf r.buf_len
  obtain ⟨t, ht, hfree, hdel, hnet⟩ := handle_event_trace w r.dev r.evt r.buf r.buf_len
  by_cases h1 : (_trwifi_handle_event w r.dev r.evt r.buf r.buf_len).2 < 0
  · rw [if_pos h1] at hrun
    refine ⟨_, hrun, hq1, hh, ?_, ?_, ?_, fun _ => ?_⟩
    · simp only [ht, frees_of_append, hfree, List.append_nil]
    · simp only [ht, netop_calls_append, List.length_append]
      omega
    · simp only [ht, delivered_append, hdel, List.append_nil]
      omega
    · simp only [ht, delivered_append, hdel, List.append_nil]
  · have h2 : o.postmsg < 0 := hfail.resolve_left h1
    rw [if_neg h1, if_pos h2] at hrun
    refine ⟨_, hrun, hq1, hh, ?_, ?_, ?_, fun h => absurd h h1⟩
    · have hp : frees_of [Effect.lwnl_postmsg r.evt (r.buf.bind w.read) r.buf_len] = [] := rfl
      simp only [ht, frees_of_append, hfree, hp, List.append_nil]
    · have hp : netop_calls [Effect.lwnl_postmsg r.evt (r.buf.bind w.read) r.buf_len] = [] :=
        rfl
      simp only [ht, netop_calls_append, hp, List.append_nil, List.length_append]
      omega
    · have hp : delivered [Effect.lwnl_postmsg r.evt (r.buf.bind w.read) r.buf_len]
          = [(r.evt, r.buf.bind w.read, r.buf_len)] := rfl
      simp only [ht, delivered_append, hdel, hp, List.append_nil, List.length_append,
        List.length_singleton]
      omega

/-- Worked instance of the amended C13: a record for a device whose `softup` returns -1
is taken off the queue, `softup` is called once, nothing is forwarded, nothing is
released, and the pass ends on the assert path. -/
theorem handler_failure_fatal_witness :
    ∃ w1, _trwifi_event_handler
          { demo_world with
            g_queue := { lock := 1, signal := 1,
                         queue := [{ evt := .LWNL_EVT_STA_CONNECTED, dev := some wlan_stuck,
                                     buf := some 0, buf_len := 4 }] } } pass_ok = .fatal w1
      ∧ w1.g_queue.queue = []
      ∧ w1.heap = demo_world.heap
      ∧ frees_of w1.trace = []
      ∧ netop_calls w1.trace = [(.softup, 1)]
      ∧ delivered w1.trace = [] := by
  obtain ⟨w1, hrun, h1, h2, h3, -, -, -⟩ := handler_failure_fatal
    ({ demo_world with
        g_queue := { lock := 1, signal := 1,
                     queue := [{ evt := .LWNL_EVT_STA_CONNECTED, dev := some wlan_stuck,
                                 buf := some 0, buf_len := 4 }] } } : World Nat Bool)
    pass_ok { evt := .LWNL_EVT_STA_CONNECTED, dev := some wlan_stuck, buf := some 0,
              buf_len := 4 } [] rfl (Or.inl rfl) (Or.inl rfl) rfl (by decide) (by decide)
    (Or.inl (by decide))
  refine ⟨w1, hrun, h1, h2, h3, ?_, ?_⟩
  · have := Outcome.fatal.inj (hrun.symm.trans (rfl : _ = Outcome.fatal _))
    rw [this]
    rfl
  · have := Outcome.fatal.inj (hrun.symm.trans (rfl : _ = Outcome.fatal _))
    rw [this]
    rfl

/-- C13 as stated fails on the release: a record with a 4-byte payload is posted and
taken by a handler pass in which `lwnl_postmsg` returns -1; the pass ends on the assert
path with the payload block still allocated and no `kmm_free` call made. -/
theorem handler_failure_release_counterexample :
    ∃ w1 w2,
      trwifi_post_event demo_world (some wlan_demo) .LWNL_EVT_STA_CONNECTED (some 0) 4 post_ok
        = .ret w1 0
      ∧ _trwifi_event_handler w1 { pass_ok with postmsg := -1 } = .fatal w2
      ∧ w2.g_queue.queue = []
      ∧ w2.read 2 = some [10, 11, 12, 13]
      ∧ frees_of w2.trace = [] :=
  ⟨_, _, rfl, rfl, rfl, rfl, rfl⟩

/-! ## Facts about the order of the handler's calls -/

theorem handle_event_steps (w : World D I) (r : trwifi_evt D I)
    (hev : 0 ≤ (_trwifi_handle_event w r.dev r.evt r.buf r.buf_len).2) :
    (_trwifi_handle_event w r.dev r.evt r.buf r.buf_len).1.ifstate = r.effect w.ifstate
      ∧ (_trwifi_handle_event w r.dev r.evt r.buf r.buf_len).1.trace
            ++ [.lwnl_postmsg r.evt (r.buf.bind w.read) r.buf_len]
          = w.trace ++ r.steps w := by
  unfold trwifi_evt.effect trwifi_evt.steps
  cases hd : r.dev with
  | none =>
    rw [hd] at hev
    simp [_trwifi_handle_event] at hev
  | some d =>
    rw [handle_event_eq]
    cases event_op r.evt with
    | none => exact ⟨rfl, rfl⟩
    | some op => exact ⟨rfl, by simp [ND_NETOPS, World.log]⟩

theorem handler_pass_steps (w : World D I) (o : HandlerEnv) (r : trwifi_evt D I)
    (rest : List (trwifi_evt D I)) (hq : w.g_queue.queue = r :: rest) (hs : o.sound)
    (hsig : 0 < w.g_queue.signal) (hlock : 0 < w.g_queue.lock)
    (hev : 0 ≤ (_trwifi_handle_event w r.dev r.evt r.buf r.buf_len).2)
    (w1 : World D I) (hrun : _trwifi_event_handler w o = .ret w1 ()) :
    steps_of w1.trace = steps_of w.trace ++ r.steps w
      ∧ w1.ifstate = r.effect w.ifstate := by
  obtain ⟨hw, hl, hu, hp⟩ := hs
  obtain ⟨q1, -, -, -, hrun1⟩ := handler_unfold w o r rest hq hw hl hu hsig hlock
  rw [if_neg (not_lt.mpr hev), if_neg (not_lt.mpr hp)] at hrun1
  obtain ⟨hif, htr⟩ := handle_event_steps w r hev
  have heq := Outcome.ret.inj (hrun.symm.trans hrun1)
  rw [heq.1]
  refine ⟨?_, hif⟩
  show steps_of (_ ++ _ ++ _ ++ _) = _
  rw [htr]
  have hsteps : steps_of (r.steps w) = r.steps w := by
    unfold trwifi_evt.steps
    cases r.dev <;> cases event_op r.evt <;> rfl
  have hfree : steps_of ((match r.buf with
      | some b => [Effect.kmm_free b]
      | none => []) ++ [.kmm_free_evt]) = [] := by
    cases r.buf <;> rfl
  rw [List.append_assoc, steps_of_append, steps_of_append, hsteps, hfree, List.append_nil]

theorem steps_after_pass (w w1 : World D I) (r : trwifi_evt D I) (rest : List (trwifi_evt D I))
    (hq : w.g_queue.queue = r :: rest) (hnd : (owned w).Nodup)
    (hheap : w1.heap = (match r.buf with
                        | some b => w.heap.set b none
                        | none => w.heap))
    (r1 : trwifi_evt D I) (hr1 : r1 ∈ rest) : r1.steps w1 = r1.steps w := by
  have hread : r1.buf.bind w1.read = r1.buf.bind w.read := by
    cases hb1 : r1.buf with
    | none => rfl
    | some a =>
      cases hb : r.buf with
      | none =>
        rw [hb] at hheap
        simp [World.read, hheap]
      | some b =>
        rw [hb] at hheap
        have hne : b ≠ a := by
          have hown : owned w = b :: rest.filterMap (·.buf) := by
            simp [owned, hq, List.filterMap_cons, hb]
          rw [hown] at hnd
          intro h
          subst h
          exact (List.nodup_cons.mp hnd).1 (List.mem_filterMap.mpr ⟨r1, hr1, hb1⟩)
        simp only [Option.some_bind, World.read, hheap]
        simp [List.getElem?_set, hne]
  unfold trwifi_evt.steps
  rw [hread]

theorem handler_loop_steps (envs : List HandlerEnv) (w : World D I) (hinv : QueueInv w)
    (hlen : envs.length ≤ w.g_queue.queue.length) (hs : ∀ o ∈ envs, o.sound)
    (hev : ∀ r ∈ w.g_queue.queue, ∀ w0 : World D I,
      0 ≤ (_trwifi_handle_event w0 r.dev r.evt r.buf r.buf_len).2) :
    ∃ w1, handler_loop w envs = .ret w1 ()
      ∧ steps_of w1.trace
          = steps_of w.trace
            ++ ((w.g_queue.queue.take envs.length).map (trwifi_evt.steps w)).flatten
      ∧ w1.ifstate
          = (w.g_queue.queue.take envs.length).foldl (fun i r => r.effect i) w.ifstate := by
  induction envs generalizing w with
  | nil => exact ⟨w, rfl, by simp, by simp⟩
  | cons o os ih =>
    obtain ⟨hlock, hsig, hnd, hbd⟩ := hinv
    cases hq : w.g_queue.queue with
    | nil => simp [hq] at hlen
    | cons r rest =>
      have hsig1 : 0 < w.g_queue.signal := by rw [hq] at hsig; simp at hsig; omega
      obtain ⟨w1, hrun, hheap, hqueue, hlock1, hsignal, -, -⟩ :=
        handler_pass w o r rest hq (hs o (by simp)) hsig1 hlock (hev r (by rw [hq]; simp))
      obtain ⟨hsteps, hif⟩ := handler_pass_steps w o r rest hq (hs o (by simp)) hsig1 hlock
        (hev r (by rw [hq]; simp) w) w1 hrun
      have hown : owned w = (match r.buf with
                             | some b => [b]
                             | none => []) ++ owned w1 := by
        unfold owned
        rw [hq, hqueue, List.filterMap_cons]
        cases hb : r.buf <;> simp
      have hlen1 : w1.heap.length = w.heap.length := by
        rw [hheap]; cases r.buf <;> simp
      have hinv1 : QueueInv w1 := by
        refine ⟨hlock1, ?_, ?_, ?_⟩
        · rw [hqueue]; rw [hq] at hsig; simp at hsig; omega
        · rw [hown] at hnd
          exact (List.nodup_append.mp hnd).2.1
        · intro a ha
          rw [hlen1]
          exact hbd a (by rw [hown]; exact List.mem_append_right _ ha)
      obtain ⟨w2, hrun2, hsteps2, hif2⟩ := ih w1 hinv1
        (by rw [hqueue]; rw [hq] at hlen; simpa using hlen)
        (fun o1 ho1 => hs o1 (by simp [ho1]))
        (fun r1 hr1 => hev r1 (by rw [hq]; rw [hqueue] at hr1; simp [hr1]))
      have hsame : (rest.take os.length).map (trwifi_evt.steps w1)
          = (rest.take os.length).map (trwifi_evt.steps w) := by
        apply List.map_congr_left
        intro r1 hr1
        exact steps_after_pass w w1 r rest hq hnd hheap r1 (List.mem_of_mem_take hr1)
      refine ⟨w2, ?_, ?_, ?_⟩
      · simp [handler_loop, hrun, Outcome.andThen, hrun2]
      · rw [hsteps2, hsteps, hqueue, hsame]
        simp [List.take_succ_cons]
      · rw [hif2, hif, hqueue]
        simp [List.take_succ_cons]

theorem post_step_keeps (w : World D I) (c : PostCall D I) (hlock : 0 < w.g_queue.lock)
    (hs : c.allocated = true → c.env.sound)
    (hsrc : c.allocated = true → ∀ a, c.buffer = some a →
      ∃ bytes, w.read a = some bytes ∧ c.buf_len ≤ bytes.length)
    (w1 : World D I) (r : Int)
    (hrun : trwifi_post_event w c.dev c.evt c.buffer c.buf_len c.env = .ret w1 r) :
    w1.ifstate = w.ifstate ∧ steps_of w1.trace = steps_of w.trace := by
  by_cases halloc : c.allocated = true
  · have hmsg : c.env.msg = true := by
      simp only [PostCall.allocated, Bool.and_eq_true] at halloc
      exact halloc.1
    cases hb : c.buffer with
    | none =>
      obtain ⟨k, -, hrun1⟩ :=
        post_event_null w c.dev c.evt c.buf_len c.env hmsg (hs halloc) hlock
      rw [hb] at hrun
      have heq := Outcome.ret.inj (hrun.symm.trans hrun1)
      rw [heq.1]
      exact ⟨rfl, by simp only [steps_of_append]; simp [steps_of]⟩
    | some src =>
      have hjunk : ∃ junk, c.env.buf = some junk := by
        simp only [PostCall.allocated, Bool.and_eq_true, hb, Option.isNone_some,
          Bool.false_or] at halloc
        exact Option.isSome_iff_exists.mp halloc.2
      obtain ⟨junk, hjunk⟩ := hjunk
      obtain ⟨bytes, hread, hlen⟩ := hsrc halloc src hb
      obtain ⟨k, -, hrun1⟩ := post_event_copy w c.dev c.evt src c.buf_len c.env junk bytes hmsg
        hjunk (hs halloc) hlock hread hlen
      rw [hb] at hrun
      have heq := Outcome.ret.inj (hrun.symm.trans hrun1)
      rw [heq.1]
      exact ⟨rfl, by simp only [steps_of_append]; simp [steps_of]⟩
  · have hfalse : c.allocated = false := by simpa using halloc
    have hcase : c.env.msg = false ∨ (c.buffer.isSome = true ∧ c.env.buf = none) := by
      simp only [PostCall.allocated, Bool.and_eq_false_iff, Bool.or_eq_false_iff] at hfalse
      rcases hfalse with h | ⟨h1, h2⟩
      · exact Or.inl h
      · refine Or.inr ⟨?_, ?_⟩
        · cases hbf : c.buffer <;> simp [hbf] at h1 ⊢
        · cases hbf : c.env.buf <;> simp [hbf] at h2 ⊢
    by_cases hm : c.env.msg = false
    · have hrun1 : trwifi_post_event w c.dev c.evt c.buffer c.buf_len c.env
          = .ret (w.log (.kmm_zalloc false)) (-1) := by
        simp [trwifi_post_event, hm]
      have heq := Outcome.ret.inj (hrun.symm.trans hrun1)
      rw [heq.1]
      exact ⟨rfl, by simp only [World.log, steps_of_append]; simp [steps_of]⟩
    · obtain ⟨hb, hbuf⟩ := hcase.resolve_left hm
      obtain ⟨src, hsrc1⟩ := Option.isSome_iff_exists.mp hb
      have hrun1 : trwifi_post_event w c.dev c.evt c.buffer c.buf_len c.env
          = .ret ((w.log (.kmm_zalloc true)).log (.kmm_malloc c.buf_len none)) (-1) := by
        simp [trwifi_post_event, hm, hsrc1, hbuf, kmm_malloc, Outcome.andThen]
      have heq := Outcome.ret.inj (hrun.symm.trans hrun1)
      rw [heq.1]
      exact ⟨rfl, by simp only [World.log, steps_of_append]; simp [steps_of]⟩

theorem post_all_keeps (calls : List (PostCall D I)) (w : World D I) (hinv : QueueInv w)
    (hs : ∀ c ∈ calls, c.allocated = true → c.env.sound)
    (hL : ∀ c ∈ calls, c.buf_len < U32)
    (hsrc : ∀ c ∈ calls, c.allocated = true → ∀ a, c.buffer = some a →
      ∃ bytes, w.read a = some bytes ∧ c.buf_len ≤ bytes.length)
    (w1 : World D I) (rs : List Int) (hrun : post_all w calls = .ret w1 rs) :
    w1.ifstate = w.ifstate ∧ steps_of w1.trace = steps_of w.trace := by
  induction calls generalizing w w1 rs with
  | nil =>
    have heq := Outcome.ret.inj (hrun.symm.trans (rfl : post_all w [] = .ret w []))
    rw [heq.1]
    exact ⟨rfl, rfl⟩
  | cons c cs ih =>
    obtain ⟨wa, ext, hruna, hinva, hheap, -, -, -⟩ :=
      post_step w c hinv (hs c (by simp)) (hL c (by simp)) (hsrc c (by simp))
    obtain ⟨hifa, hstepsa⟩ := post_step_keeps w c hinv.1 (hs c (by simp)) (hsrc c (by simp))
      wa _ hruna
    have hsrc1 : ∀ c1 ∈ cs, c1.allocated = true → ∀ a, c1.buffer = some a →
        ∃ bytes, wa.read a = some bytes ∧ c1.buf_len ≤ bytes.length := by
      intro c1 hc1 ha1 a hb
      obtain ⟨bytes, hread, hlen⟩ := hsrc c1 (by simp [hc1]) ha1 a hb
      refine ⟨bytes, ?_, hlen⟩
      have := read_append_of_some w a bytes hread ext
      simpa [World.read, hheap] using this
    obtain ⟨wb, hrunb, -⟩ := post_all_enqueues cs wa hinva
      (fun c1 hc1 => hs c1 (by simp [hc1])) (fun c1 hc1 => hL c1 (by simp [hc1])) hsrc1
    obtain ⟨hifb, hstepsb⟩ := ih wa hinva (fun c1 hc1 => hs c1 (by simp [hc1]))
      (fun c1 hc1 => hL c1 (by simp [hc1])) hsrc1 wb _ hrunb
    have hall : post_all w (c :: cs) = .ret wb
        ((if c.allocated then 0 else -1) :: cs.map fun c => if c.allocated then 0 else -1) := by
      simp [post_all, hruna, Outcome.andThen, hrunb]
    have heq := Outcome.ret.inj (hrun.symm.trans hall)
    rw [heq.1]
    exact ⟨hifb.trans hifa, hstepsb.trans hstepsa⟩

theorem map_pair_of_maps {α β γ δ : Type} (f : α → γ) (f1 : β → γ) (g : α → δ) (g1 : β → δ)
    (l : List α) (l1 : List β) (h1 : l.map f = l1.map f1) (h2 : l.map g = l1.map g1) :
    l.map (fun x => (f x, g x)) = l1.map (fun x => (f1 x, g1 x)) := by
  induction l generalizing l1 with
  | nil =>
    cases l1 with
    | nil => rfl
    | cons b l1 => simp at h1
  | cons a l ih =>
    cases l1 with
    | nil => simp at h1
    | cons b l1 =>
      simp only [List.map_cons, List.cons.injEq] at h1 h2 ⊢
      exact ⟨by rw [h1.1, h2.1], ih l1 h1.2 h2.2⟩

theorem netop_calls_steps (t : List Effect) : netop_calls (steps_of t) = netop_calls t := by
  induction t with
  | nil => rfl
  | cons e t ih =>
    cases e <;> simp [steps_of, netop_calls, List.filter_cons, List.filterMap_cons] at ih ⊢ <;>
      exact ih

theorem netop_calls_handled (w : World D I) (l : List (PostCall D I)) :
    netop_calls (l.map (PostCall.handled w)).flatten = l.filterMap PostCall.netop := by
  induction l with
  | nil => rfl
  | cons c l ih =>
    simp only [List.map_cons, List.flatten_cons, netop_calls_append, ih, List.filterMap_cons]
    unfold PostCall.handled PostCall.netop
    cases c.dev <;> cases event_op c.evt <;> rfl

/-! ## Event handler: claim C20 -/

/-- C20: starting from an empty queue with a free lock, after any sequence of posts,
`n` handler passes (`n` at most the number of successful posts; semaphore calls,
`_trwifi_handle_event` and `lwnl_postmsg` not failing) make, for the first `n`
successful posts in post order, the interface operation of the event (softup for
STA-connected, softdown for STA-disconnected, none for another kind) and then its
`lwnl_postmsg` call, each event's two calls before any call of the next event. So the
interface operations are those of the events in post order, and the interface state
after `n` passes is the state after those operations in that order. -/
theorem handler_trace_in_order (w : World D I) (calls : List (PostCall D I))
    (envs : List HandlerEnv)
    (hempty : w.g_queue.queue = []) (hlock : 0 < w.g_queue.lock)
    (hs : ∀ c ∈ calls, c.allocated = true → c.env.sound)
    (hL : ∀ c ∈ calls, c.buf_len < U32)
    (hsrc : ∀ c ∈ calls, c.allocated = true → ∀ a, c.buffer = some a →
      ∃ bytes, w.read a = some bytes ∧ c.buf_len ≤ bytes.length)
    (hev : ∀ c ∈ calls, c.allocated = true → ∀ w0 : World D I,
      0 ≤ (_trwifi_handle_event w0 c.dev c.evt c.buffer c.buf_len).2)
    (hn : envs.length ≤ (calls.filter (·.allocated)).length)
    (he : ∀ o ∈ envs, o.sound) :
    ∃ w1 w2, post_all w calls = .ret w1 (calls.map fun c => if c.allocated then 0 else -1)
      ∧ handler_loop w1 envs = .ret w2 ()
      ∧ steps_of w2.trace
          = steps_of w.trace
            ++ (((calls.filter (·.allocated)).take envs.length).map
                  (PostCall.handled w)).flatten
      ∧ netop_calls w2.trace
          = netop_calls w.trace
            ++ ((calls.filter (·.allocated)).take envs.length).filterMap PostCall.netop
      ∧ w2.ifstate
          = ((calls.filter (·.allocated)).take envs.length).foldl (fun i c => c.effect i)
              w.ifstate := by
  obtain ⟨w1, hrun, hinv1, hpend, hmap, -⟩ :=
    post_all_enqueues calls w (queueInv_of_empty w hempty hlock) hs hL hsrc
  obtain ⟨hif1, hsteps1⟩ :=
    post_all_keeps calls w (queueInv_of_empty w hempty hlock) hs hL hsrc w1 _ hrun
  have hmap1 : w1.g_queue.queue.map (fun r => (r.dev, r.evt))
      = (calls.filter (·.allocated)).map (fun c => (c.dev, c.evt)) := by
    rw [hmap, hempty]; rfl
  have hpend1 : w1.g_queue.queue.map (fun r => (r.evt, r.buf.bind w1.read, r.buf_len))
      = (calls.filter (·.allocated)).map (PostCall.carried w) := by
    have : pending w = [] := by simp [pending, hempty]
    rw [this] at hpend
    simpa [pending] using hpend
  have hpair := map_pair_of_maps _ _ _ _ _ _ hmap1 hpend1
  have hqlen : w1.g_queue.queue.length = (calls.filter (·.allocated)).length := by
    have := congrArg List.length hmap1
    simpa using this
  have hev1 : ∀ r ∈ w1.g_queue.queue, ∀ w0 : World D I,
      0 ≤ (_trwifi_handle_event w0 r.dev r.evt r.buf r.buf_len).2 := by
    intro r hr w0
    have hmem : (r.dev, r.evt) ∈ w1.g_queue.queue.map (fun r => (r.dev, r.evt)) :=
      List.mem_map.mpr ⟨r, hr, rfl⟩
    rw [hmap1] at hmem
    simp only [List.mem_map, List.mem_filter] at hmem
    obtain ⟨c, ⟨hc, hal⟩, heq⟩ := hmem
    have h1 : c.dev = r.dev := congrArg Prod.fst heq
    have h2 : c.evt = r.evt := congrArg Prod.snd heq
    have := hev c hc hal w0
    rw [h1, h2] at this
    rw [handle_event_args w0 r.dev r.evt r.buf c.buffer r.buf_len c.buf_len]
    exact this
  obtain ⟨w2, hrun2, hsteps2, hif2⟩ :=
    handler_loop_steps envs w1 hinv1 (by rw [hqlen]; exact hn) he hev1
  have hsteps_eq : (w1.g_queue.queue.take envs.length).map (trwifi_evt.steps w1)
      = ((calls.filter (·.allocated)).take envs.length).map (PostCall.handled w) := by
    have h := congrArg (fun l => (l.take envs.length).map
      (fun p : (Option (netdev D I) × lwnl_cb_wifi) × (lwnl_cb_wifi × Option (List Nat) × Nat) =>
        (match p.1.1, event_op p.1.2 with
          | some d, some op => [Effect.netop op d.ifname]
          | _, _ => [])
        ++ [Effect.lwnl_postmsg p.2.1 p.2.2.1 p.2.2.2])) hpair
    simp only [← List.map_take, List.map_map] at h
    exact h
  have heff_eq : (w1.g_queue.queue.take envs.length).foldl (fun i r => r.effect i) w1.ifstate
      = ((calls.filter (·.allocated)).take envs.length).foldl (fun i c => c.effect i)
          w.ifstate := by
    have h := congrArg (fun l => (l.take envs.length).foldl
      (fun (i : I) (p : Option (netdev D I) × lwnl_cb_wifi) =>
        match p.1, event_op p.2 with
        | some d, some op => (d.ops.run op i).1
        | _, _ => i) w.ifstate) hmap1
    simp only [← List.map_take, List.foldl_map] at h
    rw [hif1]
    exact h
  have hsteps_all : steps_of w2.trace
      = steps_of w.trace
        ++ (((calls.filter (·.allocated)).take envs.length).map
              (PostCall.handled w)).flatten := by
    rw [hsteps2, hsteps1, hsteps_eq]
  refine ⟨w1, w2, hrun, hrun2, hsteps_all, ?_, ?_⟩
  · rw [← netop_calls_steps w2.trace, hsteps_all, netop_calls_append, netop_calls_steps,
      netop_calls_handled]
  · rw [hif2, heff_eq]

/-- Worked instance of C20 (scenario A): after the posts STA-connected,
STA-disconnected, STA-connected, three handler passes call softup, forward, call
softdown, forward, call softup, forward, in that order, and the interface is up after
the first pass, down after the second and up after the third. -/
theorem handler_trace_in_order_witness :
    (∃ w1 w2, post_all demo_world scenario_a = .ret w1 [0, 0, 0]
      ∧ handler_loop w1 [pass_ok, pass_ok, pass_ok] = .ret w2 ()
      ∧ steps_of w2.trace
          = [.netop .softup 0, .lwnl_postmsg .LWNL_EVT_STA_CONNECTED none 0,
             .netop .softdown 0, .lwnl_postmsg .LWNL_EVT_STA_DISCONNECTED none 0,
             .netop .softup 0, .lwnl_postmsg .LWNL_EVT_STA_CONNECTED none 0]
      ∧ netop_calls w2.trace = [(.softup, 0), (.softdown, 0), (.softup, 0)]
      ∧ w2.ifstate = true)
    ∧ (∃ w1 w2, post_all demo_world scenario_a = .ret w1 [0, 0, 0]
        ∧ handler_loop w1 [pass_ok] = .ret w2 () ∧ w2.ifstate = true)
    ∧ (∃ w1 w2, post_all demo_world scenario_a = .ret w1 [0, 0, 0]
        ∧ handler_loop w1 [pass_ok, pass_ok] = .ret w2 () ∧ w2.ifstate = false) := by
  refine ⟨?_, ⟨_, _, rfl, rfl, rfl⟩, ⟨_, _, rfl, rfl, rfl⟩⟩
  exact handler_trace_in_order demo_world scenario_a [pass_ok, pass_ok, pass_ok] rfl
    (by decide)
    (by
      intro c hc _
      simp only [scenario_a, List.mem_cons, List.mem_singleton, List.not_mem_nil,
        or_false] at hc
      rcases hc with rfl | rfl | rfl <;> simp [PostEnv.sound, post_ok])
    (by
      intro c hc
      simp only [scenario_a, List.mem_cons, List.mem_singleton, List.not_mem_nil,
        or_false] at hc
      rcases hc with rfl | rfl | rfl <;> simp [U32])
    (by
      intro c hc _ a ha
      simp only [scenario_a, List.mem_cons, List.mem_singleton, List.not_mem_nil,
        or_false] at hc
      rcases hc with rfl | rfl | rfl <;> cases ha)
    (by
      intro c hc _ w0
      simp only [scenario_a, List.mem_cons, List.mem_singleton, List.not_mem_nil,
        or_false] at hc
      rcases hc with rfl | rfl | rfl <;>
        simp [_trwifi_handle_event, ND_NETOPS, netdev_ops.run, wlan_demo, updown_ops])
    (by decide)
    (by
      intro o ho
      simp only [List.mem_cons, List.mem_singleton, List.not_mem_nil, or_false] at ho
      rcases ho with rfl | rfl | rfl <;> simp [HandlerEnv.sound, pass_ok])

/-! ## Reload path: claim C23 -/

/-- C23: `netdev_deinit_wifi` returns `TRWIFI_FAIL` when `nm_get_netdev("wlan0")` finds
no device and when the device's `deinit` slot is empty; otherwise it calls that slot
once and returns exactly its result. In every case, a `TRWIFI_SUCCESS` result included,
it makes no interface-state operation and leaves the interface state as it was, whereas
`netdev_handle_wifi` with `LWNL_REQ_WIFI_DEINIT` follows a successful slot by one
`ifdown`. -/
theorem deinit_wifi_bypasses_reconciliation (homelynk : Bool) (w : World D I)
    (data : Option (List Nat)) (len : Nat) :
    netdev_deinit_wifi w none = .ret w TRWIFI_FAIL
      ∧ (∀ d : netdev D I, d.wl.deinit = none →
          netdev_deinit_wifi w (some d) = .ret w TRWIFI_FAIL)
      ∧ (∀ (d : netdev D I) (f : Unit → D → D × trwifi_result_e), d.wl.deinit = some f →
          netdev_deinit_wifi w (some d)
            = .ret { w with drv := (f () w.drv).1, trace := w.trace ++ [.drv .deinit d.ifname] }
                (f () w.drv).2)
      ∧ (∀ wlan0 : Option (netdev D I),
          netop_calls (netdev_deinit_wifi w wlan0).state.trace = netop_calls w.trace
            ∧ (netdev_deinit_wifi w wlan0).state.ifstate = w.ifstate)
      ∧ (∀ (d : netdev D I) (f : Unit → D → D × trwifi_result_e), d.wl.deinit = some f →
          (f () w.drv).2 = TRWIFI_SUCCESS →
          netop_calls (netdev_handle_wifi homelynk w (some d) ⟨.LWNL_REQ_WIFI_DEINIT⟩ data
              len).state.trace = netop_calls w.trace ++ [(.ifdown, d.ifname)]
            ∧ (netdev_handle_wifi homelynk w (some d) ⟨.LWNL_REQ_WIFI_DEINIT⟩ data
                len).state.ifstate = (d.ops.ifdown w.ifstate).1) := by
  refine ⟨rfl, ?_, ?_, ?_, ?_⟩
  · intro d hd
    simp [netdev_deinit_wifi, TRWIFI_CALL, hd]
  · intro d f hd
    simp [netdev_deinit_wifi, TRWIFI_CALL, hd, World.log]
  · intro wlan0
    cases wlan0 with
    | none => exact ⟨rfl, rfl⟩
    | some d =>
      cases hd : d.wl.deinit with
      | none => simp [netdev_deinit_wifi, TRWIFI_CALL, hd, Outcome.state]
      | some f =>
        simp only [netdev_deinit_wifi, TRWIFI_CALL, hd, World.log, Outcome.state,
          netop_calls_append]
        exact ⟨by simp [netop_calls], trivial⟩
  · intro d f hd hres
    have hinv := handle_wifi_invoked homelynk w d ⟨.LWNL_REQ_WIFI_DEINIT⟩ data len .deinit
      (f ()) rfl (by simp [slot_invoke, hd])
    rw [hinv, hres]
    simp only [reconcile, if_true, _trwifi_handle_command, ND_NETOPS, World.log, netdev_ops.run]
    by_cases hneg : (d.ops.ifdown w.ifstate).2 < 0
    · simp only [hneg, if_true, Outcome.state, netop_calls_append, netop_calls_before_slot,
        List.append_nil]
      exact ⟨by simp [netop_calls], trivial⟩
    · simp only [hneg, if_false, Outcome.state, netop_calls_append, netop_calls_before_slot,
        List.append_nil]
      exact ⟨by simp [netop_calls], trivial⟩

/-! ## Event queue: claim C22 -/

/-- C22: a post with a null buffer ignores the length passed: whatever `buf_len` is, the
record appended has `buf = NULL` and `buf_len = 0`, the store is untouched and the only
allocator call is the `kmm_zalloc` of the record (no `kmm_malloc`); when the handler has
worked through the queue, its `lwnl_postmsg` call for this event carries a null payload
and length 0. -/
theorem post_event_null_buffer (w : World D I) (dev : Option (netdev D I))
    (evt : lwnl_cb_wifi) (buf_len : Nat) (o : PostEnv) (envs : List HandlerEnv)
    (hmsg : o.msg = true) (hs : o.sound) (hinv : QueueInv w)
    (hq : ∀ r ∈ w.g_queue.queue, ∀ w0 : World D I,
      0 ≤ (_trwifi_handle_event w0 r.dev r.evt r.buf r.buf_len).2)
    (hnew : ∀ w0 : World D I, 0 ≤ (_trwifi_handle_event w0 dev evt none buf_len).2)
    (hn : envs.length = w.g_queue.queue.length + 1)
    (he : ∀ o ∈ envs, o.sound) :
    ∃ w1 w2, trwifi_post_event w dev evt none buf_len o = .ret w1 0
      ∧ w1.g_queue.queue = w.g_queue.queue
          ++ [{ evt := evt, dev := dev, buf := none, buf_len := 0 }]
      ∧ w1.heap = w.heap
      ∧ w1.trace = w.trace ++ [.kmm_zalloc true]
      ∧ handler_loop w1 envs = .ret w2 ()
      ∧ (delivered w2.trace).getLast? = some (evt, none, 0) := by
  obtain ⟨hlock, hsig, hnd, hbd⟩ := hinv
  obtain ⟨k, hk, hrun⟩ := post_event_null w dev evt buf_len o hmsg hs hlock
  obtain ⟨W1, hW1⟩ : ∃ W1 : World D I, W1 = { w with
      g_queue := { lock := k, signal := w.g_queue.signal + 1,
                   queue := w.g_queue.queue
                     ++ [{ evt := evt, dev := dev, buf := none, buf_len := 0 }] },
      trace := w.trace ++ [.kmm_zalloc true] } := ⟨_, rfl⟩
  rw [← hW1] at hrun
  have hheap : W1.heap = w.heap := by rw [hW1]
  have hqueue : W1.g_queue.queue = w.g_queue.queue
      ++ [{ evt := evt, dev := dev, buf := none, buf_len := 0 }] := by rw [hW1]
  have hlockW : W1.g_queue.lock = k := by rw [hW1]
  have hsigW : W1.g_queue.signal = w.g_queue.signal + 1 := by rw [hW1]
  have htrace : W1.trace = w.trace ++ [.kmm_zalloc true] := by rw [hW1]
  have hown : owned W1 = owned w := by
    simp [owned, hqueue, List.filterMap_append]
  have hinv1 : QueueInv W1 := by
    refine ⟨by rw [hlockW]; exact hk, ?_, by rw [hown]; exact hnd, ?_⟩
    · rw [hqueue, hsigW]; simp; omega
    · intro a ha
      rw [hheap]
      exact hbd a (by rw [← hown]; exact ha)
  obtain ⟨w2, hrun2, hdel2, -⟩ := handler_loop_delivers envs W1 hinv1
    (by rw [hqueue]; simp [hn])
    he
    (by
      intro r hr w0
      rw [hqueue] at hr
      simp only [List.mem_append, List.mem_singleton] at hr
      rcases hr with hr | rfl
      · exact hq r hr w0
      · exact hnew w0)
  refine ⟨W1, w2, hrun, hqueue, hheap, htrace, hrun2, ?_⟩
  rw [hdel2]
  have hlenp : envs.length = (pending W1).length := by
    simp [pending, hqueue, hn]
  rw [hlenp, List.take_length]
  simp only [pending, hqueue, List.map_append, List.map_cons, List.map_nil, Option.none_bind]
  rw [← List.append_assoc, List.getLast?_concat]

/-- Worked instance of C22: an event posted with a null buffer and length 9 is queued
with length 0, no block is added to the store, and the handler forwards it with a null
payload and length 0. -/
theorem post_event_null_buffer_witness :
    ∃ w1 w2,
      trwifi_post_event demo_world (some wlan_demo) .LWNL_EVT_STA_DISCONNECTED none 9 post_ok
        = .ret w1 0
      ∧ w1.g_queue.queue = demo_world.g_queue.queue
          ++ [{ evt := .LWNL_EVT_STA_DISCONNECTED, dev := some wlan_demo, buf := none,
                buf_len := 0 }]
      ∧ w1.heap = demo_world.heap
      ∧ w1.trace = demo_world.trace ++ [.kmm_zalloc true]
      ∧ handler_loop w1 [pass_ok] = .ret w2 ()
      ∧ (delivered w2.trace).getLast? = some (.LWNL_EVT_STA_DISCONNECTED, none, 0) :=
  post_event_null_buffer demo_world (some wlan_demo) .LWNL_EVT_STA_DISCONNECTED 9 post_ok
    [pass_ok] rfl (by simp [PostEnv.sound, post_ok])
    (queueInv_of_empty demo_world rfl (by decide))
    (by intro r hr; simp [demo_world] at hr)
    (by intro w0; simp [_trwifi_handle_event, ND_NETOPS, netdev_ops.run, wlan_demo, updown_ops])
    rfl
    (by intro o ho; simp at ho; subst ho; simp [HandlerEnv.sound, pass_ok])

/-! ## Facts about runs of the event queue -/

theorem andThen_eq_ret {σ α β : Type} (x : Outcome σ α) (f : σ → α → Outcome σ β) (s : σ) (b : β)
    (h : x.andThen f = .ret s b) : ∃ s1 a, x = .ret s1 a ∧ f s1 a = .ret s b := by
  cases x with
  | ret s1 a => exact ⟨s1, a, rfl, h⟩
  | fatal s1 => simp [Outcome.andThen] at h
  | fault s1 => simp [Outcome.andThen] at h
  | blocked s1 => simp [Outcome.andThen] at h

theorem enqueue_ret (w3 : World D I) (msg1 : trwifi_evt D I) (o : PostEnv) (w1 : World D I)
    (r : Int)
    (h : ((LOCK_EVTQUEUE w3 o.lock).andThen fun w4 _ =>
          (UNLOCK_EVTQUEUE (sq_addlast msg1 w4) o.unlock).andThen fun w5 _ =>
          (SIGNAL_EVTQUEUE w5 o.signal).andThen fun w6 _ =>
          (.ret w6 0 : Outcome (World D I) Int)) = .ret w1 r) :
    r = 0 ∧ w1.g_queue.queue = w3.g_queue.queue ++ [msg1]
      ∧ w1.g_queue.signal = w3.g_queue.signal + 1
      ∧ (0 < w3.g_queue.lock → 0 < w1.g_queue.lock) := by
  rcases hl : o.lock with _ | _ | e <;> cases hu : o.unlock <;> cases hs : o.signal <;>
    by_cases hz : w3.g_queue.lock = 0 <;>
    simp [hl, hu, hs, hz, Outcome.andThen, LOCK_EVTQUEUE, UNLOCK_EVTQUEUE, SIGNAL_EVTQUEUE,
      sq_addlast] at h
  all_goals
    obtain ⟨rfl, rfl⟩ := h
    simp

theorem memcpy_keeps_queue (w : World D I) (dst off : Nat) (src : List Nat) (n : Nat)
    (w2 : World D I) (h : memcpy w dst off src n = some w2) : w2.g_queue = w.g_queue := by
  unfold memcpy at h
  cases hr : w.read dst with
  | none => simp [hr] at h
  | some blk =>
    simp only [hr] at h
    split at h
    · cases h
    · cases h
      rfl

theorem post_event_ret (w : World D I) (dev : Option (netdev D I)) (evt : lwnl_cb_wifi)
    (buffer : Option Nat) (buf_len : Nat) (o : PostEnv) (w1 : World D I) (r : Int)
    (h : trwifi_post_event w dev evt buffer buf_len o = .ret w1 r) :
    (r = -1 ∧ w1.g_queue = w.g_queue)
      ∨ (r = 0 ∧ ∃ m : trwifi_evt D I, w1.g_queue.queue = w.g_queue.queue ++ [m]
          ∧ w1.g_queue.signal = w.g_queue.signal + 1
          ∧ (0 < w.g_queue.lock → 0 < w1.g_queue.lock) ∧ m.evt = evt ∧ m.dev = dev) := by
  by_cases hmsg : o.msg = false
  · simp [trwifi_post_event, hmsg] at h
    obtain ⟨rfl, rfl⟩ := h
    exact Or.inl ⟨rfl, rfl⟩
  · cases buffer with
    | none =>
      have h1 : trwifi_post_event w dev evt none buf_len o
          = ((LOCK_EVTQUEUE (w.log (.kmm_zalloc true)) o.lock).andThen fun w4 _ =>
              (UNLOCK_EVTQUEUE (sq_addlast { evt := evt, dev := dev, buf := none, buf_len := 0 }
                w4) o.unlock).andThen fun w5 _ =>
              (SIGNAL_EVTQUEUE w5 o.signal).andThen fun w6 _ =>
              (.ret w6 0 : Outcome (World D I) Int)) := by
        simp [trwifi_post_event, hmsg, Outcome.andThen]
      rw [h1] at h
      obtain ⟨hr, hq, hsg, hl⟩ := enqueue_ret _ _ o w1 r h
      exact Or.inr ⟨hr, _, hq, hsg, hl, rfl, rfl⟩
    | some src =>
      cases hbuf : o.buf with
      | none =>
        simp [trwifi_post_event, hmsg, hbuf, kmm_malloc, Outcome.andThen] at h
        obtain ⟨rfl, rfl⟩ := h
        exact Or.inl ⟨rfl, rfl⟩
      | some junk =>
        obtain ⟨W, hW⟩ : ∃ W : World D I,
            W = (kmm_malloc (w.log (.kmm_zalloc true)) buf_len (some junk)).1 := ⟨_, rfl⟩
        have hWq : W.g_queue = w.g_queue := by rw [hW]; rfl
        obtain ⟨m1, hm1⟩ : ∃ m1 : trwifi_evt D I,
            m1 = ⟨evt, dev, some w.heap.length, buf_len % U32⟩ := ⟨_, rfl⟩
        have hform : trwifi_post_event w dev evt (some src) buf_len o
            = match W.read src with
              | none => .fault W
              | some bytes =>
                match memcpy W w.heap.length 0 bytes buf_len with
                | none => .fault W
                | some w2 =>
                  (LOCK_EVTQUEUE w2 o.lock).andThen fun w4 _ =>
                  (UNLOCK_EVTQUEUE (sq_addlast m1 w4) o.unlock).andThen fun w5 _ =>
                  (SIGNAL_EVTQUEUE w5 o.signal).andThen fun w6 _ =>
                  (.ret w6 0 : Outcome (World D I) Int) := by
          rw [hW, hm1]
          simp only [trwifi_post_event, hmsg, hbuf, kmm_malloc, if_false]
          cases hr : World.read _ src with
          | none => simp [World.log, Outcome.andThen, hr]
          | some bytes =>
            simp only [World.log, Bool.true_eq_false, if_false]
            generalize memcpy _ _ _ _ _ = x
            cases x <;> rfl
        rw [hform] at h
        cases hr : W.read src with
        | none => simp [hr] at h
        | some bytes =>
          simp only [hr] at h
          cases hc : memcpy W w.heap.length 0 bytes buf_len with
          | none => simp [hc] at h
          | some w2 =>
            simp only [hc] at h
            obtain ⟨hr0, hq, hsg, hl⟩ := enqueue_ret w2 m1 o w1 r h
            have hq2 : w2.g_queue = w.g_queue :=
              (memcpy_keeps_queue W _ _ _ _ w2 hc).trans hWq
            rw [hq2] at hq hsg hl
            exact Or.inr ⟨hr0, m1, hq, hsg, hl, by rw [hm1], by rw [hm1]⟩

theorem wait_ret (w w1 : World D I) (u : Unit) (h : WAIT_EVTQUEUE w .acquired = .ret w1 u) :
    0 < w.g_queue.signal ∧ w1.g_queue.signal = w.g_queue.signal - 1
      ∧ w1.g_queue.queue = w.g_queue.queue := by
  by_cases hs : w.g_queue.signal = 0
  · simp [WAIT_EVTQUEUE, hs] at h
  · simp only [WAIT_EVTQUEUE, hs, if_false] at h
    obtain ⟨rfl, _⟩ := Outcome.ret.inj h
    exact ⟨Nat.pos_of_ne_zero hs, rfl, rfl⟩

theorem lock_ret (w w1 : World D I) (l : SemWait) (u : Unit)
    (h : LOCK_EVTQUEUE w l = .ret w1 u) :
    w1.g_queue.signal = w.g_queue.signal ∧ w1.g_queue.queue = w.g_queue.queue := by
  rcases l with _ | _ | e
  · by_cases hs : w.g_queue.lock = 0
    · simp [LOCK_EVTQUEUE, hs] at h
    · simp only [LOCK_EVTQUEUE, hs, if_false] at h
      obtain ⟨rfl, _⟩ := Outcome.ret.inj h
      exact ⟨rfl, rfl⟩
  · simp only [LOCK_EVTQUEUE] at h
    obtain ⟨rfl, _⟩ := Outcome.ret.inj h
    exact ⟨rfl, rfl⟩
  · simp [LOCK_EVTQUEUE] at h

theorem unlock_ret (w w1 : World D I) (ok : Bool) (u : Unit)
    (h : UNLOCK_EVTQUEUE w ok = .ret w1 u) :
    w1.g_queue.signal = w.g_queue.signal ∧ w1.g_queue.queue = w.g_queue.queue := by
  cases ok
  · simp [UNLOCK_EVTQUEUE] at h
  · simp only [UNLOCK_EVTQUEUE, if_true] at h
    obtain ⟨rfl, _⟩ := Outcome.ret.inj h
    exact ⟨rfl, rfl⟩

theorem handler_ret (w : World D I) (o : HandlerEnv) (w1 : World D I) (u : Unit)
    (hw : o.wait = .acquired) (h : _trwifi_event_handler w o = .ret w1 u) :
    0 < w.g_queue.signal ∧ w1.g_queue.signal = w.g_queue.signal - 1
      ∧ ∃ r, w.g_queue.queue = r :: w1.g_queue.queue := by
  unfold _trwifi_event_handler at h
  rw [hw] at h
  obtain ⟨wa, ua, hwait, h⟩ := andThen_eq_ret _ _ _ _ h
  obtain ⟨wb, ub, hlock, h⟩ := andThen_eq_ret _ _ _ _ h
  obtain ⟨wc, uc, hunlock, h⟩ := andThen_eq_ret _ _ _ _ h
  obtain ⟨hpos, hs1, hq1⟩ := wait_ret _ _ _ hwait
  obtain ⟨hs2, hq2⟩ := lock_ret _ _ _ _ hlock
  obtain ⟨hs3, hq3⟩ := unlock_ret _ _ _ _ hunlock
  cases hq : wb.g_queue.queue with
  | nil => simp [sq_remfirst, hq] at h
  | cons r rest =>
    simp only [sq_remfirst, hq] at h hs3 hq3
    have hk := (handle_event_keeps wc r.dev r.evt r.buf r.buf_len).2.2
    have hg : w1.g_queue = wc.g_queue := by
      split at h
      · cases h
      · split at h
        · cases h
        · obtain ⟨rfl, _⟩ := Outcome.ret.inj h
          cases r.buf <;> simpa [World.log, kmm_free] using hk
    refine ⟨hpos, ?_, r, ?_⟩
    · rw [hg, hs3, hs2, hs1]
    · rw [hg, hq3, ← hq1, ← hq2, hq]

theorem handler_no_fault (w : World D I) (o : HandlerEnv) (s : World D I)
    (hw : o.wait = .acquired) (hinv : w.g_queue.signal ≤ w.g_queue.queue.length) :
    _trwifi_event_handler w o ≠ .fault s := by
  intro h
  unfold _trwifi_event_handler at h
  rw [hw] at h
  by_cases hs : w.g_queue.signal = 0
  · simp [WAIT_EVTQUEUE, hs, Outcome.andThen] at h
  · cases hq : w.g_queue.queue with
    | nil => rw [hq] at hinv; exact hs (Nat.le_zero.mp hinv)
    | cons r rest =>
      rcases hl : o.lock with _ | _ | e <;> cases hu : o.unlock <;>
        by_cases hz : w.g_queue.lock = 0 <;>
        simp [WAIT_EVTQUEUE, LOCK_EVTQUEUE, UNLOCK_EVTQUEUE, sq_remfirst, hs, hl, hu, hz, hq,
          Outcome.andThen] at h
      all_goals
        split at h
        · cases h
        · split at h <;> cases h

theorem run_handler_ok (w0 : World D I) (ro : RunEnv) (h : (trwifi_run_handler w0 ro).2 = 0) :
    (trwifi_run_handler w0 ro).1.g_queue
      = { lock := 1, signal := 0, queue := w0.g_queue.queue } := by
  unfold trwifi_run_handler at h ⊢
  cases h1 : ro.init_lock <;> cases h2 : ro.init_signal <;> cases h3 : ro.thread <;>
    simp [h1, h2, h3] at h ⊢

theorem run_steps_inv (P : trwifi_evt D I → Prop) (steps : List (Step D I)) (w : World D I)
    (h : List (trwifi_evt D I)) (w1 : World D I) (h1 : List (trwifi_evt D I))
    (hsig : w.g_queue.signal ≤ w.g_queue.queue.length)
    (hmem : ∀ r ∈ w.g_queue.queue, r ∈ h) (hP : ∀ r ∈ h, P r)
    (hsteps : ∀ c, Step.post c ∈ steps → ∀ r : trwifi_evt D I, r.evt = c.evt → r.dev = c.dev → P r)
    (hw : waits_acquired steps = true)
    (hr : run_steps w h steps = some (w1, h1)) :
    w1.g_queue.signal ≤ w1.g_queue.queue.length ∧ (∀ r ∈ w1.g_queue.queue, r ∈ h1)
      ∧ ∀ r ∈ h1, P r := by
  induction steps generalizing w h with
  | nil =>
    simp only [run_steps, Option.some.injEq, Prod.mk.injEq] at hr
    obtain ⟨rfl, rfl⟩ := hr
    exact ⟨hsig, hmem, hP⟩
  | cons st rest ih =>
    have hrest : ∀ c, Step.post c ∈ rest → ∀ r : trwifi_evt D I,
        r.evt = c.evt → r.dev = c.dev → P r :=
      fun c hc => hsteps c (List.mem_cons_of_mem _ hc)
    cases st with
    | post c =>
      simp only [run_steps] at hr
      simp only [waits_acquired] at hw
      cases hp : trwifi_post_event w c.dev c.evt c.buffer c.buf_len c.env with
      | ret w2 r =>
        rw [hp] at hr
        simp only at hr
        rcases post_event_ret _ _ _ _ _ _ _ _ hp with ⟨_, hg⟩ | ⟨_, m, hq, hs, _, he, hd⟩
        · rw [hg] at hr
          simp only [List.drop_length, List.append_nil] at hr
          exact ih w2 h (by rw [hg]; exact hsig) (by rw [hg]; exact hmem) hP hrest hw hr
        · rw [hq] at hr
          simp only [List.drop_left] at hr
          refine ih w2 (h ++ [m]) ?_ ?_ ?_ hrest hw hr
          · rw [hq, hs, List.length_append]
            simp only [List.length_singleton]
            omega
          · intro r hr2
            rw [hq] at hr2
            rcases List.mem_append.mp hr2 with h3 | h3
            · exact List.mem_append_left _ (hmem r h3)
            · exact List.mem_append_right _ h3
          · intro r hr2
            rcases List.mem_append.mp hr2 with h3 | h3
            · exact hP r h3
            · rw [List.mem_singleton] at h3
              subst h3
              exact hsteps c (List.mem_cons_self _ _) r he hd
      | fatal s => rw [hp] at hr; cases hr
      | fault s => rw [hp] at hr; cases hr
      | blocked s => rw [hp] at hr; cases hr
    | pass o =>
      simp only [run_steps] at hr
      have hwo : o.wait = .acquired ∧ waits_acquired rest = true := by
        simp only [waits_acquired] at hw
        cases ho : o.wait <;> simp [ho] at hw ⊢
        exact hw
      cases hp : _trwifi_event_handler w o with
      | ret w2 u =>
        rw [hp] at hr
        simp only at hr
        obtain ⟨hpos, hs, r0, hq⟩ := handler_ret w o w2 u hwo.1 hp
        refine ih w2 h ?_ ?_ hP hrest hwo.2 hr
        · rw [hq, List.length_cons] at hsig
          omega
        · intro r hr2
          exact hmem r (by rw [hq]; exact List.mem_cons_of_mem _ hr2)
      | fatal s => rw [hp] at hr; cases hr
      | fault s => rw [hp] at hr; cases hr
      | blocked s => rw [hp] at hr; cases hr

/-! ## Event queue: claim C21 -/

/-- C21: dequeue safety. Take a state reached from a successful
`trwifi_run_handler` on an empty queue by calls of `trwifi_post_event` and handler
passes whose `WAIT_EVTQUEUE` took a wake token. A further such pass never reads
through a null entry: when it gets to `sq_remfirst` the queue is not empty, and the
entry it removes is a record that a `trwifi_post_event` call of the run put in the
queue, carrying the event and the device of that call. -/
theorem dequeue_never_null (w0 : World D I) (ro : RunEnv) (steps : List (Step D I))
    (w : World D I) (h : List (trwifi_evt D I)) (o : HandlerEnv)
    (hq0 : w0.g_queue.queue = []) (hrun : (trwifi_run_handler w0 ro).2 = 0)
    (hsteps : waits_acquired steps = true)
    (hreach : run_steps (trwifi_run_handler w0 ro).1 [] steps = some (w, h))
    (hw : o.wait = .acquired) :
    (∀ s, _trwifi_event_handler w o ≠ .fault s)
      ∧ ∀ w1 w2 : World D I, WAIT_EVTQUEUE w o.wait = .ret w1 () →
          LOCK_EVTQUEUE w1 o.lock = .ret w2 () →
          w2.g_queue.queue ≠ []
            ∧ ∃ r, (sq_remfirst w2).2 = some r ∧ r ∈ h
                ∧ ∃ c, Step.post c ∈ steps ∧ r.evt = c.evt ∧ r.dev = c.dev := by
  have hg := run_handler_ok w0 ro hrun
  rw [hq0] at hg
  obtain ⟨hsig, hmem, hP⟩ := run_steps_inv
    (fun r => ∃ c, Step.post c ∈ steps ∧ r.evt = c.evt ∧ r.dev = c.dev) steps
    (trwifi_run_handler w0 ro).1 [] w h (by rw [hg]; exact Nat.le_refl 0)
    (by rw [hg]; intro r hr; cases hr) (by intro r hr; cases hr)
    (fun c hc r he hd => ⟨c, hc, he, hd⟩) hsteps hreach
  refine ⟨fun s => handler_no_fault w o s hw hsig, ?_⟩
  intro w1 w2 hwait hlock
  rw [hw] at hwait
  obtain ⟨hpos, _, hq1⟩ := wait_ret _ _ _ hwait
  obtain ⟨_, hq2⟩ := lock_ret _ _ _ _ hlock
  have hq : w2.g_queue.queue = w.g_queue.queue := hq2.trans hq1
  cases hw2 : w.g_queue.queue with
  | nil =>
    rw [hw2] at hsig
    exact absurd (Nat.le_zero.mp hsig) (Nat.ne_of_gt hpos)
  | cons r rest =>
    rw [hw2] at hq
    have hr : r ∈ h := hmem r (by rw [hw2]; exact List.mem_cons_self _ _)
    refine ⟨by rw [hq]; exact List.cons_ne_nil _ _, r, ?_, hr, hP r hr⟩
    simp [sq_remfirst, hq]

/-- Worked instance of C21: after boot, a successful `trwifi_run_handler`, two posts and
one handler pass, the next pass finds the second record in the queue. -/
theorem dequeue_never_null_witness :
    ∃ (w : World Nat Bool) (h : List (trwifi_evt Nat Bool)),
      run_steps (trwifi_run_handler (World.boot 0 false) run_ok).1 []
          [.post ⟨some wlan_demo, .LWNL_EVT_STA_CONNECTED, none, 0, post_ok⟩,
           .post ⟨some wlan_demo, .LWNL_EVT_STA_DISCONNECTED, none, 0, post_ok⟩,
           .pass pass_ok] = some (w, h)
      ∧ (∀ s, _trwifi_event_handler w pass_ok ≠ .fault s)
      ∧ ∀ w1 w2 : World Nat Bool, WAIT_EVTQUEUE w pass_ok.wait = .ret w1 () →
          LOCK_EVTQUEUE w1 pass_ok.lock = .ret w2 () →
          w2.g_queue.queue ≠ []
            ∧ ∃ r, (sq_remfirst w2).2 = some r ∧ r ∈ h
                ∧ ∃ c, Step.post c ∈
                    [Step.post ⟨some wlan_demo, .LWNL_EVT_STA_CONNECTED, none, 0, post_ok⟩,
                     .post ⟨some wlan_demo, .LWNL_EVT_STA_DISCONNECTED, none, 0, post_ok⟩,
                     .pass pass_ok]
                  ∧ r.evt = c.evt ∧ r.dev = c.dev :=
  ⟨_, _, rfl, dequeue_never_null (World.boot 0 false) run_ok _ _ _ pass_ok rfl rfl rfl rfl rfl⟩

end NetdevWifi

namespace Ist415

/-! ## Facts about the polling loop -/

theorem first_valid_bounds (K : Consts) (flag : Nat) (seen : Nat → Nat × Nat) (n k j : Nat)
    (h : first_valid K flag seen n k = some j) : k ≤ j ∧ j < k + n := by
  induction n generalizing k with
  | zero => simp [first_valid] at h
  | succ n ih =>
    simp only [first_valid] at h
    split at h
    · cases h
      omega
    · have := ih (k + 1) h
      omega

theorem poll_loop_step (K : Consts) (flag : Nat) (seen : Nat → Nat × Nat) (n k : Nat)
    (s : State) :
    (valid_result K flag (seen k) = true
        → (poll_loop K flag seen (n + 1) k s).1 = (n : Int)
          ∧ (poll_loop K flag seen (n + 1) k s).2.calls = s.calls ++ [.msleep 100])
      ∧ (valid_result K flag (seen k) = false
        → poll_loop K flag seen (n + 1) k s
          = poll_loop K flag seen n (k + 1)
              { dev := { s.dev with cmcs := (seen k).1, cmcs_msg := (seen k).2 },
                calls := s.calls ++ [.msleep 100] }) := by
  constructor
  · intro hv
    simp only [valid_result, Bool.and_eq_true, Bool.or_eq_true, decide_eq_true_eq] at hv
    obtain ⟨hpf, hm⟩ := hv
    simp only [poll_loop, hpf, if_true]
    by_cases hcm : flag = K.CMCS_FLAG_CM
    · simp only [hcm, if_true, decide_eq_true_eq] at hm ⊢
      simp [hm]
    · simp only [hcm, if_false] at hm ⊢
      by_cases hj : flag = K.CMCS_FLAG_JITTER
      · simp only [hj, if_true, decide_eq_true_eq] at hm ⊢
        simp [hm]
      · simp [hj] at hm
  · intro hv
    simp only [poll_loop]
    by_cases hpf : (seen k).1 = K.SELFTEST_PASS ∨ (seen k).1 = K.SELFTEST_FAIL
    · simp only [hpf, if_true]
      have hpf2 : (decide ((seen k).1 = K.SELFTEST_PASS)
          || decide ((seen k).1 = K.SELFTEST_FAIL)) = true := by
        simpa using hpf
      simp only [valid_result, hpf2, Bool.true_and] at hv
      by_cases hcm : flag = K.CMCS_FLAG_CM
      · simp only [hcm, if_true, decide_eq_false_iff_not] at hv ⊢
        simp [hv]
      · simp only [hcm, if_false] at hv ⊢
        by_cases hj : flag = K.CMCS_FLAG_JITTER
        · simp only [hj, if_true, decide_eq_false_iff_not] at hv ⊢
          simp [hv]
        · simp [hj]
    · simp only [hpf, if_false]

theorem poll_loop_spec (K : Consts) (flag : Nat) (seen : Nat → Nat × Nat) (n k : Nat)
    (s : State) :
    (poll_loop K flag seen n k s).1
        = (match first_valid K flag seen n k with
           | some j => ((k + n - 1 - j : Nat) : Int)
           | none => -1)
      ∧ (poll_loop K flag seen n k s).2.calls
        = s.calls ++ List.replicate (polls (k + n) (first_valid K flag seen n k) - k)
            (.msleep 100) := by
  induction n generalizing k s with
  | zero => simp [poll_loop, first_valid, polls]
  | succ n ih =>
    obtain ⟨hyes, hno⟩ := poll_loop_step K flag seen n k s
    cases hv : valid_result K flag (seen k) with
    | true =>
      obtain ⟨h1, h2⟩ := hyes hv
      simp only [first_valid, hv, if_true, polls]
      refine ⟨?_, ?_⟩
      · rw [h1]
        congr 1
        omega
      · rw [h2]
        simp
    | false =>
      have hfv : first_valid K flag seen (n + 1) k = first_valid K flag seen n (k + 1) := by
        simp [first_valid, hv]
      have e1 : k + 1 + n = k + (n + 1) := by omega
      rw [hno hv, hfv]
      obtain ⟨h1, h2⟩ := ih (k + 1)
        { dev := { s.dev with cmcs := (seen k).1, cmcs_msg := (seen k).2 },
          calls := s.calls ++ [.msleep 100] }
      rw [e1] at h1 h2
      refine ⟨h1, ?_⟩
      rw [h2]
      have hb : k + 1 ≤ polls (k + (n + 1)) (first_valid K flag seen n (k + 1)) := by
        cases hf : first_valid K flag seen n (k + 1) with
        | none => simp only [polls]; omega
        | some j =>
          have := first_valid_bounds K flag seen n (k + 1) j hf
          simp only [polls]
          omega
      obtain ⟨d, hd⟩ : ∃ d, polls (k + (n + 1)) (first_valid K flag seen n (k + 1)) = k + 1 + d :=
        ⟨_, (Nat.add_sub_cancel' hb).symm⟩
      rw [hd]
      have e2 : k + 1 + d - (k + 1) = d := by omega
      have e3 : k + 1 + d - k = d + 1 := by omega
      rw [e2, e3, List.replicate_succ]
      simp

/-! ## Self test: claim C24 -/

/-- C24: what `ist415_run_selftest` returns once the command is written. It
takes the branch that sets `-EPERM` exactly when the first valid result is observed in
the last of the `IST415_WAIT_TIME` polls; then it reads no data. In every other case,
also when no poll observes a valid result, it reads the self-test data and returns the
status of the read. So a run of all polls without a valid result is not reported as a
time-out, and a valid result in the last poll is. -/
theorem selftest_timeout_off_by_one (K : Consts) (s : State) (flag : Nat) (env : SelftestEnv)
    (hw : env.write = 0) :
    (ist415_run_selftest K s flag env).2
        = (if first_valid K flag env.seen K.IST415_WAIT_TIME 0 = some (K.IST415_WAIT_TIME - 1)
           then -K.EPERM else env.read)
      ∧ (ist415_run_selftest K s flag env).1.calls
        = s.calls ++ [.enable, .write_selftest flag]
            ++ List.replicate
                (polls K.IST415_WAIT_TIME (first_valid K flag env.seen K.IST415_WAIT_TIME 0))
                (.msleep 100)
            ++ (if first_valid K flag env.seen K.IST415_WAIT_TIME 0
                    = some (K.IST415_WAIT_TIME - 1)
                then [.disable]
                else [.read_selftest_data (s.dev.mtl_node_len * 2), .disable]) := by
  obtain ⟨h1, h2⟩ := poll_loop_spec K flag env.seen K.IST415_WAIT_TIME 0
    { dev := { s.dev with event_mode := false, cmcs := 0, cmcs_msg := 0 },
      calls := s.calls ++ [.enable, .write_selftest flag] }
  have hz : (poll_loop K flag env.seen K.IST415_WAIT_TIME 0
      { dev := { s.dev with event_mode := false, cmcs := 0, cmcs_msg := 0 },
        calls := s.calls ++ [.enable, .write_selftest flag] }).1 = 0
      ↔ first_valid K flag env.seen K.IST415_WAIT_TIME 0 = some (K.IST415_WAIT_TIME - 1) := by
    rw [h1]
    cases hf : first_valid K flag env.seen K.IST415_WAIT_TIME 0 with
    | none => simp
    | some j =>
      have := first_valid_bounds K flag env.seen _ _ j hf
      simp only [Option.some.injEq]
      constructor
      · intro h
        have h3 : 0 + K.IST415_WAIT_TIME - 1 - j = 0 := by exact_mod_cast h
        omega
      · intro h
        have h3 : 0 + K.IST415_WAIT_TIME - 1 - j = 0 := by omega
        rw [h3]
        rfl
  simp only [Nat.zero_add, Nat.sub_zero] at h2
  unfold ist415_run_selftest
  simp only [hw, ne_eq, not_true_eq_false, if_false]
  by_cases hc : first_valid K flag env.seen K.IST415_WAIT_TIME 0 = some (K.IST415_WAIT_TIME - 1)
  · rw [if_pos (hz.mpr hc), if_pos hc, if_pos hc]
    refine ⟨rfl, ?_⟩
    simp only [h2]
  · rw [if_neg (fun h => hc (hz.mp h)), if_neg hc, if_neg hc]
    refine ⟨rfl, ?_⟩
    simp only [h2]

/-- Worked instances of C24 with three polls and the CM flag. A controller that never
answers: the data is read and 0 is returned. A pass with the valid message at the
third poll: `-EPERM` is returned and nothing is read. The same at the second poll: the
data is read and 0 is returned. -/
theorem selftest_timeout_off_by_one_witness :
    ((ist415_run_selftest demo_consts demo_state demo_consts.CMCS_FLAG_CM env_silent).2 = 0
      ∧ (ist415_run_selftest demo_consts demo_state demo_consts.CMCS_FLAG_CM env_silent).1.calls
          = [.enable, .write_selftest 1, .msleep 100, .msleep 100, .msleep 100,
             .read_selftest_data 8, .disable])
    ∧ ((ist415_run_selftest demo_consts demo_state demo_consts.CMCS_FLAG_CM (env_pass_at 2)).2
          = -demo_consts.EPERM
      ∧ (ist415_run_selftest demo_consts demo_state demo_consts.CMCS_FLAG_CM
            (env_pass_at 2)).1.calls
          = [.enable, .write_selftest 1, .msleep 100, .msleep 100, .msleep 100, .disable])
    ∧ ((ist415_run_selftest demo_consts demo_state demo_consts.CMCS_FLAG_CM (env_pass_at 1)).2 = 0
      ∧ (ist415_run_selftest demo_consts demo_state demo_consts.CMCS_FLAG_CM
            (env_pass_at 1)).1.calls
          = [.enable, .write_selftest 1, .msleep 100, .msleep 100,
             .read_selftest_data 8, .disable]) :=
  ⟨selftest_timeout_off_by_one demo_consts demo_state demo_consts.CMCS_FLAG_CM env_silent rfl,
   selftest_timeout_off_by_one demo_consts demo_state demo_consts.CMCS_FLAG_CM (env_pass_at 2) rfl,
   selftest_timeout_off_by_one demo_consts demo_state demo_consts.CMCS_FLAG_CM (env_pass_at 1) rfl⟩

end Ist415
